import Mathlib

/-!
# CPU render device (intern/cycles/device/device_cpu.cpp)

A shallow embedding of the CPU device of the renderer: the kernel-selection
chains, the tile loop of `thread_render`, the sample loop of `thread_shader`,
the plane arithmetic of `denoise_fill_buffer`, the pixel loops of
`denoise_run` and `thread_film_convert`, the memory bookkeeping of
`mem_alloc` and `mem_free`, the capability report of
`device_cpu_capabilities`, and the per-pixel helpers and window loops of
`kernel/kernel_filter_util.h`.

Conventions of the embedding.
* A C `int` is an `Int`; signed overflow is undefined behaviour in the source
  and is outside the embedding.
* Calls into collaborators (kernels, `acquire_tile`, `release_tile`,
  `update_progress`, the cancellation predicates) are recorded as `Event`s in
  the order in which the source makes them.
* The answers of the cancellation predicates come from a `World`: one answer
  per query, indexed by a clock that advances with every query, so that every
  sequence of answers is covered.
* A `new[]` expression of the denoiser throws when the number of elements
  asked for is negative or when the `World` says that no memory is left; no
  handler exists, so the exception leaves `thread_render` and is recorded as
  the last event of the trace.
* The helpers of `kernel_filter_util.h` are written over an arbitrary linearly
  ordered field, so that they can be evaluated over the rationals and reasoned
  about over the reals; `sqrtf` and the compile-time constants are parameters.
-/

namespace Cycles

/-! ## Kernel variants and their selection -/

/-- ISA level of a kernel variant: `kernel_cpu_<op>` is `scalar`,
`kernel_cpu_sse2_<op>` is `sse2`, and so on. -/
inductive IsaLevel where
  | scalar
  | sse2
  | sse3
  | sse41
  | avx
  | avx2
deriving DecidableEq, Repr

/-- Position of a level in the order scalar < SSE2 < SSE3 < SSE4.1 < AVX < AVX2. -/
def IsaLevel.rank : IsaLevel → Nat
  | .scalar => 0
  | .sse2 => 1
  | .sse3 => 2
  | .sse41 => 3
  | .avx => 4
  | .avx2 => 5

/-- The operations that have one kernel per ISA level. -/
inductive KernelOp where
  | path_trace
  | convert_to_half_float
  | convert_to_byte
  | shader
  | filter_divide_shadow
  | filter_get_feature
  | filter_non_local_means
  | filter_combine_halves
  | filter_estimate_params
  | filter_final_pass
deriving DecidableEq, Repr

/-- A kernel function: `kernel_cpu_avx2_path_trace` is `⟨.avx2, .path_trace⟩`,
`kernel_cpu_path_trace` is `⟨.scalar, .path_trace⟩`. -/
structure Kernel where
  level : IsaLevel
  op : KernelOp
deriving DecidableEq, Repr

/-- The preprocessor flags `WITH_CYCLES_OPTIMIZED_KERNEL_*` of the build. -/
structure KernelBuild where
  sse2 : Bool
  sse3 : Bool
  sse41 : Bool
  avx : Bool
  avx2 : Bool
deriving DecidableEq, Repr

/-- The values of `system_cpu_support_*()`, constant during a process run. -/
structure CpuSupport where
  sse2 : Bool
  sse3 : Bool
  sse41 : Bool
  avx : Bool
  avx2 : Bool
deriving DecidableEq, Repr

/-- Whether the build has a variant of the level; the scalar kernels always exist. -/
def KernelBuild.has (b : KernelBuild) : IsaLevel → Bool
  | .scalar => true
  | .sse2 => b.sse2
  | .sse3 => b.sse3
  | .sse41 => b.sse41
  | .avx => b.avx
  | .avx2 => b.avx2

/-- Whether the CPU supports the level; scalar code always runs. -/
def CpuSupport.has (s : CpuSupport) : IsaLevel → Bool
  | .scalar => true
  | .sse2 => s.sse2
  | .sse3 => s.sse3
  | .sse41 => s.sse41
  | .avx => s.avx
  | .avx2 => s.avx2

/-- The chain of the constructor `CPUDevice::CPUDevice` (lines 75-107): the
message written to the log. -/
def CPUDevice_log (b : KernelBuild) (s : CpuSupport) : String :=
  if b.avx2 && s.avx2 then "Will be using AVX2 kernels."
  else if b.avx && s.avx then "Will be using AVX kernels."
  else if b.sse41 && s.sse41 then "Will be using SSE4.1 kernels."
  else if b.sse3 && s.sse3 then "Will be using SSE3kernels."
  else if b.sse2 && s.sse2 then "Will be using SSE2 kernels."
  else "Will be using regular kernels."

/-- The text the constructor logs for each level. -/
def log_message : IsaLevel → String
  | .avx2 => "Will be using AVX2 kernels."
  | .avx => "Will be using AVX kernels."
  | .sse41 => "Will be using SSE4.1 kernels."
  | .sse3 => "Will be using SSE3kernels."
  | .sse2 => "Will be using SSE2 kernels."
  | .scalar => "Will be using regular kernels."

/-- The four function pointers chosen at the top of `denoise_fill_buffer`. -/
structure PrefilterKernels where
  filter_divide_shadow : Kernel
  filter_get_feature : Kernel
  filter_non_local_means : Kernel
  filter_combine_halves : Kernel
deriving DecidableEq, Repr

/-- The chain of `denoise_fill_buffer` (lines 218-268). -/
def denoise_fill_buffer_kernels (b : KernelBuild) (s : CpuSupport) : PrefilterKernels :=
  if b.avx2 && s.avx2 then
    { filter_divide_shadow := ⟨.avx2, .filter_divide_shadow⟩
      filter_get_feature := ⟨.avx2, .filter_get_feature⟩
      filter_non_local_means := ⟨.avx2, .filter_non_local_means⟩
      filter_combine_halves := ⟨.avx2, .filter_combine_halves⟩ }
  else if b.avx && s.avx then
    { filter_divide_shadow := ⟨.avx, .filter_divide_shadow⟩
      filter_get_feature := ⟨.avx, .filter_get_feature⟩
      filter_non_local_means := ⟨.avx, .filter_non_local_means⟩
      filter_combine_halves := ⟨.avx, .filter_combine_halves⟩ }
  else if b.sse41 && s.sse41 then
    { filter_divide_shadow := ⟨.sse41, .filter_divide_shadow⟩
      filter_get_feature := ⟨.sse41, .filter_get_feature⟩
      filter_non_local_means := ⟨.sse41, .filter_non_local_means⟩
      filter_combine_halves := ⟨.sse41, .filter_combine_halves⟩ }
  else if b.sse3 && s.sse3 then
    { filter_divide_shadow := ⟨.sse3, .filter_divide_shadow⟩
      filter_get_feature := ⟨.sse3, .filter_get_feature⟩
      filter_non_local_means := ⟨.sse3, .filter_non_local_means⟩
      filter_combine_halves := ⟨.sse3, .filter_combine_halves⟩ }
  else if b.sse2 && s.sse2 then
    { filter_divide_shadow := ⟨.sse2, .filter_divide_shadow⟩
      filter_get_feature := ⟨.sse2, .filter_get_feature⟩
      filter_non_local_means := ⟨.sse2, .filter_non_local_means⟩
      filter_combine_halves := ⟨.sse2, .filter_combine_halves⟩ }
  else
    { filter_divide_shadow := ⟨.scalar, .filter_divide_shadow⟩
      filter_get_feature := ⟨.scalar, .filter_get_feature⟩
      filter_non_local_means := ⟨.scalar, .filter_non_local_means⟩
      filter_combine_halves := ⟨.scalar, .filter_combine_halves⟩ }

/-- The two function pointers chosen at the top of `denoise_run`. -/
structure DenoiseKernels where
  filter_estimate_params_kernel : Kernel
  filter_final_pass_kernel : Kernel
deriving DecidableEq, Repr

/-- The chain of `denoise_run` (lines 423-461). -/
def denoise_run_kernels (b : KernelBuild) (s : CpuSupport) : DenoiseKernels :=
  if b.avx2 && s.avx2 then
    { filter_estimate_params_kernel := ⟨.avx2, .filter_estimate_params⟩
      filter_final_pass_kernel := ⟨.avx2, .filter_final_pass⟩ }
  else if b.avx && s.avx then
    { filter_estimate_params_kernel := ⟨.avx, .filter_estimate_params⟩
      filter_final_pass_kernel := ⟨.avx, .filter_final_pass⟩ }
  else if b.sse41 && s.sse41 then
    { filter_estimate_params_kernel := ⟨.sse41, .filter_estimate_params⟩
      filter_final_pass_kernel := ⟨.sse41, .filter_final_pass⟩ }
  else if b.sse3 && s.sse3 then
    { filter_estimate_params_kernel := ⟨.sse3, .filter_estimate_params⟩
      filter_final_pass_kernel := ⟨.sse3, .filter_final_pass⟩ }
  else if b.sse2 && s.sse2 then
    { filter_estimate_params_kernel := ⟨.sse2, .filter_estimate_params⟩
      filter_final_pass_kernel := ⟨.sse2, .filter_final_pass⟩ }
  else
    { filter_estimate_params_kernel := ⟨.scalar, .filter_estimate_params⟩
      filter_final_pass_kernel := ⟨.scalar, .filter_final_pass⟩ }

/-- The chain of `thread_render` (lines 509-541): `path_trace_kernel`. -/
def thread_render_kernel (b : KernelBuild) (s : CpuSupport) : Kernel :=
  if b.avx2 && s.avx2 then ⟨.avx2, .path_trace⟩
  else if b.avx && s.avx then ⟨.avx, .path_trace⟩
  else if b.sse41 && s.sse41 then ⟨.sse41, .path_trace⟩
  else if b.sse3 && s.sse3 then ⟨.sse3, .path_trace⟩
  else if b.sse2 && s.sse2 then ⟨.sse2, .path_trace⟩
  else ⟨.scalar, .path_trace⟩

/-- The chain of the `rgba_half` branch of `thread_film_convert` (lines 643-675):
`convert_to_half_float_kernel`. -/
def thread_film_convert_half_kernel (b : KernelBuild) (s : CpuSupport) : Kernel :=
  if b.avx2 && s.avx2 then ⟨.avx2, .convert_to_half_float⟩
  else if b.avx && s.avx then ⟨.avx, .convert_to_half_float⟩
  else if b.sse41 && s.sse41 then ⟨.sse41, .convert_to_half_float⟩
  else if b.sse3 && s.sse3 then ⟨.sse3, .convert_to_half_float⟩
  else if b.sse2 && s.sse2 then ⟨.sse2, .convert_to_half_float⟩
  else ⟨.scalar, .convert_to_half_float⟩

/-- The chain of the byte branch of `thread_film_convert` (lines 684-716):
`convert_to_byte_kernel`. -/
def thread_film_convert_byte_kernel (b : KernelBuild) (s : CpuSupport) : Kernel :=
  if b.avx2 && s.avx2 then ⟨.avx2, .convert_to_byte⟩
  else if b.avx && s.avx then ⟨.avx, .convert_to_byte⟩
  else if b.sse41 && s.sse41 then ⟨.sse41, .convert_to_byte⟩
  else if b.sse3 && s.sse3 then ⟨.sse3, .convert_to_byte⟩
  else if b.sse2 && s.sse2 then ⟨.sse2, .convert_to_byte⟩
  else ⟨.scalar, .convert_to_byte⟩

/-- The chain of `thread_shader` (lines 735-767): `shader_kernel`. -/
def thread_shader_kernel (b : KernelBuild) (s : CpuSupport) : Kernel :=
  if b.avx2 && s.avx2 then ⟨.avx2, .shader⟩
  else if b.avx && s.avx then ⟨.avx, .shader⟩
  else if b.sse41 && s.sse41 then ⟨.sse41, .shader⟩
  else if b.sse3 && s.sse3 then ⟨.sse3, .shader⟩
  else if b.sse2 && s.sse2 then ⟨.sse2, .shader⟩
  else ⟨.scalar, .shader⟩

/-! ## Tiles, tasks and the trace of collaborator calls -/

/-- The C type `int4` with its constructor `make_int4`. -/
structure Int4 where
  x : Int
  y : Int
  z : Int
  w : Int
deriving DecidableEq, Repr

/-- The function `make_int4`. -/
def make_int4 (x y z w : Int) : Int4 := ⟨x, y, z, w⟩

/-- Whether every value of a list fits the C type `int` of 32 bits. The
arithmetic of the embedding is that of the integers; a computation of the
source whose result does not fit `int` is undefined behaviour and is excluded
by a hypothesis of this kind. -/
def int_values (values : List Int) : Bool :=
  values.all fun v => decide (-2147483648 ≤ v) && decide (v ≤ 2147483647)

/-- The field `RenderTile::task`; the source tests for `PATH_TRACE`, then for
`DENOISE`, and does nothing for any other value. -/
inductive TileTask where
  | PATH_TRACE
  | DENOISE
  | other
deriving DecidableEq, Repr

/-- The fields of `tile.buffers->params` that the device reads;
`passes_size` is the value of `params.get_passes_size()`. -/
structure BufferParams where
  width : Int
  height : Int
  overscan : Int
  frames : Int
  passes_size : Int
deriving DecidableEq, Repr

/-- The fields of `RenderTile` that the device reads or writes. Pointers are
addresses; `has_buffers` says whether the pointer `buffers` is non-null (the
source tests it for neighbour tiles only) and `params` is `buffers->params`. -/
structure RenderTile where
  x : Int
  y : Int
  w : Int
  h : Int
  start_sample : Int
  num_samples : Int
  sample : Int
  offset : Int
  stride : Int
  task : TileTask
  buffer : Nat
  rng_state : Nat
  has_buffers : Bool
  params : BufferParams
deriving DecidableEq, Repr

/-- The field `DeviceTask::type`. -/
inductive TaskType where
  | RENDER
  | FILM_CONVERT
  | SHADER
deriving DecidableEq, Repr

/-- The fields of `DeviceTask` that the device reads. -/
structure DeviceTask where
  type : TaskType
  x : Int
  y : Int
  w : Int
  h : Int
  rgba_byte : Nat
  rgba_half : Nat
  buffer : Nat
  sample : Int
  num_samples : Int
  offset : Int
  stride : Int
  shader_input : Nat
  shader_output : Nat
  shader_output_luma : Nat
  shader_eval_type : Int
  shader_filter : Int
  shader_x : Int
  shader_w : Int
  need_finish_queue : Bool
deriving DecidableEq, Repr

/-- The part of `KernelGlobals` that the device reads:
`kg.__data.integrator.half_window`. -/
structure KernelGlobals where
  half_window : Int
deriving DecidableEq, Repr

/-- A call the device makes into a collaborator, with the arguments it passes
and, for calls that return a value, the value returned. `exception` records
that the `new[]` expression of the call before it has thrown; nothing in the
device catches the exception. -/
inductive Event where
  | canceled (r : Bool)
  | get_cancel (r : Bool)
  | acquire_tile (r : Option RenderTile)
  | release_tile (tile : RenderTile)
  | update_progress (tile : Option RenderTile)
  | get_neighbor_tiles (tile : RenderTile)
  | path_trace_kernel (k : Kernel) (buffer rng_state : Nat)
      (sample x y offset stride : Int)
  | shader_kernel (k : Kernel) (input output output_luma : Nat)
      (type filter i offset sample : Int)
  | denoise_fill_buffer (sample : Int) (rect : Int4) (buffers : List Nat)
      (tile_x tile_y offsets strides : List Int) (frames : Int)
      (frame_strides : List Int)
  | denoise_run (sample : Int) (filter_area rect : Int4) (offset stride : Int)
      (buffers : Nat)
  | exception
deriving DecidableEq, Repr

/-- What the device cannot decide itself. `get_cancel t` and `canceled t` are
the answers of `task.get_cancel()` and `task_pool.canceled()` to a query made
at clock `t`; the clock advances by one with every query.
`get_neighbor_tiles tile i` is slot `i` of the array that
`task.get_neighbor_tiles` fills when slot 4 holds `tile`.
`bad_alloc t i` says whether the allocator has no memory left for the `new[]`
expression number `i` (0 for `filter_buffers`, 1 for `storages`) of the
denoise that starts at clock `t`. -/
structure World where
  get_cancel : Nat → Bool
  canceled : Nat → Bool
  get_neighbor_tiles : RenderTile → Nat → RenderTile
  bad_alloc : Nat → Nat → Bool

/-- The values of the loop variable of `for(int v = lo; v < hi; v++)`, in order. -/
def int_range (lo hi : Int) : List Int :=
  (List.range (hi - lo).toNat).map fun (i : Nat) => lo + (i : Int)

/-- The expression `task.get_cancel() || task_pool.canceled()` evaluated at
clock `t`: its value, the clock afterwards and the queries made. The second
query is made only when the first answers false. -/
def cancel_poll (w : World) (t : Nat) : Bool × Nat × List Event :=
  if w.get_cancel t then (true, t + 1, [Event.get_cancel true])
  else (w.canceled (t + 1), t + 2,
    [Event.get_cancel false, Event.canceled (w.canceled (t + 1))])

/-! ## thread_render -/

/-- The pixel loops of one sample (lines 560-565). -/
def path_trace_pixels (k : Kernel) (tile : RenderTile) (sample : Int) : List Event :=
  (int_range tile.y (tile.y + tile.h)).flatMap fun y =>
    (int_range tile.x (tile.x + tile.w)).map fun x =>
      Event.path_trace_kernel k tile.buffer tile.rng_state sample x y tile.offset tile.stride

/-- The sample loop (lines 554-570) with `n` iterations left and the loop
variable at `sample`: the clock and the tile afterwards, and the calls made. -/
def sample_loop (k : Kernel) (w : World) (task : DeviceTask) :
    Nat → Int → Nat → RenderTile → Nat × RenderTile × List Event
  | 0, _, t, tile => (t, tile, [])
  | n + 1, sample, t, tile =>
    let p := cancel_poll w t
    if p.1 && !task.need_finish_queue then (p.2.1, tile, p.2.2)
    else
      let tile1 := { tile with sample := sample + 1 }
      let r := sample_loop k w task n (sample + 1) p.2.1 tile1
      (r.1, r.2.1,
        p.2.2 ++ path_trace_pixels k tile sample ++ [Event.update_progress (some tile1)] ++ r.2.2)

/-- The inline denoise of a path-traced tile (lines 573-587). -/
def overscan_denoise (tile : RenderTile) (end_sample : Int) : List Event :=
  let tile_x := [tile.x, tile.x, tile.x + tile.w, tile.x + tile.w]
  let tile_y := [tile.y, tile.y, tile.y + tile.h, tile.y + tile.h]
  let offsets := [0, 0, 0, 0, tile.offset, 0, 0, 0, 0]
  let strides := [0, 0, 0, 0, tile.stride, 0, 0, 0, 0]
  let buffers := [0, 0, 0, 0, tile.buffer, 0, 0, 0, 0]
  let params := tile.params
  let frame_stride := [0, 0, 0, 0, params.width * params.height * params.passes_size, 0, 0, 0, 0]
  let overscan := tile.params.overscan
  let filter_area := make_int4 (tile.x + overscan) (tile.y + overscan)
    (tile.w - 2 * overscan) (tile.h - 2 * overscan)
  let rect := make_int4 tile.x tile.y (tile.x + tile.w) (tile.y + tile.h)
  [Event.denoise_fill_buffer end_sample rect buffers tile_x tile_y offsets strides
      tile.params.frames frame_stride,
    Event.denoise_run end_sample filter_area rect tile.offset tile.stride tile.buffer]

/-- The branch for a `DENOISE` tile (lines 591-623): the tile afterwards and
the calls made. -/
def denoise_tile (kg : KernelGlobals) (w : World) (tile : RenderTile) :
    RenderTile × List Event :=
  let sample := tile.start_sample + tile.num_samples
  let rtiles := w.get_neighbor_tiles tile
  let slots := List.range 9
  let buffers := slots.map fun i => (rtiles i).buffer
  let offsets := slots.map fun i => (rtiles i).offset
  let strides := slots.map fun i => (rtiles i).stride
  let frame_stride := slots.map fun i =>
    if (rtiles i).has_buffers then
      (rtiles i).params.width * (rtiles i).params.height * (rtiles i).params.passes_size
    else 0
  let tile_x := [(rtiles 3).x, (rtiles 4).x, (rtiles 5).x, (rtiles 5).x + (rtiles 5).w]
  let tile_y := [(rtiles 1).y, (rtiles 4).y, (rtiles 7).y, (rtiles 7).y + (rtiles 7).h]
  let hw := kg.half_window
  let filter_area := make_int4 tile.x tile.y tile.w tile.h
  let rect := make_int4 (max (tile.x - hw) (rtiles 3).x) (max (tile.y - hw) (rtiles 1).y)
    (min (tile.x + tile.w + hw + 1) ((rtiles 5).x + (rtiles 5).w))
    (min (tile.y + tile.h + hw + 1) ((rtiles 7).y + (rtiles 7).h))
  let tile1 := { tile with sample := sample }
  (tile1,
    [Event.get_neighbor_tiles tile,
      Event.denoise_fill_buffer sample rect buffers tile_x tile_y offsets strides
        tile.params.frames frame_stride,
      Event.denoise_run sample filter_area rect tile.offset tile.stride tile.buffer,
      Event.update_progress (some tile1)])

/-- Modelled from the spec: `align_up` is declared outside the sources at hand;
the specification describes `align_up(n, 4)` as `n` rounded up to a multiple
of 4. -/
def align_up (offset alignment : Int) : Int :=
  (offset + alignment - 1) / alignment * alignment

/-- The number of elements that the `new[]` expression of a call asks for:
`new float[22*pass_stride]` in `denoise_fill_buffer` (line 270, with
`pass_stride = w*h*frames` of lines 268-269) and
`new FilterStorage[filter_area.z*filter_area.w]` in `denoise_run` (line 463).
The other calls allocate nothing. -/
def Event.new_size : Event → Option Int
  | .denoise_fill_buffer _ rect _ _ _ _ _ frames _ =>
    some (22 * (align_up (rect.z - rect.x) 4 * (rect.w - rect.y) * frames))
  | .denoise_run _ filter_area _ _ _ _ => some (filter_area.z * filter_area.w)
  | _ => none

/-- Whether an event is the exception thrown by a `new[]` expression. -/
def Event.is_exception : Event → Bool
  | .exception => true
  | _ => false

/-- The calls of a denoise that starts at clock `t`, made in order until a
`new[]` expression throws; `i` counts the `new[]` expressions evaluated so
far. `new T[n]` throws when `n` is negative or when the allocator has no
memory left. The exception is not caught, so the calls after it are not made. -/
def run_denoise (w : World) (t : Nat) : Nat → List Event → List Event
  | _, [] => []
  | i, e :: rest =>
    match e.new_size with
    | none => e :: run_denoise w t i rest
    | some n =>
      if decide (n < 0) || w.bad_alloc t i then [e, Event.exception]
      else e :: run_denoise w t (i + 1) rest

/-- The body of the tile loop between `acquire_tile` and `release_tile`
(lines 547-624), entered at clock `t`: the clock and the tile afterwards, and
the calls made. When a `new[]` expression of the denoise throws, the calls
end with `exception`. -/
def render_tile (k : Kernel) (kg : KernelGlobals) (w : World) (task : DeviceTask)
    (t : Nat) (tile : RenderTile) : Nat × RenderTile × List Event :=
  match tile.task with
  | TileTask.PATH_TRACE =>
    let start_sample := tile.start_sample
    let end_sample := tile.start_sample + tile.num_samples
    let r := sample_loop k w task (end_sample - start_sample).toNat start_sample t tile
    if r.2.1.params.overscan ≠ 0 then
      if w.get_cancel r.1 then (r.1 + 1, r.2.1, r.2.2 ++ [Event.get_cancel true])
      else (r.1 + 1, r.2.1,
        r.2.2 ++ [Event.get_cancel false] ++
          run_denoise w (r.1 + 1) 0 (overscan_denoise r.2.1 end_sample))
    else (r.1, r.2.1, r.2.2)
  | TileTask.DENOISE =>
    let d := denoise_tile kg w tile
    let calls := run_denoise w t 0 d.2
    (t, if calls.any Event.is_exception then tile else d.1, calls)
  | TileTask.other => (t, tile, [])

/-- The tile loop (lines 543-632) entered at clock `t`. `queue` lists the
tiles that the successive calls of `task.acquire_tile` hand to this worker;
once it is used up `acquire_tile` returns false. An exception thrown in the
body leaves the loop and the function at once: `release_tile` (line 626) is
not reached. -/
def tile_loop (k : Kernel) (kg : KernelGlobals) (w : World) (task : DeviceTask) :
    List RenderTile → Nat → List Event
  | [], _ => [Event.acquire_tile none]
  | tile :: queue, t =>
    let r := render_tile k kg w task t tile
    if r.2.2.any Event.is_exception then [Event.acquire_tile (some tile)] ++ r.2.2
    else
      let c := w.canceled r.1
      [Event.acquire_tile (some tile)] ++ r.2.2 ++
        [Event.release_tile r.2.1, Event.canceled c] ++
        (if c && !task.need_finish_queue then [] else tile_loop k kg w task queue (r.1 + 1))

/-- The function `CPUDevice::thread_render` (lines 497-635): the calls it
makes, in order. -/
def thread_render (b : KernelBuild) (s : CpuSupport) (kg : KernelGlobals) (w : World)
    (task : DeviceTask) (queue : List RenderTile) : List Event :=
  let c := w.canceled 0
  if c && !task.need_finish_queue then [Event.canceled true]
  else [Event.canceled c] ++ tile_loop (thread_render_kernel b s) kg w task queue 1

/-! ## thread_shader -/

/-- The inner loop of `thread_shader` (lines 770-779) for one sample. -/
def shader_calls (k : Kernel) (task : DeviceTask) (sample : Int) : List Event :=
  (int_range task.shader_x (task.shader_x + task.shader_w)).map fun x =>
    Event.shader_kernel k task.shader_input task.shader_output task.shader_output_luma
      task.shader_eval_type task.shader_filter x task.offset sample

/-- The sample loop of `thread_shader` (lines 769-786) with `n` iterations
left, the loop variable at `sample` and the clock at `t`. -/
def shader_loop (k : Kernel) (w : World) (task : DeviceTask) : Nat → Int → Nat → List Event
  | 0, _, _ => []
  | n + 1, sample, t =>
    let p := cancel_poll w t
    if p.1 then shader_calls k task sample ++ p.2.2
    else shader_calls k task sample ++ p.2.2 ++ [Event.update_progress none] ++
      shader_loop k w task n (sample + 1) p.2.1

/-- The function `CPUDevice::thread_shader` (lines 726-791): the calls it
makes, in order. -/
def thread_shader (b : KernelBuild) (s : CpuSupport) (w : World) (task : DeviceTask) :
    List Event :=
  shader_loop (thread_shader_kernel b s) w task task.num_samples.toNat 0 0

/-! ## denoise_fill_buffer -/

/-- A call of one of the prefilter kernels, with the arguments in the order
of the kernel's signature. A pointer into the filter buffer is the offset, in
floats, from `filter_buffers`; `none` is `NULL`. A pointer of the render
buffers is an address. -/
inductive FilterCall where
  | filter_get_feature (k : Kernel) (sample : Int) (buffers : List Int)
      (m_offset v_offset x y : Int) (tile_x tile_y offset stride : List Int)
      (mean variance : Int) (prefilter_rect : Int4)
  | filter_non_local_means (k : Kernel) (x y : Int)
      (noisyImage weightImage variance filteredImage : Int) (rect : Int4)
      (r f : Int) (a k_2 : Rat)
  | filter_divide_shadow (k : Kernel) (sample : Int) (buffers : List Int)
      (x y : Int) (tile_x tile_y offset stride : List Int)
      (unfiltered sampleVariance sampleVarianceV bufferVariance : Int)
      (prefilter_rect : Int4)
  | filter_combine_halves (k : Kernel) (x y : Int) (mean : Option Int)
      (variance a b : Int) (prefilter_rect : Int4) (r : Int)
deriving DecidableEq, Repr

/-- The loop nest `for(y = rect.y; y < rect.w; y++) for(x = rect.x; x < rect.z; x++)`. -/
def for_pixels (rect : Int4) (body : Int → Int → List FilterCall) : List FilterCall :=
  (int_range rect.y rect.w).flatMap fun y =>
    (int_range rect.x rect.z).flatMap fun x => body x y

/-- Step 1 of `denoise_fill_buffer` (lines 282-316) for one frame. -/
def prefilter_features (K : PrefilterKernels) (sample : Int) (rect : Int4)
    (buffer : List Int) (tile_x tile_y offsets strides : List Int)
    (filter_buffer pass_stride : Int) : List FilterCall :=
  let unfiltered := filter_buffer + 16 * pass_stride
  let mean_from : List Int := [0, 1, 2, 6, 7, 8, 12]
  let variance_from : List Int := [3, 4, 5, 9, 10, 11, 13]
  let offset_to : List Int := [0, 2, 4, 10, 12, 14, 6]
  (List.zip mean_from (List.zip variance_from offset_to)).flatMap fun i =>
    for_pixels rect (fun x y =>
      [FilterCall.filter_get_feature K.filter_get_feature sample buffer i.1 i.2.1 x y
        tile_x tile_y offsets strides unfiltered
        (filter_buffer + (i.2.2 + 1) * pass_stride) rect]) ++
    for_pixels rect (fun x y =>
      [FilterCall.filter_non_local_means K.filter_non_local_means x y unfiltered unfiltered
        (filter_buffer + (i.2.2 + 1) * pass_stride) (filter_buffer + i.2.2 * pass_stride)
        rect 2 2 1 (1 / 4)])

/-- Step 2 of `denoise_fill_buffer` (lines 321-396) for one frame. -/
def prefilter_shadow (K : PrefilterKernels) (sample : Int) (rect : Int4)
    (buffer : List Int) (tile_x tile_y offsets strides : List Int)
    (filter_buffer pass_stride : Int) : List FilterCall :=
  let sampleV := filter_buffer + 16 * pass_stride
  let sampleVV := filter_buffer + 17 * pass_stride
  let bufferV := filter_buffer + 18 * pass_stride
  let cleanV := filter_buffer + 19 * pass_stride
  let unfiltered := filter_buffer + 20 * pass_stride
  for_pixels rect (fun x y =>
    [FilterCall.filter_divide_shadow K.filter_divide_shadow sample buffer x y
      tile_x tile_y offsets strides unfiltered sampleV sampleVV bufferV rect]) ++
  for_pixels rect (fun x y =>
    [FilterCall.filter_non_local_means K.filter_non_local_means x y
      bufferV sampleV sampleVV cleanV rect 6 3 4 1]) ++
  for_pixels rect (fun x y =>
    [FilterCall.filter_non_local_means K.filter_non_local_means x y
      unfiltered (unfiltered + pass_stride) cleanV sampleV rect 5 3 1 (1 / 4),
     FilterCall.filter_non_local_means K.filter_non_local_means x y
      (unfiltered + pass_stride) unfiltered cleanV bufferV rect 5 3 1 (1 / 4)]) ++
  for_pixels rect (fun x y =>
    [FilterCall.filter_combine_halves K.filter_combine_halves x y
      none sampleVV sampleV bufferV rect 2]) ++
  for_pixels rect (fun x y =>
    [FilterCall.filter_non_local_means K.filter_non_local_means x y
      sampleV bufferV sampleVV unfiltered rect 4 2 1 (1 / 2),
     FilterCall.filter_non_local_means K.filter_non_local_means x y
      bufferV sampleV sampleVV (unfiltered + pass_stride) rect 4 2 1 (1 / 2)]) ++
  for_pixels rect (fun x y =>
    [FilterCall.filter_combine_halves K.filter_combine_halves x y
      (some (filter_buffer + 8 * pass_stride)) (filter_buffer + 9 * pass_stride)
      unfiltered (unfiltered + pass_stride) rect 0])

/-- Step 3 of `denoise_fill_buffer` (lines 401-412) for one frame. -/
def copy_color (K : PrefilterKernels) (sample : Int) (rect : Int4)
    (buffer : List Int) (tile_x tile_y offsets strides : List Int)
    (filter_buffer pass_stride : Int) : List FilterCall :=
  let mean_from : List Int := [20, 21, 22]
  let variance_from : List Int := [23, 24, 25]
  let offset_to : List Int := [16, 18, 20]
  (List.zip mean_from (List.zip variance_from offset_to)).flatMap fun i =>
    for_pixels rect (fun x y =>
      [FilterCall.filter_get_feature K.filter_get_feature sample buffer i.1 i.2.1 x y
        tile_x tile_y offsets strides (filter_buffer + i.2.2 * pass_stride)
        (filter_buffer + (i.2.2 + 1) * pass_stride) rect])

/-- The body of the frame loop of `denoise_fill_buffer` (lines 276-412). -/
def denoise_fill_frame (K : PrefilterKernels) (sample : Int) (rect : Int4)
    (buffers : List Nat) (tile_x tile_y offsets strides : List Int)
    (frame_strides : List Int) (w h pass_stride frame : Int) : List FilterCall :=
  let filter_buffer := w * h * frame
  let buffer := List.zipWith (fun (p : Nat) (fs : Int) => (p : Int) + fs * frame) buffers frame_strides
  prefilter_features K sample rect buffer tile_x tile_y offsets strides filter_buffer pass_stride ++
  prefilter_shadow K sample rect buffer tile_x tile_y offsets strides filter_buffer pass_stride ++
  copy_color K sample rect buffer tile_x tile_y offsets strides filter_buffer pass_stride

/-- The function `CPUDevice::denoise_fill_buffer` (lines 211-416): the number
of floats it allocates for `filter_buffers` and the kernel calls it makes, in
order. -/
def denoise_fill_buffer (b : KernelBuild) (s : CpuSupport) (sample : Int) (rect : Int4)
    (buffers : List Nat) (tile_x tile_y offsets strides : List Int) (frames : Int)
    (frame_strides : List Int) : Int × List FilterCall :=
  let K := denoise_fill_buffer_kernels b s
  let w := align_up (rect.z - rect.x) 4
  let h := rect.w - rect.y
  let pass_stride := w * h * frames
  (22 * pass_stride,
    (int_range 0 frames).flatMap fun frame =>
      denoise_fill_frame K sample rect buffers tile_x tile_y offsets strides frame_strides
        w h pass_stride frame)

/-! ## denoise_run -/

/-- A call of one of the two kernels of `denoise_run`, with the arguments in
the order of the kernel's signature; the kernel globals and the pointer to
the filter buffer are left out. `storage` is the index of the record in the
array `storages`. -/
inductive DenoiseCall where
  | filter_estimate_params (k : Kernel) (sample x y storage : Int) (rect : Int4)
  | filter_final_pass (k : Kernel) (sample x y offset stride : Int) (buffers : Nat)
      (storage : Int) (filter_area rect : Int4)
deriving DecidableEq, Repr

/-- The index in `storages` of the record a kernel of `denoise_run` is given. -/
def DenoiseCall.storage : DenoiseCall → Int
  | .filter_estimate_params _ _ _ _ storage _ => storage
  | .filter_final_pass _ _ _ _ _ _ _ storage _ _ => storage

/-- The function `CPUDevice::denoise_run` (lines 418-495): the number of
records it allocates for `storages` and the kernel calls it makes, in order. -/
def denoise_run (b : KernelBuild) (s : CpuSupport) (sample : Int) (filter_area rect : Int4)
    (offset stride : Int) (buffers : Nat) : Int × List DenoiseCall :=
  let K := denoise_run_kernels b s
  (filter_area.z * filter_area.w,
    ((int_range 0 filter_area.w).flatMap fun y =>
      (int_range 0 filter_area.z).map fun x =>
        DenoiseCall.filter_estimate_params K.filter_estimate_params_kernel sample
          (x + filter_area.x) (y + filter_area.y) (y * filter_area.z + x) rect) ++
    ((int_range 0 filter_area.w).flatMap fun y =>
      (int_range 0 filter_area.z).map fun x =>
        DenoiseCall.filter_final_pass K.filter_final_pass_kernel sample
          (x + filter_area.x) (y + filter_area.y) offset stride buffers
          (y * filter_area.z + x) filter_area rect))

/-! ## thread_film_convert -/

/-- A call of one of the two conversion kernels, with the arguments in the
order of the kernel's signature; the kernel globals are left out and
`sample_scale` is kept exact. -/
inductive ConvertCall where
  | convert_to_half_float (k : Kernel) (rgba buffer : Nat) (sample_scale : Rat)
      (x y offset stride : Int)
  | convert_to_byte (k : Kernel) (rgba buffer : Nat) (sample_scale : Rat)
      (x y offset stride : Int)
deriving DecidableEq, Repr

/-- The function `CPUDevice::thread_film_convert` (lines 637-724): the kernel
calls it makes, in order. A null pointer is the address 0. -/
def thread_film_convert (b : KernelBuild) (s : CpuSupport) (task : DeviceTask) :
    List ConvertCall :=
  let sample_scale : Rat := 1 / (((task.sample + 1 : Int) : Rat))
  if task.rgba_half ≠ 0 then
    (int_range task.y (task.y + task.h)).flatMap fun y =>
      (int_range task.x (task.x + task.w)).map fun x =>
        ConvertCall.convert_to_half_float (thread_film_convert_half_kernel b s)
          task.rgba_half task.buffer sample_scale x y task.offset task.stride
  else
    (int_range task.y (task.y + task.h)).flatMap fun y =>
      (int_range task.x (task.x + task.w)).map fun x =>
        ConvertCall.convert_to_byte (thread_film_convert_byte_kernel b s)
          task.rgba_byte task.buffer sample_scale x y task.offset task.stride

/-! ## Device memory -/

/-- The fields of a `device_memory` descriptor that the device reads or
writes. Pointers are addresses, 0 being the null pointer; `memory_size` is the
value of `memory_size()`. -/
structure device_memory where
  data_pointer : Nat
  device_pointer : Nat
  device_size : Nat
  memory_size : Nat
deriving DecidableEq, Repr

/-- Modelled from the spec: the class `Stats` is declared outside the sources
at hand; it keeps the amount of used device memory and its peak. -/
structure Stats where
  mem_used : Nat
  mem_peak : Nat
deriving DecidableEq, Repr

/-- Modelled from the spec: `Stats::mem_alloc` is declared outside the sources
at hand; it adds `size` to the used memory and raises the peak to it. -/
def Stats.mem_alloc (stats : Stats) (size : Nat) : Stats :=
  ⟨stats.mem_used + size, max stats.mem_peak (stats.mem_used + size)⟩

/-- Modelled from the spec: `Stats::mem_free` is declared outside the sources
at hand; it takes `size` off the used memory. -/
def Stats.mem_free (stats : Stats) (size : Nat) : Stats :=
  ⟨stats.mem_used - size, stats.mem_peak⟩

/-- The function `CPUDevice::mem_alloc` (lines 115-120). -/
def mem_alloc (mem : device_memory) (stats : Stats) : device_memory × Stats :=
  let mem1 := { mem with device_pointer := mem.data_pointer }
  let mem2 := { mem1 with device_size := mem1.memory_size }
  (mem2, stats.mem_alloc mem2.device_size)

/-- The function `CPUDevice::mem_copy_to` (lines 122-125). -/
def mem_copy_to (mem : device_memory) (stats : Stats) : device_memory × Stats :=
  (mem, stats)

/-- The function `CPUDevice::mem_copy_from` (lines 127-132); the arguments
`y`, `w`, `h` and `elem` are unused. -/
def mem_copy_from (mem : device_memory) (stats : Stats) (_y _w _h _elem : Int) :
    device_memory × Stats :=
  (mem, stats)

/-- The function `CPUDevice::mem_free` (lines 139-146). -/
def mem_free (mem : device_memory) (stats : Stats) : device_memory × Stats :=
  if mem.device_pointer ≠ 0 then
    let mem1 := { mem with device_pointer := 0 }
    let stats1 := stats.mem_free mem1.device_size
    ({ mem1 with device_size := 0 }, stats1)
  else (mem, stats)

/-! ## device_cpu_capabilities -/

/-- The function `device_cpu_capabilities` (lines 879-890). The result is
`none` when the function reads `capabilities[capabilities.size() - 1]` at an
index that is not below the size of the string, which is undefined behaviour.
`size()` is unsigned, so that `size() - 1` is taken modulo `2 ^ 64`. -/
def device_cpu_capabilities (s : CpuSupport) : Option String :=
  let capabilities := ""
  let capabilities := capabilities ++ (if s.sse2 then "SSE2 " else "")
  let capabilities := capabilities ++ (if s.sse3 then "SSE3 " else "")
  let capabilities := capabilities ++ (if s.sse41 then "SSE41 " else "")
  let capabilities := capabilities ++ (if s.avx then "AVX " else "")
  let capabilities := capabilities ++ (if s.avx2 then "AVX2" else "")
  let index := (capabilities.length + 2 ^ 64 - 1) % 2 ^ 64
  match capabilities.data[index]? with
  | none => none
  | some c =>
    if c = ' ' then some ⟨capabilities.data.take ((capabilities.length + 2 ^ 64 - 1) % 2 ^ 64)⟩
    else some capabilities

/-! ## kernel_filter_util.h

The functions of this header are embedded over an arbitrary linearly ordered
field `α` in place of `float`, so that they can be evaluated over the
rationals and reasoned about over the reals. A C array is a function from the
index to the element. The preprocessor switches `DENOISE_TEMPORAL` and
`DENOISE_SECOND_ORDER_SCREEN` are Boolean parameters, and the constant
`DENOISE_FEATURES` and the function `sqrtf` of the C library, which are
defined outside the sources at hand, are parameters too. -/

/-- The macro `ccl_get_feature(pass)`: the element `buffer[(pass)*pass_stride]`. -/
def ccl_get_feature {α : Type} (buffer : Int → α) (pass_stride : Int) (pass : Int) : α :=
  buffer (pass * pass_stride)

/-- The effect of the successive stores `*(feature++) = v` for the values `v`
of a list, starting at index 0. -/
def store_sequence {α : Type} (features : Nat → α) (values : List α) : Nat → α :=
  fun i => (values[i]?).getD (features i)

/-- What a statement `*(feature++) = v` of `filter_get_features` or
`filter_get_feature_variance` stores: a pixel coordinate, the value
`ccl_get_feature(pass)` read from a plane, or the constant `0.0f`. -/
inductive FeatureSource where
  | coordinate (v : Int)
  | plane (pass : Int)
  | zero
deriving DecidableEq, Repr

/-- The value that a statement `*(feature++) = v` stores. -/
def FeatureSource.value {α : Type} [LinearOrderedField α] (buffer : Int → α)
    (pass_stride : Int) : FeatureSource → α
  | .coordinate v => (v : α)
  | .plane pass => ccl_get_feature buffer pass_stride pass
  | .zero => 0

/-- The statements `*(feature++) = ...` of `filter_get_features` (lines 50-62)
in order: entry `i` of the list is what is stored in `features[i]`. -/
def filter_get_features_stores (temporal : Bool) (x y t : Int) : List FeatureSource :=
  [FeatureSource.coordinate x, FeatureSource.coordinate y] ++
    (if temporal then [FeatureSource.coordinate t] else []) ++
    [FeatureSource.plane 6, FeatureSource.plane 0, FeatureSource.plane 2,
      FeatureSource.plane 4, FeatureSource.plane 8, FeatureSource.plane 10,
      FeatureSource.plane 12, FeatureSource.plane 14]

/-- The statements `*(feature++) = ...` of `filter_get_feature_variance`
(lines 77-89) in order; the read of plane 9 is commented out in the source. -/
def filter_get_feature_variance_stores (temporal : Bool) : List FeatureSource :=
  [FeatureSource.zero, FeatureSource.zero] ++
    (if temporal then [FeatureSource.zero] else []) ++
    [FeatureSource.plane 7, FeatureSource.plane 1, FeatureSource.plane 3,
      FeatureSource.plane 5, FeatureSource.zero, FeatureSource.plane 11,
      FeatureSource.plane 13, FeatureSource.plane 15]

/-- The function `filter_get_features` (lines 47-73): the array `features`
afterwards. -/
def filter_get_features {α : Type} [LinearOrderedField α] (temporal second_order : Bool)
    (DENOISE_FEATURES : Nat) (x y t : Int) (buffer : Int → α) (features : Nat → α)
    (mean : Option (Nat → α)) (pass_stride : Int) : Nat → α :=
  let f1 := store_sequence features
    ((filter_get_features_stores temporal x y t).map (FeatureSource.value buffer pass_stride))
  let f2 : Nat → α :=
    match mean with
    | some m => fun i => if i < DENOISE_FEATURES then f1 i - m i else f1 i
    | none => f1
  if second_order then
    let f3 := Function.update f2 10 (f2 0 * f2 0)
    let f4 := Function.update f3 11 (f3 1 * f3 1)
    Function.update f4 12 (f4 0 * f4 1)
  else f2

/-- The function `filter_get_feature_variance` (lines 75-97): the array
`features` afterwards. -/
def filter_get_feature_variance {α : Type} [LinearOrderedField α]
    (temporal second_order : Bool) (DENOISE_FEATURES : Nat) (_x _y : Int) (buffer : Int → α)
    (features : Nat → α) (scale : Nat → α) (pass_stride : Int) : Nat → α :=
  let f1 := store_sequence features
    ((filter_get_feature_variance_stores temporal).map
      (FeatureSource.value buffer pass_stride))
  let f2 : Nat → α :=
    if second_order then
      Function.update (Function.update (Function.update f1 10 0) 11 0) 12 0
    else f1
  fun i => if i < DENOISE_FEATURES then f2 i * (scale i * scale i) else f2 i

/-- The store `scale[i] = 1.0f/max(scale[i], 0.01f)`. -/
def store_inverse {α : Type} [LinearOrderedField α] (scale : Nat → α) (i : Nat) : Nat → α :=
  Function.update scale i (1 / max (scale i) (1 / 100))

/-- The store `scale[i] = 1.0f/max(sqrtf(scale[i]), 0.01f)`. -/
def store_inverse_sqrt {α : Type} [LinearOrderedField α] (sqrtf : α → α) (scale : Nat → α)
    (i : Nat) : Nat → α :=
  Function.update scale i (1 / max (sqrtf (scale i)) (1 / 100))

/-- The function `filter_calculate_scale` (lines 124-145): the array `scale`
afterwards. `base` is the offset by which the pointer `scale` has been
advanced. -/
def filter_calculate_scale {α : Type} [LinearOrderedField α] (temporal : Bool)
    (sqrtf : α → α) (scale : Nat → α) : Nat → α :=
  let s1 := store_inverse scale 0
  let s2 := store_inverse s1 1
  let base := 2
  let s3 := if temporal then store_inverse s2 base else s2
  let base := if temporal then base + 1 else base
  let s4 := store_inverse s3 base
  let s5 := store_inverse_sqrt sqrtf s4 (base + 1)
  let s6 := store_inverse_sqrt sqrtf s5 (base + 2)
  let s7 := store_inverse_sqrt sqrtf s6 (base + 3)
  let s8 := store_inverse s7 (base + 4)
  let s9 := store_inverse_sqrt sqrtf s8 (base + 5)
  let s10 := store_inverse_sqrt sqrtf s9 (base + 6)
  store_inverse_sqrt sqrtf s10 (base + 7)

/-- The C type `float3`. -/
structure float3 (α : Type) where
  x : α
  y : α
  z : α

/-- Modelled from the spec: `average` on a `float3` is declared outside the
sources at hand; it is the mean over the three channels. -/
def average {α : Type} [LinearOrderedField α] (a : float3 α) : α :=
  (a.x + a.y + a.z) / 3

/-- Modelled from the spec: `fabs` on a `float3` is declared outside the
sources at hand; it takes the absolute value of each channel. -/
def fabs {α : Type} [LinearOrderedField α] (a : float3 α) : float3 α :=
  ⟨|a.x|, |a.y|, |a.z|⟩

/-- The function `filter_get_pixel_color` (lines 147-150). -/
def filter_get_pixel_color {α : Type} (buffer : Int → α) (pass_stride : Int) : float3 α :=
  ⟨ccl_get_feature buffer pass_stride 16, ccl_get_feature buffer pass_stride 18,
    ccl_get_feature buffer pass_stride 20⟩

/-- The function `filter_get_pixel_variance` (lines 152-155). -/
def filter_get_pixel_variance {α : Type} [LinearOrderedField α] (buffer : Int → α)
    (pass_stride : Int) : α :=
  average ⟨ccl_get_feature buffer pass_stride 17, ccl_get_feature buffer pass_stride 19,
    ccl_get_feature buffer pass_stride 21⟩

/-- Modelled from the spec: `math_dot` is declared outside the sources at
hand; it is the dot product of the first `n` elements of two arrays. -/
def math_dot {α : Type} [LinearOrderedField α] (a b : Nat → α) (n : Nat) : α :=
  ((List.range n).map fun i => a i * b i).sum

/-- The loop of `filter_fill_design_row` (lines 161-175) with `n` iterations
left and the loop variable at `d`: the weight returned and the entries of
`design_row` written so far. -/
def filter_fill_design_row_loop {α : Type} [LinearOrderedField α] (DENOISE_FEATURES : Nat)
    (features : Nat → α) (rank : Nat) (feature_transform : Nat → α)
    (bandwidth_factor : Option (Nat → α)) :
    Nat → Nat → α → (Nat → Option α) → α × (Nat → Option α)
  | 0, _, weight, design_row => (weight, design_row)
  | n + 1, d, weight, design_row =>
    let x := math_dot features (fun i => feature_transform (d * DENOISE_FEATURES + i))
      DENOISE_FEATURES
    let x2 := x * x
    let x2 := match bandwidth_factor with
      | some bf => x2 * (bf d * bf d)
      | none => x2
    if x2 < 1 then
      let weight := weight * (3 / 4 * (1 - x2))
      let design_row := Function.update design_row (1 + d) (some x)
      let design_row :=
        if bandwidth_factor.isNone then Function.update design_row (1 + rank + d) (some x2)
        else design_row
      filter_fill_design_row_loop DENOISE_FEATURES features rank feature_transform
        bandwidth_factor n (d + 1) weight design_row
    else (0, design_row)

/-- The function `filter_fill_design_row` (lines 157-177): the weight returned
and the entries of `design_row` it has written (`none` where it has written
nothing). -/
def filter_fill_design_row {α : Type} [LinearOrderedField α] (DENOISE_FEATURES : Nat)
    (features : Nat → α) (rank : Int) (feature_transform : Nat → α)
    (bandwidth_factor : Option (Nat → α)) : α × (Nat → Option α) :=
  filter_fill_design_row_loop DENOISE_FEATURES features rank.toNat feature_transform
    bandwidth_factor rank.toNat 0 1 (Function.update (fun _ => none) 0 (some 1))

/-- The function `filter_firefly_rejection` (lines 179-184). -/
def filter_firefly_rejection {α : Type} [LinearOrderedField α] (sqrtf : α → α)
    (pixel_color : float3 α) (pixel_variance : α) (center_color : float3 α)
    (sqrt_center_variance : α) : Bool :=
  let color_diff := average (fabs ⟨pixel_color.x - center_color.x,
    pixel_color.y - center_color.y, pixel_color.z - center_color.z⟩)
  let variance := sqrt_center_variance + sqrtf pixel_variance + 5 / 1000
  decide (color_diff > 3 * variance)

/-- The type `__m128`: four lanes. -/
abbrev m128 (α : Type) := Fin 4 → α

/-- Modelled from the spec: `_mm_mask_ps` is declared outside the sources at
hand; it keeps the lanes whose mask is set and clears the others. -/
def _mm_mask_ps {α : Type} [LinearOrderedField α] (a : m128 α) (mask : Fin 4 → Bool) :
    m128 α :=
  fun l => if mask l then a l else 0

/-- Modelled from the spec: `math_dot_sse` is declared outside the sources at
hand; it is the dot product of the first `n` elements of two arrays, taken in
each lane. -/
def math_dot_sse {α : Type} [LinearOrderedField α] (a b : Nat → m128 α) (n : Nat) : m128 α :=
  fun l => ((List.range n).map fun i => a i l * b i l).sum

/-- The loop of `filter_fill_design_row_sse` (lines 355-362) with `n`
iterations left and the loop variable at `d`. -/
def filter_fill_design_row_sse_loop {α : Type} [LinearOrderedField α]
    (DENOISE_FEATURES : Nat) (features : Nat → m128 α) (active_pixels : Fin 4 → Bool)
    (rank : Nat) (feature_transform : Nat → m128 α)
    (bandwidth_factor : Option (Nat → m128 α)) :
    Nat → Nat → m128 α → (Nat → Option (m128 α)) → m128 α × (Nat → Option (m128 α))
  | 0, _, weight, design_row => (weight, design_row)
  | n + 1, d, weight, design_row =>
    let x := math_dot_sse features (fun i => feature_transform (d * DENOISE_FEATURES + i))
      DENOISE_FEATURES
    let x2 : m128 α := fun l => x l * x l
    let x2 : m128 α := match bandwidth_factor with
      | some bf => fun l => x2 l * (bf d l * bf d l)
      | none => x2
    let weight := _mm_mask_ps (fun l => weight l * (3 / 4 * (1 - x2 l)))
      (fun l => decide (x2 l < 1) && active_pixels l)
    let design_row := Function.update design_row (1 + d) (some x)
    let design_row :=
      if bandwidth_factor.isNone then Function.update design_row (1 + rank + d) (some x2)
      else design_row
    filter_fill_design_row_sse_loop DENOISE_FEATURES features active_pixels rank
      feature_transform bandwidth_factor n (d + 1) weight design_row

/-- The function `filter_fill_design_row_sse` (lines 351-364): the weight
returned and the entries of `design_row` it has written. -/
def filter_fill_design_row_sse {α : Type} [LinearOrderedField α] (DENOISE_FEATURES : Nat)
    (features : Nat → m128 α) (active_pixels : Fin 4 → Bool) (rank : Int)
    (feature_transform : Nat → m128 α) (bandwidth_factor : Option (Nat → m128 α)) :
    m128 α × (Nat → Option (m128 α)) :=
  let weight := _mm_mask_ps (fun _ => (1 : α)) active_pixels
  filter_fill_design_row_sse_loop DENOISE_FEATURES features active_pixels rank.toNat
    feature_transform bandwidth_factor rank.toNat 0 weight
    (Function.update (fun _ => none) 0 (some weight))

/-- Modelled from the spec: `_mm_fabs_ps` is declared outside the sources at
hand; it takes the absolute value in each lane. -/
def _mm_fabs_ps {α : Type} [LinearOrderedField α] (a : m128 α) : m128 α :=
  fun l => |a l|

/-- The function `filter_firefly_rejection_sse` (lines 366-371): the mask
returned, one Boolean per lane. `_mm_sqrt_ps` takes `sqrtf` in each lane, the
arithmetic intrinsics work lane by lane and `_mm_cmple_ps` sets the lanes in
which the first operand is at most the second. -/
def filter_firefly_rejection_sse {α : Type} [LinearOrderedField α] (sqrtf : α → α)
    (pixel_color : Nat → m128 α) (pixel_variance : m128 α) (center_color : Nat → m128 α)
    (sqrt_center_variance : m128 α) : Fin 4 → Bool :=
  let color_diff : m128 α := fun l =>
    1 / 9 * (_mm_fabs_ps (fun l => pixel_color 0 l - center_color 0 l) l +
      _mm_fabs_ps (fun l => pixel_color 1 l - center_color 1 l) l +
      _mm_fabs_ps (fun l => pixel_color 2 l - center_color 2 l) l)
  let variance : m128 α := fun l =>
    sqrt_center_variance l + sqrtf (pixel_variance l) + 5 / 1000
  fun l => decide (color_diff l ≤ variance l)

/-- The C type `int2`. -/
structure Int2 where
  x : Int
  y : Int
deriving DecidableEq, Repr

/-- The inner loop of the non-temporal `FOR_PIXEL_WINDOW` (line 40) in row
`py`, with `n` iterations left: the values of `(px, py, pixel_buffer)` at the
start of each run of the body, and `px` and `pixel_buffer` when the loop is
left. A pointer is the number of floats from address 0. -/
def for_pixel_window_row (high : Int2) (py : Int) :
    Nat → Int → Int → List (Int × Int × Int) × Int × Int
  | 0, px, pixel_buffer => ([], px, pixel_buffer)
  | n + 1, px, pixel_buffer =>
    if px < high.x then
      let r := for_pixel_window_row high py n (px + 1) (pixel_buffer + 1)
      ((px, py, pixel_buffer) :: r.1, r.2)
    else ([], px, pixel_buffer)

/-- The outer loop of the non-temporal `FOR_PIXEL_WINDOW` ...
`END_FOR_PIXEL_WINDOW` (lines 39-44), with `n` iterations left. -/
def for_pixel_window_rows (low high : Int2) (buffer_w : Int) :
    Nat → Int → Int → List (Int × Int × Int)
  | 0, _, _ => []
  | n + 1, py, pixel_buffer =>
    if py < high.y then
      let r := for_pixel_window_row high py (high.x - low.x).toNat low.x pixel_buffer
      r.1 ++ for_pixel_window_rows low high buffer_w n (py + 1)
        (r.2.2 + (buffer_w - (high.x - low.x)))
    else []

/-- The non-temporal loop `FOR_PIXEL_WINDOW` ... `END_FOR_PIXEL_WINDOW`
(lines 38-44): the values of `(px, py, pixel_buffer)` at the start of each
run of the body, in order. -/
def FOR_PIXEL_WINDOW (buffer : Int) (rect : Int4) (low high : Int2) (buffer_w : Int) :
    List (Int × Int × Int) :=
  for_pixel_window_rows low high buffer_w (high.y - low.y).toNat low.y
    (buffer + (low.y - rect.y) * buffer_w + (low.x - rect.x))

/-- The inner loop of the non-temporal `FOR_PIXEL_WINDOW_SSE` (line 216) in
row `py`, with `n` iterations left. The variables `x4`, `y4` and
`active_pixels` of the body are computed from `px`, `py` and `high.x` and are
left out. -/
def for_pixel_window_sse_row (high : Int2) (py : Int) :
    Nat → Int → Int → List (Int × Int × Int) × Int × Int
  | 0, px, pixel_buffer => ([], px, pixel_buffer)
  | n + 1, px, pixel_buffer =>
    if px < high.x then
      let r := for_pixel_window_sse_row high py n (px + 4) (pixel_buffer + 4)
      ((px, py, pixel_buffer) :: r.1, r.2)
    else ([], px, pixel_buffer)

/-- The outer loop of the non-temporal `FOR_PIXEL_WINDOW_SSE` ...
`END_FOR_PIXEL_WINDOW_SSE` (lines 213-222), with `n` iterations left. -/
def for_pixel_window_sse_rows (low high : Int2) (buffer_w : Int) :
    Nat → Int → Int → List (Int × Int × Int)
  | 0, _, _ => []
  | n + 1, py, pixel_buffer =>
    if py < high.y then
      let r := for_pixel_window_sse_row high py (high.x - low.x).toNat low.x pixel_buffer
      r.1 ++ for_pixel_window_sse_rows low high buffer_w n (py + 1)
        (r.2.2 + (buffer_w - (r.2.1 - low.x)))
    else []

/-- The non-temporal loop `FOR_PIXEL_WINDOW_SSE` ... `END_FOR_PIXEL_WINDOW_SSE`
(lines 212-222): the values of `(px, py, pixel_buffer)` at the start of each
run of the body, in order. -/
def FOR_PIXEL_WINDOW_SSE (buffer : Int) (rect : Int4) (low high : Int2) (buffer_w : Int) :
    List (Int × Int × Int) :=
  for_pixel_window_sse_rows low high buffer_w (high.y - low.y).toNat low.y
    (buffer + (low.y - rect.y) * buffer_w + (low.x - rect.x))

/-! ## Observations on traces -/

/-- Whether an event is a call of the path-trace kernel. -/
def Event.is_path_trace : Event → Bool
  | .path_trace_kernel _ _ _ _ _ _ _ _ => true
  | _ => false

/-- Whether an event is a call of `update_progress`. -/
def Event.is_update_progress : Event → Bool
  | .update_progress _ => true
  | _ => false

/-- The sample index passed by a call of the path-trace kernel. -/
def Event.path_trace_sample : Event → Option Int
  | .path_trace_kernel _ _ _ sample _ _ _ _ => some sample
  | _ => none

/-- One round of the sample loop of `thread_render` in which the cancellation
poll answers false twice: the two queries, the pixel loops, the progress call. -/
def sample_round (k : Kernel) (tile : RenderTile) (sample : Int) : List Event :=
  [Event.get_cancel false, Event.canceled false] ++ path_trace_pixels k tile sample ++
    [Event.update_progress (some { tile with sample := sample + 1 })]

/-- One round of the sample loop of `thread_shader` in which the cancellation
poll answers false twice: the kernel calls, the two queries, the progress call. -/
def shader_round (k : Kernel) (task : DeviceTask) (sample : Int) : List Event :=
  shader_calls k task sample ++
    [Event.get_cancel false, Event.canceled false, Event.update_progress none]

/-- The projection `x` of the features on row `d` of the transform, as
`filter_fill_design_row` computes it in iteration `d`. -/
def design_row_x {α : Type} [LinearOrderedField α] (DENOISE_FEATURES : Nat)
    (features feature_transform : Nat → α) (d : Nat) : α :=
  math_dot features (fun i => feature_transform (d * DENOISE_FEATURES + i)) DENOISE_FEATURES

/-- The squared projection `x2` of iteration `d`: `x * x`, times the square of
`bandwidth_factor[d]` when a bandwidth factor is given. -/
def design_row_x2 {α : Type} [LinearOrderedField α] (DENOISE_FEATURES : Nat)
    (features feature_transform : Nat → α) (bandwidth_factor : Option (Nat → α)) (d : Nat) :
    α :=
  match bandwidth_factor with
  | some bf =>
    design_row_x DENOISE_FEATURES features feature_transform d *
      design_row_x DENOISE_FEATURES features feature_transform d * (bf d * bf d)
  | none =>
    design_row_x DENOISE_FEATURES features feature_transform d *
      design_row_x DENOISE_FEATURES features feature_transform d

/-- Lane `l` of an array of `__m128` values: the array the scalar code sees
for the pixel of that lane. -/
def lane {α : Type} (l : Fin 4) (a : Nat → m128 α) : Nat → α :=
  fun i => a i l

/-- Modelled from the spec: the prefilter kernels are defined outside the
sources at hand. A kernel called for the pixel `(x, y)` stores its results
for that pixel through its output pointers: `mean` and `variance` of
`filter_get_feature`, `filteredImage` of `filter_non_local_means`, the four
planes of `filter_divide_shadow`, and `mean` (unless null) and `variance` of
`filter_combine_halves`. The second half that `filter_divide_shadow` stores
behind `unfiltered` is not an argument and is left out. -/
def FilterCall.outputs : FilterCall → List Int
  | .filter_get_feature _ _ _ _ _ _ _ _ _ _ _ mean variance _ => [mean, variance]
  | .filter_non_local_means _ _ _ _ _ _ filteredImage _ _ _ _ _ => [filteredImage]
  | .filter_divide_shadow _ _ _ _ _ _ _ _ _ unfiltered sampleVariance sampleVarianceV
      bufferVariance _ => [unfiltered, sampleVariance, sampleVarianceV, bufferVariance]
  | .filter_combine_halves _ _ _ mean variance _ _ _ _ => mean.toList ++ [variance]

/-- Modelled from the spec: the kernels are defined outside the sources at
hand. The planes of the filter buffer that a call reads: the noisy image, the
weight image and the variance of `filter_non_local_means`, and the two halves
`a` and `b` of `filter_combine_halves`; `filter_get_feature` and
`filter_divide_shadow` read the render buffers only. -/
def FilterCall.inputs : FilterCall → List Int
  | .filter_get_feature _ _ _ _ _ _ _ _ _ _ _ _ _ _ => []
  | .filter_non_local_means _ _ _ noisyImage weightImage variance _ _ _ _ _ _ =>
    [noisyImage, weightImage, variance]
  | .filter_divide_shadow _ _ _ _ _ _ _ _ _ _ _ _ _ _ => []
  | .filter_combine_halves _ _ _ _ _ a b _ _ => [a, b]

/-- The result of a call of `acquire_tile`: the tile handed out, if any. -/
def Event.acquired : Event → Option (Option RenderTile)
  | .acquire_tile r => some r
  | _ => none

/-- Whether an event is a call of `release_tile`. -/
def Event.is_release : Event → Bool
  | .release_tile _ => true
  | _ => false

/-- Whether an event is a successful call of `acquire_tile`. -/
def Event.is_acquired : Event → Bool
  | .acquire_tile (some _) => true
  | _ => false

/-- Checks the tile calls of a trace from left to right, `held` being the
tile acquired and not yet released: `acquire_tile` is called only while no
tile is held, `release_tile` only for the tile held (the same tile up to its
`sample` counter), and no tile is held at the end. -/
def releases_balanced : Option RenderTile → List Event → Bool
  | held, [] => held.isNone
  | none, Event.acquire_tile r :: rest => releases_balanced r rest
  | some _, Event.acquire_tile _ :: _ => false
  | some tile, Event.release_tile tile1 :: rest =>
    decide ({ tile1 with sample := tile.sample } = tile) && releases_balanced none rest
  | none, Event.release_tile _ :: _ => false
  | held, _ :: rest => releases_balanced held rest

/-! ## Sample inputs -/

/-- The scalar path-trace kernel `kernel_cpu_path_trace`. -/
def scalar_path_trace : Kernel := ⟨IsaLevel.scalar, KernelOp.path_trace⟩

/-- A world in which nothing is ever canceled and memory never runs out. -/
def quiet_world : World :=
  ⟨fun _ => false, fun _ => false, fun tile _ => tile, fun _ _ => false⟩

/-- A world in which every cancellation query answers true and memory never
runs out. -/
def canceled_world : World :=
  ⟨fun _ => true, fun _ => true, fun tile _ => tile, fun _ _ => false⟩

/-- A render task with the given `need_finish_queue`. -/
def render_task (need_finish_queue : Bool) : DeviceTask :=
  ⟨TaskType.RENDER, 0, 0, 0, 0, 0, 0, 0, 0, 0, 0, 0, 0, 0, 0, 0, 0, 0, 0, need_finish_queue⟩

/-- A shader task with two samples over the single point `x = 0`. -/
def shader_task : DeviceTask :=
  ⟨TaskType.SHADER, 0, 0, 0, 0, 0, 0, 0, 0, 2, 0, 0, 0, 0, 0, 0, 0, 0, 1, false⟩

/-- A path-trace tile of 2 x 1 pixels at the origin with the samples 5 and 6,
offset 7 and stride 9, without overscan. -/
def small_tile : RenderTile :=
  ⟨0, 0, 2, 1, 5, 2, 0, 7, 9, TileTask.PATH_TRACE, 0, 0, true, ⟨2, 1, 0, 1, 1⟩⟩

/-- A path-trace tile of 4 x 4 pixels at (10, 20) with one sample and an
overscan of 1. -/
def overscan_tile : RenderTile :=
  ⟨10, 20, 4, 4, 6, 1, 0, 0, 4, TileTask.PATH_TRACE, 64, 0, true, ⟨4, 4, 1, 1, 26⟩⟩

/-- A world in which `task.get_cancel()` always answers false and
`task_pool.canceled()` answers false to the query made on entry and true to
every later query. -/
def pool_canceled_world : World :=
  ⟨fun _ => false, fun t => decide (0 < t), fun tile _ => tile, fun _ _ => false⟩

/-- A world without cancellation in which the neighbours of a tile form a
grid of 3 x 3 tiles of the tile's size around it: slot `i` is the tile in
column `i % 3` and row `i / 3`. -/
def grid_world : World :=
  ⟨fun _ => false, fun _ => false, fun tile i =>
    { tile with
      x := tile.x + (((i % 3 : Nat) : Int) - 1) * tile.w
      y := tile.y + (((i / 3 : Nat) : Int) - 1) * tile.h },
    fun _ _ => false⟩

/-- A path-trace tile of 1 x 4 pixels at (10, 20) with one sample and an
overscan of 1: the tile is narrower than twice the overscan. -/
def narrow_overscan_tile : RenderTile :=
  ⟨10, 20, 1, 4, 6, 1, 0, 0, 4, TileTask.PATH_TRACE, 64, 0, true, ⟨4, 4, 1, 1, 26⟩⟩

/-- A `DENOISE` tile of 4 x 4 pixels at (10, 20) after 7 samples. -/
def denoise_sample_tile : RenderTile :=
  ⟨10, 20, 4, 4, 6, 1, 0, 0, 4, TileTask.DENOISE, 64, 0, true, ⟨4, 4, 0, 1, 26⟩⟩

/-! ## Lemmas on loops and traces -/

theorem mem_int_range (lo hi v : Int) : v ∈ int_range lo hi ↔ lo ≤ v ∧ v < hi := by
  unfold int_range
  simp only [List.mem_map, List.mem_range]
  constructor
  · rintro ⟨i, hi1, rfl⟩
    omega
  · intro h
    exact ⟨(v - lo).toNat, by omega, by omega⟩

theorem int_range_nil (lo hi : Int) (h : hi ≤ lo) : int_range lo hi = [] := by
  unfold int_range
  have : (hi - lo).toNat = 0 := by omega
  simp [this]

theorem int_range_cons (lo hi : Int) (h : lo < hi) :
    int_range lo hi = lo :: int_range (lo + 1) hi := by
  unfold int_range
  have : (hi - lo).toNat = (hi - (lo + 1)).toNat + 1 := by omega
  rw [this, List.range_succ_eq_map]
  simp only [List.map_cons, List.map_map]
  congr 1
  · simp
  · apply List.map_congr_left
    intro i _
    simp only [Function.comp, Nat.succ_eq_add_one]
    push_cast
    ring

theorem nodup_int_range (lo hi : Int) : (int_range lo hi).Nodup := by
  unfold int_range
  apply List.Nodup.map _ (List.nodup_range _)
  intro a b h
  simpa using h

theorem path_trace_pixels_sample (k : Kernel) (tile : RenderTile) (a s : Int) :
    path_trace_pixels k { tile with sample := a } s = path_trace_pixels k tile s := rfl

theorem cancel_poll_cases (w : World) (t : Nat) :
    ((cancel_poll w t).1 = true ∧
      ((cancel_poll w t).2.2 = [Event.get_cancel true] ∨
        (cancel_poll w t).2.2 = [Event.get_cancel false, Event.canceled true])) ∨
    ((cancel_poll w t).1 = false ∧
      (cancel_poll w t).2.2 = [Event.get_cancel false, Event.canceled false]) := by
  unfold cancel_poll
  by_cases h1 : w.get_cancel t = true
  · simp [h1]
  · by_cases h2 : w.canceled (t + 1) = true
    · simp [h1, h2]
    · simp [h1, h2]

theorem sample_loop_break (k : Kernel) (w : World) (task : DeviceTask) (n : Nat) (s : Int)
    (t : Nat) (tile : RenderTile)
    (h : ((cancel_poll w t).1 && !task.need_finish_queue) = true) :
    sample_loop k w task (n + 1) s t tile =
      ((cancel_poll w t).2.1, tile, (cancel_poll w t).2.2) := by
  rw [sample_loop]
  simp only [h, if_true]

theorem sample_loop_continue (k : Kernel) (w : World) (task : DeviceTask) (n : Nat) (s : Int)
    (t : Nat) (tile : RenderTile)
    (h : ((cancel_poll w t).1 && !task.need_finish_queue) = false) :
    sample_loop k w task (n + 1) s t tile =
      ((sample_loop k w task n (s + 1) (cancel_poll w t).2.1 { tile with sample := s + 1 }).1,
        (sample_loop k w task n (s + 1) (cancel_poll w t).2.1 { tile with sample := s + 1 }).2.1,
        (cancel_poll w t).2.2 ++ path_trace_pixels k tile s ++
          [Event.update_progress (some { tile with sample := s + 1 })] ++
          (sample_loop k w task n (s + 1) (cancel_poll w t).2.1
            { tile with sample := s + 1 }).2.2) := by
  rw [sample_loop]
  simp only [h, Bool.false_eq_true, if_false]

theorem sample_loop_shape (k : Kernel) (w : World) (task : DeviceTask) (hi : Int)
    (n : Nat) (s : Int) (t : Nat) (tile : RenderTile) (hn : n = (hi - s).toNat) :
    ∃ (m : Int) (polls : Int → List Event) (tail : List Event),
      s ≤ m ∧ m ≤ max s hi ∧
      (sample_loop k w task n s t tile).2.2 =
        (int_range s m).flatMap (fun i => polls i ++ path_trace_pixels k tile i ++
          [Event.update_progress (some { tile with sample := i + 1 })]) ++ tail ∧
      (sample_loop k w task n s t tile).2.1 =
        (if s < m then { tile with sample := m } else tile) ∧
      (∀ i, polls i = [Event.get_cancel true] ∨
        ∃ c, polls i = [Event.get_cancel false, Event.canceled c]) ∧
      (task.need_finish_queue = false →
        ∀ i, polls i = [Event.get_cancel false, Event.canceled false]) ∧
      ((m = max s hi ∧ tail = []) ∨
        (task.need_finish_queue = false ∧ m < hi ∧
          (tail = [Event.get_cancel true] ∨
            tail = [Event.get_cancel false, Event.canceled true]))) := by
  induction n generalizing s t tile with
  | zero =>
    have h : hi ≤ s := by omega
    refine ⟨s, fun _ => [Event.get_cancel false, Event.canceled false], [], le_refl _,
      le_max_left _ _, ?_, ?_, ?_, ?_, ?_⟩
    · simp [sample_loop, int_range_nil]
    · simp [sample_loop]
    · intro i; exact Or.inr ⟨false, rfl⟩
    · intro _ i; rfl
    · exact Or.inl ⟨(max_eq_left h).symm, rfl⟩
  | succ n ih =>
    have h : s < hi := by omega
    cases hb : ((cancel_poll w t).1 && !task.need_finish_queue)
    case true =>
      rw [sample_loop_break k w task n s t tile hb]
      have hb2 : (cancel_poll w t).1 = true ∧ task.need_finish_queue = false := by
        simpa using hb
      refine ⟨s, fun _ => [Event.get_cancel false, Event.canceled false], (cancel_poll w t).2.2,
        le_refl _, le_max_left _ _, ?_, ?_, ?_, ?_, ?_⟩
      · simp [int_range_nil]
      · simp
      · intro i; exact Or.inr ⟨false, rfl⟩
      · intro _ i; rfl
      · refine Or.inr ⟨hb2.2, h, ?_⟩
        rcases cancel_poll_cases w t with ⟨_, h2⟩ | ⟨h1, _⟩
        · exact h2
        · rw [hb2.1] at h1; exact absurd h1 (by decide)
    case false =>
      rw [sample_loop_continue k w task n s t tile hb]
      obtain ⟨m, polls, tail, hm1, hm2, htr, htile, hp1, hp2, hend⟩ :=
        ih (s + 1) (cancel_poll w t).2.1 { tile with sample := s + 1 } (by omega)
      have hmax1 : max (s + 1) hi = hi := max_eq_right (by omega)
      have hmax : max s hi = hi := max_eq_right (by omega)
      refine ⟨m, fun i => if i = s then (cancel_poll w t).2.2 else polls i, tail,
        by omega, by rw [hmax]; rw [hmax1] at hm2; exact hm2, ?_, ?_, ?_, ?_, ?_⟩
      · simp only
        rw [htr, int_range_cons s m (by omega), List.flatMap_cons]
        simp only [if_true, List.append_assoc]
        congr 3
        congr 1
        apply List.flatMap_congr
        intro i hi2
        have : i ≠ s := by
          have := (mem_int_range _ _ _).1 hi2
          omega
        simp only [this, if_false, path_trace_pixels_sample]
      · simp only
        rw [htile]
        have h1 : s < m := by omega
        simp only [h1, if_true]
        split_ifs with h2
        · rfl
        · have h3 : m = s + 1 := by omega
          rw [h3]
      · intro i
        by_cases hi2 : i = s
        · simp only [hi2, if_true]
          rcases cancel_poll_cases w t with ⟨_, h2 | h2⟩ | ⟨_, h2⟩
          · exact Or.inl h2
          · exact Or.inr ⟨true, h2⟩
          · exact Or.inr ⟨false, h2⟩
        · simp only [hi2, if_false]
          exact hp1 i
      · intro hq i
        by_cases hi2 : i = s
        · simp only [hi2, if_true]
          rcases cancel_poll_cases w t with ⟨h1, _⟩ | ⟨_, h2⟩
          · rw [h1, hq] at hb
            exact absurd hb (by decide)
          · exact h2
        · simp only [hi2, if_false]
          exact hp2 hq i
      · rw [hmax]
        rw [hmax1] at hend
        rcases hend with h1 | h1
        · exact Or.inl h1
        · exact Or.inr h1

theorem mem_run_denoise (w : World) (t : Nat) (l : List Event) :
    ∀ (i : Nat) (e : Event), e ∈ run_denoise w t i l → e ∈ l ∨ e = Event.exception := by
  induction l with
  | nil =>
    intro i e he
    simp [run_denoise] at he
  | cons a l ih =>
    intro i e he
    rw [run_denoise] at he
    cases hs : a.new_size with
    | none =>
      rw [hs] at he
      simp only [List.mem_cons] at he
      rcases he with rfl | he
      · exact Or.inl (List.mem_cons_self _ _)
      · rcases ih i e he with h | h
        · exact Or.inl (List.mem_cons_of_mem _ h)
        · exact Or.inr h
    | some n =>
      rw [hs] at he
      simp only at he
      split_ifs at he
      · simp only [List.mem_cons, List.mem_singleton, List.mem_nil_iff, or_false] at he
        rcases he with rfl | rfl
        · exact Or.inl (List.mem_cons_self _ _)
        · exact Or.inr rfl
      · simp only [List.mem_cons] at he
        rcases he with rfl | he
        · exact Or.inl (List.mem_cons_self _ _)
        · rcases ih (i + 1) e he with h | h
          · exact Or.inl (List.mem_cons_of_mem _ h)
          · exact Or.inr h

/-- A denoise either makes all its calls, or it makes the calls up to one
whose `new[]` expression throws and ends with the exception. -/
theorem run_denoise_cases (w : World) (t : Nat) (l : List Event)
    (hl : ∀ e ∈ l, e.is_exception = false) :
    ∀ i : Nat,
      (run_denoise w t i l = l ∧ (run_denoise w t i l).any Event.is_exception = false) ∨
      (∃ pre e post, l = pre ++ e :: post ∧ run_denoise w t i l = pre ++ [e, Event.exception] ∧
        (run_denoise w t i l).any Event.is_exception = true) := by
  induction l with
  | nil =>
    intro i
    exact Or.inl ⟨rfl, rfl⟩
  | cons a l ih =>
    intro i
    have ha : a.is_exception = false := hl a (List.mem_cons_self _ _)
    have hl2 : ∀ e ∈ l, e.is_exception = false := fun e he => hl e (List.mem_cons_of_mem _ he)
    rw [run_denoise]
    cases hs : a.new_size with
    | none =>
      simp only
      rcases ih hl2 i with ⟨h1, h2⟩ | ⟨pre, e, post, h1, h2, h3⟩
      · left
        rw [h1]
        rw [h1] at h2
        exact ⟨rfl, by simp [List.any_cons, ha, h2]⟩
      · right
        refine ⟨a :: pre, e, post, by rw [h1]; rfl, by rw [h2]; rfl, ?_⟩
        simp [List.any_cons, h3]
    | some n =>
      simp only
      split_ifs with hthrow
      · right
        exact ⟨[], a, l, rfl, rfl, by simp [List.any_cons, Event.is_exception]⟩
      · rcases ih hl2 (i + 1) with ⟨h1, h2⟩ | ⟨pre, e, post, h1, h2, h3⟩
        · left
          rw [h1]
          rw [h1] at h2
          exact ⟨rfl, by simp [List.any_cons, ha, h2]⟩
        · right
          refine ⟨a :: pre, e, post, by rw [h1]; rfl, by rw [h2]; rfl, ?_⟩
          simp [List.any_cons, h3]

theorem overscan_denoise_no_exception (tile : RenderTile) (end_sample : Int) :
    ∀ e ∈ overscan_denoise tile end_sample, e.is_exception = false := by
  intro e he
  simp only [overscan_denoise, List.mem_cons, List.mem_singleton, List.mem_nil_iff,
    or_false] at he
  rcases he with rfl | rfl <;> rfl

theorem denoise_tile_no_exception (kg : KernelGlobals) (w : World) (tile : RenderTile) :
    ∀ e ∈ (denoise_tile kg w tile).2, e.is_exception = false := by
  intro e he
  simp only [denoise_tile, List.mem_cons, List.mem_singleton, List.mem_nil_iff,
    or_false] at he
  rcases he with rfl | rfl | rfl | rfl <;> rfl

theorem mem_path_trace_pixels (k : Kernel) (tile : RenderTile) (s : Int) (e : Event) :
    e ∈ path_trace_pixels k tile s ↔
      ∃ x y, tile.x ≤ x ∧ x < tile.x + tile.w ∧ tile.y ≤ y ∧ y < tile.y + tile.h ∧
        e = Event.path_trace_kernel k tile.buffer tile.rng_state s x y tile.offset tile.stride := by
  unfold path_trace_pixels
  simp only [List.mem_flatMap, List.mem_map, mem_int_range]
  constructor
  · rintro ⟨y, hy, x, hx, rfl⟩
    exact ⟨x, y, hx.1, hx.2, hy.1, hy.2, rfl⟩
  · rintro ⟨x, y, hx1, hx2, hy1, hy2, rfl⟩
    exact ⟨y, ⟨hy1, hy2⟩, x, ⟨hx1, hx2⟩, rfl⟩

theorem filter_path_trace_pixels (k : Kernel) (tile : RenderTile) (s : Int) :
    (path_trace_pixels k tile s).filter Event.is_path_trace = path_trace_pixels k tile s := by
  rw [List.filter_eq_self]
  intro e he
  obtain ⟨x, y, _, _, _, _, rfl⟩ := (mem_path_trace_pixels k tile s e).1 he
  rfl

/-- The calls that follow the sample loop of a path-traced tile contain no
kernel, progress, acquire or release call. -/
theorem render_tile_path_trace (k : Kernel) (kg : KernelGlobals) (w : World)
    (task : DeviceTask) (t : Nat) (tile : RenderTile) (hk : tile.task = TileTask.PATH_TRACE) :
    ∃ after : List Event,
      (render_tile k kg w task t tile).2.2 =
        (sample_loop k w task (tile.start_sample + tile.num_samples - tile.start_sample).toNat
          tile.start_sample t tile).2.2 ++ after ∧
      (render_tile k kg w task t tile).2.1 =
        (sample_loop k w task (tile.start_sample + tile.num_samples - tile.start_sample).toNat
          tile.start_sample t tile).2.1 ∧
      (∀ e ∈ after, (∃ c, e = Event.get_cancel c) ∨
        (∃ a b c d e1 f g h i, e = Event.denoise_fill_buffer a b c d e1 f g h i) ∨
        (∃ a b c d e1 f, e = Event.denoise_run a b c d e1 f) ∨ e = Event.exception) := by
  unfold render_tile
  simp only [hk]
  split_ifs with h1 h2
  · exact ⟨_, rfl, rfl, by simp⟩
  · refine ⟨_, List.append_assoc _ _ _, rfl, ?_⟩
    intro e he
    simp only [List.mem_append, List.mem_singleton] at he
    rcases he with rfl | he
    · exact Or.inl ⟨_, rfl⟩
    · rcases mem_run_denoise _ _ _ _ _ he with he | rfl
      · simp only [overscan_denoise, List.mem_cons, List.mem_singleton, List.mem_nil_iff,
          or_false] at he
        rcases he with rfl | rfl
        · exact Or.inr (Or.inl ⟨_, _, _, _, _, _, _, _, _, rfl⟩)
        · exact Or.inr (Or.inr (Or.inl ⟨_, _, _, _, _, _, rfl⟩))
      · exact Or.inr (Or.inr (Or.inr rfl))
  · exact ⟨[], by simp, rfl, by simp⟩

theorem pairwise_of_filter {α : Type} (S : α → α → Prop) (p : α → Bool)
    (hS : ∀ x y, (p x = false ∨ p y = false) → S x y) (l : List α)
    (h : (l.filter p).Pairwise S) : l.Pairwise S := by
  induction l with
  | nil => exact List.Pairwise.nil
  | cons a l ih =>
    cases hp : p a
    · rw [List.filter_cons_of_neg (by simp [hp])] at h
      exact List.pairwise_cons.2 ⟨fun b _ => hS a b (Or.inl hp), ih h⟩
    · rw [List.filter_cons_of_pos hp, List.pairwise_cons] at h
      refine List.pairwise_cons.2 ⟨fun b hb => ?_, ih h.2⟩
      cases hq : p b
      · exact hS a b (Or.inr hq)
      · exact h.1 b (List.mem_filter.2 ⟨hb, hq⟩)

theorem pairwise_lt_int_range (lo hi : Int) : (int_range lo hi).Pairwise (· < ·) := by
  unfold int_range
  rw [List.pairwise_map]
  exact (List.pairwise_lt_range _).imp (fun h => by omega)

/-- The kernel calls made for a path-traced tile are the pixel loops of the
samples `start_sample ≤ s < m` in order, for some `m`; with
`need_finish_queue` the loop runs to the end. -/
theorem render_tile_kernel_calls (k : Kernel) (kg : KernelGlobals) (w : World)
    (task : DeviceTask) (t : Nat) (tile : RenderTile) (hk : tile.task = TileTask.PATH_TRACE) :
    ∃ m : Int, tile.start_sample ≤ m ∧
      m ≤ max tile.start_sample (tile.start_sample + tile.num_samples) ∧
      (render_tile k kg w task t tile).2.2.filter Event.is_path_trace =
        (int_range tile.start_sample m).flatMap (path_trace_pixels k tile) ∧
      (task.need_finish_queue = true →
        m = max tile.start_sample (tile.start_sample + tile.num_samples)) := by
  obtain ⟨after, htr, _, hafter⟩ := render_tile_path_trace k kg w task t tile hk
  obtain ⟨m, polls, tail, hm1, hm2, hloop, _, hp1, _, hend⟩ :=
    sample_loop_shape k w task (tile.start_sample + tile.num_samples)
      (tile.start_sample + tile.num_samples - tile.start_sample).toNat tile.start_sample t tile
      rfl
  refine ⟨m, hm1, hm2, ?_, ?_⟩
  · rw [htr, hloop]
    have hA : after.filter Event.is_path_trace = [] := by
      rw [List.filter_eq_nil_iff]
      intro e he
      rcases hafter e he with ⟨c, rfl⟩ | ⟨a, b, c, d, e1, f, g, h, i, rfl⟩ |
        ⟨a, b, c, d, e1, f, rfl⟩ | rfl <;> simp [Event.is_path_trace]
    have hT : tail.filter Event.is_path_trace = [] := by
      rcases hend with ⟨_, rfl⟩ | ⟨_, _, rfl | rfl⟩ <;> rfl
    rw [List.filter_append, List.filter_append, hA, hT, List.append_nil, List.append_nil,
      List.filter_flatMap]
    apply List.flatMap_congr
    intro s _
    have hpoll : (polls s).filter Event.is_path_trace = [] := by
      rcases hp1 s with h | ⟨c, h⟩ <;> rw [h] <;> rfl
    have hprog : ∀ x : Option RenderTile,
        [Event.update_progress x].filter Event.is_path_trace = [] := fun _ => rfl
    simp only [List.filter_append, hpoll, filter_path_trace_pixels, hprog, List.nil_append,
      List.append_nil]
  · intro hq
    rcases hend with ⟨h, _⟩ | ⟨h, _⟩
    · exact h
    · rw [hq] at h
      exact absurd h (by decide)

/-- The body of the tile loop calls neither `acquire_tile` nor `release_tile`. -/
theorem render_tile_no_tile_call (k : Kernel) (kg : KernelGlobals) (w : World)
    (task : DeviceTask) (t : Nat) (tile : RenderTile) :
    ∀ e ∈ (render_tile k kg w task t tile).2.2, e.acquired = none ∧ e.is_release = false := by
  intro e he
  cases hk : tile.task
  case PATH_TRACE =>
    obtain ⟨after, htr, _, hafter⟩ := render_tile_path_trace k kg w task t tile hk
    obtain ⟨m, polls, tail, _, _, hloop, _, hp1, _, hend⟩ :=
      sample_loop_shape k w task (tile.start_sample + tile.num_samples)
        (tile.start_sample + tile.num_samples - tile.start_sample).toNat tile.start_sample t
        tile rfl
    rw [htr, hloop] at he
    simp only [List.mem_append, List.mem_flatMap, List.mem_singleton] at he
    rcases he with (⟨i, _, (h | h) | h⟩ | h) | h
    · rcases hp1 i with h2 | ⟨c, h2⟩
      · rw [h2] at h
        simp only [List.mem_singleton] at h
        subst h
        exact ⟨rfl, rfl⟩
      · rw [h2] at h
        simp only [List.mem_cons, List.mem_singleton, List.mem_nil_iff, or_false] at h
        rcases h with rfl | rfl <;> exact ⟨rfl, rfl⟩
    · obtain ⟨_, _, _, _, _, _, rfl⟩ := (mem_path_trace_pixels k tile i e).1 h
      exact ⟨rfl, rfl⟩
    · subst h
      exact ⟨rfl, rfl⟩
    · rcases hend with ⟨_, rfl⟩ | ⟨_, _, rfl | rfl⟩
      · simp at h
      · simp only [List.mem_singleton] at h
        subst h
        exact ⟨rfl, rfl⟩
      · simp only [List.mem_cons, List.mem_singleton, List.mem_nil_iff, or_false] at h
        rcases h with rfl | rfl <;> exact ⟨rfl, rfl⟩
    · rcases hafter e h with ⟨c, rfl⟩ | ⟨a, b, c, d, e1, f, g, h, i, rfl⟩ |
        ⟨a, b, c, d, e1, f, rfl⟩ | rfl <;> exact ⟨rfl, rfl⟩
  case DENOISE =>
    simp only [render_tile, hk] at he
    rcases mem_run_denoise _ _ _ _ _ he with he | rfl
    · simp only [denoise_tile, List.mem_cons, List.mem_singleton,
        List.mem_nil_iff, or_false] at he
      rcases he with rfl | rfl | rfl | rfl <;> exact ⟨rfl, rfl⟩
    · exact ⟨rfl, rfl⟩
  case other =>
    simp [render_tile, hk] at he

/-- The body of the tile loop changes at most the `sample` counter of the tile. -/
theorem render_tile_same_tile (k : Kernel) (kg : KernelGlobals) (w : World)
    (task : DeviceTask) (t : Nat) (tile : RenderTile) :
    { (render_tile k kg w task t tile).2.1 with sample := tile.sample } = tile := by
  cases hk : tile.task
  case PATH_TRACE =>
    obtain ⟨after, _, htile, _⟩ := render_tile_path_trace k kg w task t tile hk
    obtain ⟨m, polls, tail, _, _, _, hfin, _, _, _⟩ :=
      sample_loop_shape k w task (tile.start_sample + tile.num_samples)
        (tile.start_sample + tile.num_samples - tile.start_sample).toNat tile.start_sample t
        tile rfl
    rw [htile, hfin]
    split_ifs <;> rfl
  case DENOISE =>
    simp only [render_tile, hk]
    split_ifs
    · rfl
    · simp only [denoise_tile]
  case other =>
    simp only [render_tile, hk]
    rw [← hk]

theorem releases_balanced_skip (held : Option RenderTile) (body rest : List Event)
    (h : ∀ e ∈ body, e.acquired = none ∧ e.is_release = false) :
    releases_balanced held (body ++ rest) = releases_balanced held rest := by
  induction body with
  | nil => rfl
  | cons e body ih =>
    have he := h e (List.mem_cons_self _ _)
    have ih2 := ih (fun e1 h1 => h e1 (List.mem_cons_of_mem _ h1))
    rw [List.cons_append]
    cases e <;> first
      | (simp [Event.acquired] at he; done)
      | (simp [Event.is_release] at he; done)
      | (cases held <;> simpa [releases_balanced] using ih2)

theorem tile_loop_throw (k : Kernel) (kg : KernelGlobals) (w : World) (task : DeviceTask)
    (tile : RenderTile) (queue : List RenderTile) (t : Nat)
    (h : (render_tile k kg w task t tile).2.2.any Event.is_exception = true) :
    tile_loop k kg w task (tile :: queue) t =
      Event.acquire_tile (some tile) :: (render_tile k kg w task t tile).2.2 := by
  rw [tile_loop]
  simp only [h, if_true, List.singleton_append]

theorem tile_loop_cons (k : Kernel) (kg : KernelGlobals) (w : World) (task : DeviceTask)
    (tile : RenderTile) (queue : List RenderTile) (t : Nat)
    (h : (render_tile k kg w task t tile).2.2.any Event.is_exception = false) :
    tile_loop k kg w task (tile :: queue) t =
      Event.acquire_tile (some tile) :: ((render_tile k kg w task t tile).2.2 ++
        (Event.release_tile (render_tile k kg w task t tile).2.1 ::
          Event.canceled (w.canceled (render_tile k kg w task t tile).1) ::
          (if (w.canceled (render_tile k kg w task t tile).1 && !task.need_finish_queue) = true
            then [] else tile_loop k kg w task queue ((render_tile k kg w task t tile).1 + 1)))) := by
  rw [tile_loop]
  simp only [h, Bool.false_eq_true, if_false, List.singleton_append, List.cons_append,
    List.append_assoc, List.nil_append]

theorem filter_release_body (body : List Event)
    (h : ∀ e ∈ body, e.acquired = none ∧ e.is_release = false) :
    body.filter Event.is_release = [] ∧ body.filter Event.is_acquired = [] := by
  constructor
  · rw [List.filter_eq_nil_iff]
    intro e he
    simp [(h e he).2]
  · rw [List.filter_eq_nil_iff]
    intro e he
    have := (h e he).1
    cases e <;> simp [Event.acquired, Event.is_acquired] at this ⊢

theorem releases_balanced_acquire (r : Option RenderTile) (rest : List Event) :
    releases_balanced none (Event.acquire_tile r :: rest) = releases_balanced r rest := rfl

theorem releases_balanced_release (tile tile1 : RenderTile) (rest : List Event) :
    releases_balanced (some tile) (Event.release_tile tile1 :: rest) =
      (decide ({ tile1 with sample := tile.sample } = tile) && releases_balanced none rest) :=
  rfl

theorem releases_balanced_canceled (held : Option RenderTile) (c : Bool) (rest : List Event) :
    releases_balanced held (Event.canceled c :: rest) = releases_balanced held rest := by
  cases held <;> rfl

theorem any_exception_iff (l : List Event) :
    l.any Event.is_exception = true ↔ Event.exception ∈ l := by
  rw [List.any_eq_true]
  constructor
  · rintro ⟨e, he, h⟩
    cases e <;> first | exact he | exact absurd h Bool.false_ne_true
  · intro h
    exact ⟨_, h, rfl⟩

/-- The tile calls of the tile loop when no exception is thrown. -/
theorem tile_loop_balanced (k : Kernel) (kg : KernelGlobals) (w : World) (task : DeviceTask)
    (queue : List RenderTile) (t : Nat)
    (hno : Event.exception ∉ tile_loop k kg w task queue t) :
    releases_balanced none (tile_loop k kg w task queue t) = true := by
  induction queue generalizing t with
  | nil => rfl
  | cons tile queue ih =>
    cases hthrow : (render_tile k kg w task t tile).2.2.any Event.is_exception
    case true =>
      rw [tile_loop_throw _ _ _ _ _ _ _ hthrow] at hno
      exact absurd (List.mem_cons_of_mem _ ((any_exception_iff _).1 hthrow)) hno
    case false =>
      rw [tile_loop_cons _ _ _ _ _ _ _ hthrow] at hno ⊢
      have hbody := render_tile_no_tile_call k kg w task t tile
      have hsame := render_tile_same_tile k kg w task t tile
      rw [releases_balanced_acquire, releases_balanced_skip _ _ _ hbody,
        releases_balanced_release, releases_balanced_canceled]
      simp only [hsame, decide_True, Bool.true_and]
      split_ifs with hc
      · rfl
      · apply ih
        intro hmem
        apply hno
        simp only [hc, if_false, List.mem_cons, List.mem_append]
        exact Or.inr (Or.inr (Or.inr (Or.inr hmem)))

/-- The tile loop releases every tile it acquires, except the tile it holds
when an exception is thrown. -/
theorem tile_loop_release_count (k : Kernel) (kg : KernelGlobals) (w : World)
    (task : DeviceTask) (queue : List RenderTile) (t : Nat) :
    ((tile_loop k kg w task queue t).filter Event.is_release).length +
        (if Event.exception ∈ tile_loop k kg w task queue t then 1 else 0) =
      ((tile_loop k kg w task queue t).filter Event.is_acquired).length := by
  induction queue generalizing t with
  | nil => rfl
  | cons tile queue ih =>
    have hbody := render_tile_no_tile_call k kg w task t tile
    obtain ⟨hf1, hf2⟩ := filter_release_body _ hbody
    have h1 : Event.is_release (Event.acquire_tile (some tile)) = false := rfl
    have h2 : Event.is_acquired (Event.acquire_tile (some tile)) = true := rfl
    have h3 : ∀ x, Event.is_release (Event.release_tile x) = true := fun _ => rfl
    have h4 : ∀ x, Event.is_acquired (Event.release_tile x) = false := fun _ => rfl
    have h5 : ∀ x, Event.is_release (Event.canceled x) = false := fun _ => rfl
    have h6 : ∀ x, Event.is_acquired (Event.canceled x) = false := fun _ => rfl
    cases hthrow : (render_tile k kg w task t tile).2.2.any Event.is_exception
    case true =>
      rw [tile_loop_throw _ _ _ _ _ _ _ hthrow]
      have hmem : Event.exception ∈
          Event.acquire_tile (some tile) :: (render_tile k kg w task t tile).2.2 :=
        List.mem_cons_of_mem _ ((any_exception_iff _).1 hthrow)
      simp only [List.filter_cons, h1, h2, hf1, hf2, Bool.false_eq_true, if_false, if_true,
        List.length_cons, List.length_nil, hmem]
    case false =>
      rw [tile_loop_cons _ _ _ _ _ _ _ hthrow]
      have hnot : Event.exception ∉ (render_tile k kg w task t tile).2.2 := by
        intro hmem
        rw [(any_exception_iff _).2 hmem] at hthrow
        exact absurd hthrow (by decide)
      have hiff : ∀ cont : List Event,
          (Event.exception ∈ Event.acquire_tile (some tile) ::
            ((render_tile k kg w task t tile).2.2 ++
              (Event.release_tile (render_tile k kg w task t tile).2.1 ::
                Event.canceled (w.canceled (render_tile k kg w task t tile).1) :: cont))) ↔
          Event.exception ∈ cont := by
        intro cont
        simp only [List.mem_cons, List.mem_append, reduceCtorEq, false_or, hnot]
      simp only [hiff, List.filter_cons, List.filter_append, h1, h2, h3, h4, h5, h6, hf1, hf2,
        List.nil_append, if_true, Bool.false_eq_true, if_false, List.length_cons]
      split_ifs with hc hm hm
      · simp at hm
      · rfl
      · have := ih ((render_tile k kg w task t tile).1 + 1)
        simp only [hm, if_true] at this
        omega
      · have := ih ((render_tile k kg w task t tile).1 + 1)
        simp only [hm, if_false] at this
        omega

theorem int_range_max (lo hi : Int) : int_range lo (max lo hi) = int_range lo hi := by
  rcases le_total lo hi with h | h
  · rw [max_eq_right h]
  · rw [max_eq_left h, int_range_nil lo lo (le_refl _), int_range_nil lo hi h]

/-- With `need_finish_queue` the body of the tile loop traces every sample of
a path-traced tile, whatever the cancellation queries answer. -/
theorem render_tile_kernel_calls_finish (k : Kernel) (kg : KernelGlobals) (w : World)
    (task : DeviceTask) (t : Nat) (tile : RenderTile)
    (hq : task.need_finish_queue = true) :
    (render_tile k kg w task t tile).2.2.filter Event.is_path_trace =
      if tile.task = TileTask.PATH_TRACE then
        (int_range tile.start_sample (tile.start_sample + tile.num_samples)).flatMap
          (path_trace_pixels k tile)
      else [] := by
  cases hk : tile.task
  case PATH_TRACE =>
    obtain ⟨m, _, _, hfil, hm⟩ := render_tile_kernel_calls k kg w task t tile hk
    rw [hfil, hm hq, int_range_max]
    simp
  case DENOISE =>
    simp only [render_tile, hk, reduceCtorEq, if_false]
    rw [List.filter_eq_nil_iff]
    intro e he
    rcases mem_run_denoise _ _ _ _ _ he with he | rfl
    · simp only [denoise_tile, List.mem_cons, List.mem_singleton,
        List.mem_nil_iff, or_false] at he
      rcases he with rfl | rfl | rfl | rfl <;> simp [Event.is_path_trace]
    · simp [Event.is_path_trace]
  case other =>
    simp only [render_tile, hk]
    rfl

theorem filterMap_acquired_body (body : List Event)
    (h : ∀ e ∈ body, e.acquired = none ∧ e.is_release = false) :
    body.filterMap Event.acquired = [] := by
  rw [List.filterMap_eq_nil_iff]
  intro e he
  exact (h e he).1

theorem tile_loop_finish (k : Kernel) (kg : KernelGlobals) (w : World) (task : DeviceTask)
    (hq : task.need_finish_queue = true) (queue : List RenderTile) (t : Nat)
    (hno : Event.exception ∉ tile_loop k kg w task queue t) :
    (tile_loop k kg w task queue t).filterMap Event.acquired = queue.map some ++ [none] ∧
    ((tile_loop k kg w task queue t).filter Event.is_release).length = queue.length ∧
    (tile_loop k kg w task queue t).filter Event.is_path_trace =
      queue.flatMap (fun tile =>
        if tile.task = TileTask.PATH_TRACE then
          (int_range tile.start_sample (tile.start_sample + tile.num_samples)).flatMap
            (path_trace_pixels k tile)
        else []) := by
  induction queue generalizing t with
  | nil => exact ⟨rfl, rfl, rfl⟩
  | cons tile queue ih =>
    have hthrow : (render_tile k kg w task t tile).2.2.any Event.is_exception = false := by
      cases h : (render_tile k kg w task t tile).2.2.any Event.is_exception
      · rfl
      · rw [tile_loop_throw _ _ _ _ _ _ _ h] at hno
        exact absurd (List.mem_cons_of_mem _ ((any_exception_iff _).1 h)) hno
    rw [tile_loop_cons _ _ _ _ _ _ _ hthrow] at hno ⊢
    have hbody := render_tile_no_tile_call k kg w task t tile
    obtain ⟨hf1, _⟩ := filter_release_body _ hbody
    have hf3 := filterMap_acquired_body _ hbody
    have hf4 := render_tile_kernel_calls_finish k kg w task t tile hq
    have hcont : (w.canceled (render_tile k kg w task t tile).1 && !task.need_finish_queue)
        = false := by simp [hq]
    simp only [hcont, Bool.false_eq_true, if_false] at hno ⊢
    obtain ⟨ih1, ih2, ih3⟩ := ih ((render_tile k kg w task t tile).1 + 1) (by
      intro hmem
      apply hno
      simp only [List.mem_cons, List.mem_append]
      exact Or.inr (Or.inr (Or.inr (Or.inr hmem))))
    refine ⟨?_, ?_, ?_⟩
    · have h1 : Event.acquired (Event.acquire_tile (some tile)) = some (some tile) := rfl
      have h2 : ∀ x, Event.acquired (Event.release_tile x) = none := fun _ => rfl
      have h3 : ∀ x, Event.acquired (Event.canceled x) = none := fun _ => rfl
      rw [List.filterMap_cons_some h1, List.filterMap_append, hf3, List.nil_append,
        List.filterMap_cons_none (h2 _), List.filterMap_cons_none (h3 _), ih1]
      rfl
    · have h1 : Event.is_release (Event.acquire_tile (some tile)) = false := rfl
      have h3 : ∀ x, Event.is_release (Event.release_tile x) = true := fun _ => rfl
      have h5 : ∀ x, Event.is_release (Event.canceled x) = false := fun _ => rfl
      simp only [List.filter_cons, List.filter_append, h1, h3, h5, hf1,
        List.nil_append, if_true, Bool.false_eq_true, if_false, List.length_cons, ih2]
    · have h1 : Event.is_path_trace (Event.acquire_tile (some tile)) = false := rfl
      have h3 : ∀ x, Event.is_path_trace (Event.release_tile x) = false := fun _ => rfl
      have h5 : ∀ x, Event.is_path_trace (Event.canceled x) = false := fun _ => rfl
      simp only [List.filter_cons, List.filter_append, h1, h3, h5, hf4,
        Bool.false_eq_true, if_false, ih3, List.flatMap_cons]

theorem shader_loop_shape (k : Kernel) (w : World) (task : DeviceTask) (hi : Int)
    (n : Nat) (s : Int) (t : Nat) (hn : n = (hi - s).toNat) :
    ∃ (m : Int) (tail : List Event),
      s ≤ m ∧ m ≤ max s hi ∧
      shader_loop k w task n s t = (int_range s m).flatMap (shader_round k task) ++ tail ∧
      ((m = max s hi ∧ tail = []) ∨
        (m < hi ∧
          (tail = shader_calls k task m ++ [Event.get_cancel true] ∨
            tail = shader_calls k task m ++
              [Event.get_cancel false, Event.canceled true]))) := by
  induction n generalizing s t with
  | zero =>
    have h : hi ≤ s := by omega
    exact ⟨s, [], le_refl _, le_max_left _ _, by simp [shader_loop, int_range_nil],
      Or.inl ⟨(max_eq_left h).symm, rfl⟩⟩
  | succ n ih =>
    have h : s < hi := by omega
    rw [shader_loop]
    rcases cancel_poll_cases w t with ⟨h1, h2⟩ | ⟨h1, h2⟩
    · simp only [h1, if_true]
      refine ⟨s, shader_calls k task s ++ (cancel_poll w t).2.2, le_refl _, le_max_left _ _,
        by simp [int_range_nil], Or.inr ⟨h, ?_⟩⟩
      rcases h2 with h2 | h2 <;> rw [h2] <;> simp
    · simp only [h1, Bool.false_eq_true, if_false, h2]
      obtain ⟨m, tail, hm1, hm2, htr, hend⟩ := ih (s + 1) (cancel_poll w t).2.1 (by omega)
      have hmax1 : max (s + 1) hi = hi := max_eq_right (by omega)
      have hmax : max s hi = hi := max_eq_right (by omega)
      rw [hmax1] at hm2 hend
      refine ⟨m, tail, by omega, by rw [hmax]; exact hm2, ?_, by rw [hmax]; exact hend⟩
      rw [htr, int_range_cons s m (by omega), List.flatMap_cons]
      simp only [shader_round, List.append_assoc, List.cons_append, List.nil_append]

theorem mem_for_pixels (rect : Int4) (body : Int → Int → List FilterCall) (c : FilterCall)
    (h : c ∈ for_pixels rect body) : ∃ x y, c ∈ body x y := by
  unfold for_pixels at h
  simp only [List.mem_flatMap] at h
  obtain ⟨y, _, x, _, hc⟩ := h
  exact ⟨x, y, hc⟩

theorem align_up_four (n : Int) : n ≤ align_up n 4 ∧ align_up n 4 < n + 4 ∧
    align_up n 4 % 4 = 0 := by
  unfold align_up
  omega

theorem mem_grid {β : Type} (f : Int → Int → β) (x0 x1 y0 y1 : Int) (e : β) :
    e ∈ ((int_range y0 y1).flatMap fun y => (int_range x0 x1).map fun x => f x y) ↔
      ∃ x y, x0 ≤ x ∧ x < x1 ∧ y0 ≤ y ∧ y < y1 ∧ e = f x y := by
  simp only [List.mem_flatMap, List.mem_map, mem_int_range]
  constructor
  · rintro ⟨y, hy, x, hx, rfl⟩
    exact ⟨x, y, hx.1, hx.2, hy.1, hy.2, rfl⟩
  · rintro ⟨x, y, hx1, hx2, hy1, hy2, rfl⟩
    exact ⟨y, ⟨hy1, hy2⟩, x, ⟨hx1, hx2⟩, rfl⟩

theorem nodup_grid {β : Type} (f : Int → Int → β) (x0 x1 y0 y1 : Int)
    (hinj : ∀ x y x2 y2, f x y = f x2 y2 → x = x2 ∧ y = y2) :
    ((int_range y0 y1).flatMap fun y => (int_range x0 x1).map fun x => f x y).Nodup := by
  rw [List.nodup_flatMap]
  constructor
  · intro y _
    apply List.Nodup.map _ (nodup_int_range _ _)
    intro a c h
    exact (hinj a y c y h).1
  · apply (nodup_int_range _ _).pairwise_of_forall_ne
    intro a _ c _ hne
    simp only [Function.onFun]
    rw [List.disjoint_left]
    intro e h1 h2
    simp only [List.mem_map] at h1 h2
    obtain ⟨x, _, rfl⟩ := h1
    obtain ⟨x2, _, h⟩ := h2
    exact hne (hinj x2 c x a h).2.symm

theorem plane_ptr_inj (fb ps a b : Int) (hps : ps ≠ 0) :
    fb + a * ps = fb + b * ps ↔ a = b := by
  constructor
  · intro h
    have h1 : a * ps = b * ps := by linarith
    exact mul_right_cancel₀ hps h1
  · intro h
    rw [h]

theorem design_row_x2_nonneg {α : Type} [LinearOrderedField α] (DF : Nat)
    (features ft : Nat → α) (bf : Option (Nat → α)) (d : Nat) :
    0 ≤ design_row_x2 DF features ft bf d := by
  unfold design_row_x2
  cases bf with
  | none => exact mul_self_nonneg _
  | some b => exact mul_nonneg (mul_self_nonneg _) (mul_self_nonneg _)

theorem filter_fill_design_row_loop_succ {α : Type} [LinearOrderedField α] (DF : Nat)
    (features : Nat → α) (rank : Nat) (ft : Nat → α) (bf : Option (Nat → α))
    (n d : Nat) (weight : α) (row : Nat → Option α) :
    filter_fill_design_row_loop DF features rank ft bf (n + 1) d weight row =
      if design_row_x2 DF features ft bf d < 1 then
        filter_fill_design_row_loop DF features rank ft bf n (d + 1)
          (weight * (3 / 4 * (1 - design_row_x2 DF features ft bf d)))
          (if bf.isNone then
            Function.update (Function.update row (1 + d)
              (some (design_row_x DF features ft d))) (1 + rank + d)
              (some (design_row_x2 DF features ft bf d))
          else Function.update row (1 + d) (some (design_row_x DF features ft d)))
      else (0, row) := by
  cases bf <;> rfl

/-- The weight computed by the loop of `filter_fill_design_row`. -/
theorem filter_fill_design_row_loop_weight {α : Type} [LinearOrderedField α] (DF : Nat)
    (features : Nat → α) (rank : Nat) (ft : Nat → α) (bf : Option (Nat → α))
    (n d : Nat) (weight : α) (row : Nat → Option α) :
    ((∃ i, i < n ∧ 1 ≤ design_row_x2 DF features ft bf (d + i)) →
      (filter_fill_design_row_loop DF features rank ft bf n d weight row).1 = 0) ∧
    ((∀ i, i < n → design_row_x2 DF features ft bf (d + i) < 1) →
      (filter_fill_design_row_loop DF features rank ft bf n d weight row).1 =
        weight * ∏ i in Finset.range n,
          (3 / 4 * (1 - design_row_x2 DF features ft bf (d + i)))) ∧
    (0 ≤ weight →
      0 ≤ (filter_fill_design_row_loop DF features rank ft bf n d weight row).1 ∧
      (filter_fill_design_row_loop DF features rank ft bf n d weight row).1 ≤
        weight * (3 / 4) ^ n) := by
  induction n generalizing d weight row with
  | zero =>
    refine ⟨?_, ?_, ?_⟩
    · rintro ⟨i, hi, _⟩
      omega
    · intro _
      simp [filter_fill_design_row_loop]
    · intro hw
      simp [filter_fill_design_row_loop, hw]
  | succ n ih =>
    rw [filter_fill_design_row_loop_succ]
    have hnn := design_row_x2_nonneg DF features ft bf d
    by_cases hlt : design_row_x2 DF features ft bf d < 1
    · simp only [hlt, if_true]
      obtain ⟨ih1, ih2, ih3⟩ := ih (d + 1)
        (weight * (3 / 4 * (1 - design_row_x2 DF features ft bf d)))
        (if bf.isNone then
            Function.update (Function.update row (1 + d)
              (some (design_row_x DF features ft d))) (1 + rank + d)
              (some (design_row_x2 DF features ft bf d))
          else Function.update row (1 + d) (some (design_row_x DF features ft d)))
      refine ⟨?_, ?_, ?_⟩
      · rintro ⟨i, hi, hge⟩
        cases i with
        | zero => exact absurd hlt (not_lt.mpr (by simpa using hge))
        | succ i =>
          apply ih1
          exact ⟨i, by omega, by rw [show d + 1 + i = d + (i + 1) by omega]; exact hge⟩
      · intro hall
        rw [ih2 (fun i hi => by
          rw [show d + 1 + i = d + (i + 1) by omega]; exact hall (i + 1) (by omega))]
        rw [Finset.prod_range_succ']
        simp only [Nat.add_zero]
        have : ∀ i, d + 1 + i = d + (i + 1) := fun i => by omega
        simp only [this]
        ring
      · intro hw
        have hf0 : 0 ≤ 3 / 4 * (1 - design_row_x2 DF features ft bf d) := by
          apply mul_nonneg (by norm_num)
          linarith
        have hf1 : 3 / 4 * (1 - design_row_x2 DF features ft bf d) ≤ 3 / 4 := by
          have : (1 - design_row_x2 DF features ft bf d) ≤ 1 := by linarith
          calc 3 / 4 * (1 - design_row_x2 DF features ft bf d) ≤ 3 / 4 * 1 :=
                mul_le_mul_of_nonneg_left this (by norm_num)
            _ = 3 / 4 := by ring
        obtain ⟨h1, h2⟩ := ih3 (mul_nonneg hw hf0)
        refine ⟨h1, le_trans h2 ?_⟩
        have hp : (0 : α) ≤ (3 / 4) ^ n := pow_nonneg (by norm_num) n
        calc weight * (3 / 4 * (1 - design_row_x2 DF features ft bf d)) * (3 / 4) ^ n
            ≤ weight * (3 / 4) * (3 / 4) ^ n :=
              mul_le_mul_of_nonneg_right (mul_le_mul_of_nonneg_left hf1 hw) hp
          _ = weight * (3 / 4) ^ (n + 1) := by ring
    · simp only [hlt, if_false]
      refine ⟨fun _ => trivial, ?_, ?_⟩
      · intro hall
        exact absurd (by simpa using hall 0 (by omega)) hlt
      · intro hw
        exact ⟨le_refl _, mul_nonneg hw (pow_nonneg (by norm_num) _)⟩

/-- The loop of `filter_fill_design_row` never writes entry 0. -/
theorem filter_fill_design_row_loop_zero {α : Type} [LinearOrderedField α] (DF : Nat)
    (features : Nat → α) (rank : Nat) (ft : Nat → α) (bf : Option (Nat → α))
    (n d : Nat) (weight : α) (row : Nat → Option α) :
    (filter_fill_design_row_loop DF features rank ft bf n d weight row).2 0 = row 0 := by
  induction n generalizing d weight row with
  | zero => rfl
  | succ n ih =>
    rw [filter_fill_design_row_loop_succ]
    split_ifs with h1 h2
    · rw [ih]
      rw [Function.update_noteq (by omega), Function.update_noteq (by omega)]
    · rw [ih]
      rw [Function.update_noteq (by omega)]
    · rfl

theorem store_inverse_ne {α : Type} [LinearOrderedField α] (scale : Nat → α) (i j : Nat)
    (h : j ≠ i) : store_inverse scale i j = scale j :=
  Function.update_noteq h _ _

theorem store_inverse_eq {α : Type} [LinearOrderedField α] (scale : Nat → α) (i : Nat) :
    store_inverse scale i i = 1 / max (scale i) (1 / 100) :=
  Function.update_same _ _ _

theorem store_inverse_sqrt_ne {α : Type} [LinearOrderedField α] (sqrtf : α → α)
    (scale : Nat → α) (i j : Nat) (h : j ≠ i) : store_inverse_sqrt sqrtf scale i j = scale j :=
  Function.update_noteq h _ _

theorem store_inverse_sqrt_eq {α : Type} [LinearOrderedField α] (sqrtf : α → α)
    (scale : Nat → α) (i : Nat) :
    store_inverse_sqrt sqrtf scale i i = 1 / max (sqrtf (scale i)) (1 / 100) :=
  Function.update_same _ _ _

/-- The entries of `filter_calculate_scale` without `DENOISE_TEMPORAL`. -/
theorem filter_calculate_scale_static {α : Type} [LinearOrderedField α] (sqrtf : α → α)
    (scale : Nat → α) (i : Nat) :
    filter_calculate_scale false sqrtf scale i =
      if i < 3 ∨ i = 6 then 1 / max (scale i) (1 / 100)
      else if i ≤ 9 then 1 / max (sqrtf (scale i)) (1 / 100)
      else scale i := by
  simp only [filter_calculate_scale, Bool.false_eq_true, if_false]
  by_cases h9 : i = 9
  · subst h9; simp [store_inverse_sqrt_eq, store_inverse_sqrt_ne, store_inverse_ne]
  rw [store_inverse_sqrt_ne _ _ _ _ h9]
  by_cases h8 : i = 8
  · subst h8; simp [store_inverse_sqrt_eq, store_inverse_sqrt_ne, store_inverse_ne]
  rw [store_inverse_sqrt_ne _ _ _ _ h8]
  by_cases h7 : i = 7
  · subst h7; simp [store_inverse_sqrt_eq, store_inverse_sqrt_ne, store_inverse_ne]
  rw [store_inverse_sqrt_ne _ _ _ _ h7]
  by_cases h6 : i = 6
  · subst h6; simp [store_inverse_eq, store_inverse_sqrt_ne, store_inverse_ne]
  rw [store_inverse_ne _ _ _ h6]
  by_cases h5 : i = 5
  · subst h5; simp [store_inverse_sqrt_eq, store_inverse_sqrt_ne, store_inverse_ne]
  rw [store_inverse_sqrt_ne _ _ _ _ h5]
  by_cases h4 : i = 4
  · subst h4; simp [store_inverse_sqrt_eq, store_inverse_sqrt_ne, store_inverse_ne]
  rw [store_inverse_sqrt_ne _ _ _ _ h4]
  by_cases h3 : i = 3
  · subst h3; simp [store_inverse_sqrt_eq, store_inverse_sqrt_ne, store_inverse_ne]
  rw [store_inverse_sqrt_ne _ _ _ _ h3]
  by_cases h2 : i = 2
  · subst h2; simp [store_inverse_eq, store_inverse_ne]
  rw [store_inverse_ne _ _ _ h2]
  by_cases h1 : i = 1
  · subst h1; simp [store_inverse_eq, store_inverse_ne]
  rw [store_inverse_ne _ _ _ h1]
  by_cases h0 : i = 0
  · subst h0; simp [store_inverse_eq]
  rw [store_inverse_ne _ _ _ h0]
  have ha : ¬ (i < 3 ∨ i = 6) := by omega
  have hb : ¬ i ≤ 9 := by omega
  simp only [ha, hb, if_false]

/-- The entries of `filter_calculate_scale` with `DENOISE_TEMPORAL`. -/
theorem filter_calculate_scale_temporal {α : Type} [LinearOrderedField α] (sqrtf : α → α)
    (scale : Nat → α) (i : Nat) :
    filter_calculate_scale true sqrtf scale i =
      if i < 4 ∨ i = 7 then 1 / max (scale i) (1 / 100)
      else if i ≤ 10 then 1 / max (sqrtf (scale i)) (1 / 100)
      else scale i := by
  simp only [filter_calculate_scale, if_true]
  by_cases h10 : i = 10
  · subst h10; simp [store_inverse_sqrt_eq, store_inverse_sqrt_ne, store_inverse_ne]
  rw [store_inverse_sqrt_ne _ _ _ _ h10]
  by_cases h9 : i = 9
  · subst h9; simp [store_inverse_sqrt_eq, store_inverse_sqrt_ne, store_inverse_ne]
  rw [store_inverse_sqrt_ne _ _ _ _ h9]
  by_cases h8 : i = 8
  · subst h8; simp [store_inverse_sqrt_eq, store_inverse_sqrt_ne, store_inverse_ne]
  rw [store_inverse_sqrt_ne _ _ _ _ h8]
  by_cases h7 : i = 7
  · subst h7; simp [store_inverse_eq, store_inverse_sqrt_ne, store_inverse_ne]
  rw [store_inverse_ne _ _ _ h7]
  by_cases h6 : i = 6
  · subst h6; simp [store_inverse_sqrt_eq, store_inverse_sqrt_ne, store_inverse_ne]
  rw [store_inverse_sqrt_ne _ _ _ _ h6]
  by_cases h5 : i = 5
  · subst h5; simp [store_inverse_sqrt_eq, store_inverse_sqrt_ne, store_inverse_ne]
  rw [store_inverse_sqrt_ne _ _ _ _ h5]
  by_cases h4 : i = 4
  · subst h4; simp [store_inverse_sqrt_eq, store_inverse_sqrt_ne, store_inverse_ne]
  rw [store_inverse_sqrt_ne _ _ _ _ h4]
  by_cases h3 : i = 3
  · subst h3; simp [store_inverse_eq, store_inverse_ne]
  rw [store_inverse_ne _ _ _ h3]
  by_cases h2 : i = 2
  · subst h2; simp [store_inverse_eq, store_inverse_ne]
  rw [store_inverse_ne _ _ _ h2]
  by_cases h1 : i = 1
  · subst h1; simp [store_inverse_eq, store_inverse_ne]
  rw [store_inverse_ne _ _ _ h1]
  by_cases h0 : i = 0
  · subst h0; simp [store_inverse_eq]
  rw [store_inverse_ne _ _ _ h0]
  have ha : ¬ (i < 4 ∨ i = 7) := by omega
  have hb : ¬ i ≤ 10 := by omega
  simp only [ha, hb, if_false]

theorem filter_fill_design_row_sse_loop_succ {α : Type} [LinearOrderedField α] (DF : Nat)
    (features : Nat → m128 α) (active : Fin 4 → Bool) (rank : Nat) (ft : Nat → m128 α)
    (bf : Option (Nat → m128 α)) (n d : Nat) (weight : m128 α)
    (row : Nat → Option (m128 α)) :
    filter_fill_design_row_sse_loop DF features active rank ft bf (n + 1) d weight row =
      filter_fill_design_row_sse_loop DF features active rank ft bf n (d + 1)
        (_mm_mask_ps
          (fun l => weight l *
            (3 / 4 * (1 - design_row_x2 DF (lane l features) (lane l ft)
              (bf.map (lane l)) d)))
          (fun l => decide (design_row_x2 DF (lane l features) (lane l ft)
              (bf.map (lane l)) d < 1) && active l))
        (if bf.isNone then
          Function.update (Function.update row (1 + d)
            (some (fun l => design_row_x DF (lane l features) (lane l ft) d)))
            (1 + rank + d)
            (some (fun l => design_row_x2 DF (lane l features) (lane l ft)
              (bf.map (lane l)) d))
        else Function.update row (1 + d)
          (some (fun l => design_row_x DF (lane l features) (lane l ft) d))) := by
  cases bf <;> rfl

/-- A lane whose weight is 0 keeps the weight 0. -/
theorem filter_fill_design_row_sse_loop_zero {α : Type} [LinearOrderedField α] (DF : Nat)
    (features : Nat → m128 α) (active : Fin 4 → Bool) (rank : Nat) (ft : Nat → m128 α)
    (bf : Option (Nat → m128 α)) (l : Fin 4) (n d : Nat) (weight : m128 α)
    (row : Nat → Option (m128 α)) (h : weight l = 0) :
    (filter_fill_design_row_sse_loop DF features active rank ft bf n d weight row).1 l = 0 := by
  induction n generalizing d weight row with
  | zero => exact h
  | succ n ih =>
    rw [filter_fill_design_row_sse_loop_succ]
    apply ih
    simp only [_mm_mask_ps, h, zero_mul, ite_self]

/-- The SSE loop writes only the entries `1 + d'` and `1 + rank + d'` of the
iterations `d'` it runs. -/
theorem filter_fill_design_row_sse_loop_frame {α : Type} [LinearOrderedField α] (DF : Nat)
    (features : Nat → m128 α) (active : Fin 4 → Bool) (rank : Nat) (ft : Nat → m128 α)
    (bf : Option (Nat → m128 α)) (n d : Nat) (weight : m128 α)
    (row : Nat → Option (m128 α)) (i : Nat)
    (h1 : i < 1 + d ∨ 1 + d + n ≤ i) (h2 : i < 1 + rank + d ∨ 1 + rank + d + n ≤ i) :
    (filter_fill_design_row_sse_loop DF features active rank ft bf n d weight row).2 i =
      row i := by
  induction n generalizing d weight row with
  | zero => rfl
  | succ n ih =>
    rw [filter_fill_design_row_sse_loop_succ, ih _ _ _ (by omega) (by omega)]
    split_ifs
    · rw [Function.update_noteq (by omega), Function.update_noteq (by omega)]
    · rw [Function.update_noteq (by omega)]

/-- On an active lane the SSE loop follows the scalar loop: equal weights,
and every entry the scalar loop has written is found in the SSE row. -/
theorem filter_fill_design_row_sse_loop_lane {α : Type} [LinearOrderedField α] (DF : Nat)
    (features : Nat → m128 α) (active : Fin 4 → Bool) (rank : Nat) (ft : Nat → m128 α)
    (bf : Option (Nat → m128 α)) (l : Fin 4) (hact : active l = true)
    (n d : Nat) (ws : α) (rs : Nat → Option α) (wv : m128 α) (rv : Nat → Option (m128 α))
    (hn : d + n = rank) (hw : wv l = ws)
    (hrow : ∀ i v, rs i = some v →
      (i < 1 + d ∨ (1 + rank ≤ i ∧ i < 1 + rank + d)) ∧ ∃ V, rv i = some V ∧ V l = v) :
    (filter_fill_design_row_sse_loop DF features active rank ft bf n d wv rv).1 l =
      (filter_fill_design_row_loop DF (lane l features) rank (lane l ft) (bf.map (lane l))
        n d ws rs).1 ∧
    ∀ i v, (filter_fill_design_row_loop DF (lane l features) rank (lane l ft)
        (bf.map (lane l)) n d ws rs).2 i = some v →
      ∃ V, (filter_fill_design_row_sse_loop DF features active rank ft bf n d wv rv).2 i
        = some V ∧ V l = v := by
  induction n generalizing d ws rs wv rv with
  | zero =>
    exact ⟨hw, fun i v h => (hrow i v h).2⟩
  | succ n ih =>
    rw [filter_fill_design_row_sse_loop_succ, filter_fill_design_row_loop_succ]
    by_cases hlt : design_row_x2 DF (lane l features) (lane l ft) (bf.map (lane l)) d < 1
    · simp only [hlt, if_true]
      apply ih
      · omega
      · simp only [_mm_mask_ps, hlt, hact, decide_True, Bool.and_self, if_true, hw]
      · intro i v hv
        cases hbf : bf with
        | none =>
          simp only [hbf, Option.map_none', Option.isNone_none, if_true] at hv ⊢
          by_cases hi2 : i = 1 + rank + d
          · subst hi2
            rw [Function.update_same] at hv
            rw [Function.update_same]
            exact ⟨by omega, _, rfl, Option.some.inj hv⟩
          · rw [Function.update_noteq hi2] at hv
            rw [Function.update_noteq hi2]
            by_cases hi1 : i = 1 + d
            · subst hi1
              rw [Function.update_same] at hv
              rw [Function.update_same]
              exact ⟨by omega, _, rfl, Option.some.inj hv⟩
            · rw [Function.update_noteq hi1] at hv
              rw [Function.update_noteq hi1]
              obtain ⟨h1, h2⟩ := hrow i v hv
              exact ⟨by omega, h2⟩
        | some b =>
          simp only [hbf, Option.map_some', Option.isNone_some, Bool.false_eq_true,
            if_false] at hv ⊢
          by_cases hi1 : i = 1 + d
          · subst hi1
            rw [Function.update_same] at hv
            rw [Function.update_same]
            exact ⟨by omega, _, rfl, Option.some.inj hv⟩
          · rw [Function.update_noteq hi1] at hv
            rw [Function.update_noteq hi1]
            obtain ⟨h1, h2⟩ := hrow i v hv
            exact ⟨by omega, h2⟩
    · simp only [hlt, if_false]
      constructor
      · apply filter_fill_design_row_sse_loop_zero
        simp only [_mm_mask_ps, hlt, decide_False, Bool.false_and, Bool.false_eq_true,
          if_false]
      · intro i v hv
        obtain ⟨h1, h2⟩ := hrow i v hv
        rw [filter_fill_design_row_sse_loop_frame _ _ _ _ _ _ _ _ _ _ _ (by omega) (by omega)]
        obtain ⟨V, hV1, hV2⟩ := h2
        have hne1 : i ≠ 1 + d := by omega
        have hne2 : i ≠ 1 + rank + d := by omega
        split_ifs
        · rw [Function.update_noteq hne2, Function.update_noteq hne1]
          exact ⟨V, hV1, hV2⟩
        · rw [Function.update_noteq hne1]
          exact ⟨V, hV1, hV2⟩

theorem for_pixel_window_row_spec (high : Int2) (py : Int) (n : Nat) :
    ∀ px pixel_buffer : Int, high.x - px = (n : Int) →
      for_pixel_window_row high py n px pixel_buffer =
        ((int_range px high.x).map (fun q => (q, py, pixel_buffer + (q - px))), high.x,
          pixel_buffer + (high.x - px)) := by
  induction n with
  | zero =>
    intro px pb h
    have e : high.x = px := by omega
    rw [int_range_nil _ _ (by omega)]
    simp [for_pixel_window_row, e]
  | succ n ih =>
    intro px pb h
    have hlt : px < high.x := by omega
    rw [for_pixel_window_row, if_pos hlt, ih (px + 1) (pb + 1) (by omega),
      int_range_cons _ _ hlt]
    refine Prod.ext ?_ (Prod.ext rfl ?_)
    · simp only [List.map_cons, sub_self, add_zero, List.cons.injEq, true_and]
      apply List.map_congr_left
      intro q _
      refine Prod.ext rfl (Prod.ext rfl ?_)
      show pb + 1 + (q - (px + 1)) = pb + (q - px)
      ring
    · show pb + 1 + (high.x - (px + 1)) = pb + (high.x - px)
      ring

theorem for_pixel_window_rows_spec (low high : Int2) (buffer_w : Int) (hx : low.x ≤ high.x)
    (n : Nat) :
    ∀ py pixel_buffer : Int, high.y - py = (n : Int) →
      for_pixel_window_rows low high buffer_w n py pixel_buffer =
        (int_range py high.y).flatMap fun r =>
          (int_range low.x high.x).map fun q =>
            (q, r, pixel_buffer + (r - py) * buffer_w + (q - low.x)) := by
  induction n with
  | zero =>
    intro py pb h
    rw [int_range_nil _ _ (by omega)]
    rfl
  | succ n ih =>
    intro py pb h
    have hlt : py < high.y := by omega
    rw [for_pixel_window_rows, if_pos hlt,
      for_pixel_window_row_spec high py _ low.x pb (by omega)]
    dsimp only
    rw [ih (py + 1) _ (by omega), int_range_cons _ _ hlt, List.flatMap_cons]
    congr 1
    · apply List.map_congr_left
      intro q _
      refine Prod.ext rfl (Prod.ext rfl ?_)
      show pb + (q - low.x) = pb + (py - py) * buffer_w + (q - low.x)
      ring
    · apply List.flatMap_congr
      intro r _
      apply List.map_congr_left
      intro q _
      refine Prod.ext rfl (Prod.ext rfl ?_)
      show pb + (high.x - low.x) + (buffer_w - (high.x - low.x)) + (r - (py + 1)) * buffer_w +
        (q - low.x) = pb + (r - py) * buffer_w + (q - low.x)
      ring

theorem sse_groups_zero (hi px : Int) (h : hi ≤ px) : ((hi - px + 3) / 4).toNat = 0 := by
  omega

theorem sse_groups_succ (hi px : Int) (h : px < hi) :
    ((hi - px + 3) / 4).toNat = ((hi - (px + 4) + 3) / 4).toNat + 1 := by
  omega

theorem for_pixel_window_sse_row_spec (high : Int2) (py : Int) (n : Nat) :
    ∀ px pixel_buffer : Int, high.x - px ≤ (n : Int) →
      for_pixel_window_sse_row high py n px pixel_buffer =
        ((List.range ((high.x - px + 3) / 4).toNat).map
            (fun (k : Nat) => (px + 4 * (k : Int), py, pixel_buffer + 4 * (k : Int))),
          px + 4 * (((high.x - px + 3) / 4).toNat : Int),
          pixel_buffer + 4 * (((high.x - px + 3) / 4).toNat : Int)) := by
  induction n with
  | zero =>
    intro px pb h
    rw [sse_groups_zero _ _ (by omega)]
    simp [for_pixel_window_sse_row]
  | succ n ih =>
    intro px pb h
    by_cases hlt : px < high.x
    · rw [for_pixel_window_sse_row, if_pos hlt, ih (px + 4) (pb + 4) (by omega),
        sse_groups_succ _ _ hlt, List.range_succ_eq_map]
      refine Prod.ext ?_ (Prod.ext ?_ ?_)
      · simp only [List.map_cons, List.map_map, Nat.cast_zero, mul_zero, add_zero,
          List.cons.injEq, true_and]
        apply List.map_congr_left
        intro k _
        refine Prod.ext ?_ (Prod.ext rfl ?_)
        · show px + 4 + 4 * (k : Int) = px + 4 * ((k + 1 : Nat) : Int)
          push_cast
          ring
        · show pb + 4 + 4 * (k : Int) = pb + 4 * ((k + 1 : Nat) : Int)
          push_cast
          ring
      · show px + 4 + 4 * _ = px + 4 * ((_ + 1 : Nat) : Int)
        push_cast
        ring
      · show pb + 4 + 4 * _ = pb + 4 * ((_ + 1 : Nat) : Int)
        push_cast
        ring
    · rw [for_pixel_window_sse_row, if_neg hlt, sse_groups_zero _ _ (by omega)]
      simp

theorem for_pixel_window_sse_rows_spec (low high : Int2) (buffer_w : Int) (n : Nat) :
    ∀ py pixel_buffer : Int, high.y - py = (n : Int) →
      for_pixel_window_sse_rows low high buffer_w n py pixel_buffer =
        (int_range py high.y).flatMap fun r =>
          (List.range ((high.x - low.x + 3) / 4).toNat).map fun (k : Nat) =>
            (low.x + 4 * (k : Int), r, pixel_buffer + (r - py) * buffer_w + 4 * (k : Int)) := by
  induction n with
  | zero =>
    intro py pb h
    rw [int_range_nil _ _ (by omega)]
    rfl
  | succ n ih =>
    intro py pb h
    have hlt : py < high.y := by omega
    rw [for_pixel_window_sse_rows, if_pos hlt,
      for_pixel_window_sse_row_spec high py _ low.x pb (by omega)]
    dsimp only
    rw [ih (py + 1) _ (by omega), int_range_cons _ _ hlt, List.flatMap_cons]
    congr 1
    · apply List.map_congr_left
      intro k _
      refine Prod.ext rfl (Prod.ext rfl ?_)
      show pb + 4 * (k : Int) = pb + (py - py) * buffer_w + 4 * (k : Int)
      ring
    · apply List.flatMap_congr
      intro r _
      apply List.map_congr_left
      intro k _
      refine Prod.ext rfl (Prod.ext rfl ?_)
      show pb + 4 * (((high.x - low.x + 3) / 4).toNat : Int) +
          (buffer_w - (low.x + 4 * (((high.x - low.x + 3) / 4).toNat : Int) - low.x)) +
          (r - (py + 1)) * buffer_w + 4 * (k : Int) =
        pb + (r - py) * buffer_w + 4 * (k : Int)
      ring

theorem mem_for_pixels_iff (rect : Int4) (body : Int → Int → List FilterCall)
    (c : FilterCall) :
    c ∈ for_pixels rect body ↔
      ∃ x y, rect.x ≤ x ∧ x < rect.z ∧ rect.y ≤ y ∧ y < rect.w ∧ c ∈ body x y := by
  unfold for_pixels
  simp only [List.mem_flatMap, mem_int_range]
  constructor
  · rintro ⟨y, ⟨hy1, hy2⟩, x, ⟨hx1, hx2⟩, h⟩
    exact ⟨x, y, hx1, hx2, hy1, hy2, h⟩
  · rintro ⟨x, y, hx1, hx2, hy1, hy2, h⟩
    exact ⟨y, ⟨hy1, hy2⟩, x, ⟨hx1, hx2⟩, h⟩

/-- The six loops of step 2 with the plane of every pointer written out. -/
theorem prefilter_shadow_stages (K : PrefilterKernels) (sample : Int) (rect : Int4)
    (buffer tile_x tile_y offsets strides : List Int) (fb ps : Int) :
    prefilter_shadow K sample rect buffer tile_x tile_y offsets strides fb ps =
      for_pixels rect (fun x y =>
        [FilterCall.filter_divide_shadow K.filter_divide_shadow sample buffer x y
          tile_x tile_y offsets strides (fb + 20 * ps) (fb + 16 * ps) (fb + 17 * ps)
          (fb + 18 * ps) rect]) ++
      for_pixels rect (fun x y =>
        [FilterCall.filter_non_local_means K.filter_non_local_means x y
          (fb + 18 * ps) (fb + 16 * ps) (fb + 17 * ps) (fb + 19 * ps) rect 6 3 4 1]) ++
      for_pixels rect (fun x y =>
        [FilterCall.filter_non_local_means K.filter_non_local_means x y
          (fb + 20 * ps) (fb + 21 * ps) (fb + 19 * ps) (fb + 16 * ps) rect 5 3 1 (1 / 4),
         FilterCall.filter_non_local_means K.filter_non_local_means x y
          (fb + 21 * ps) (fb + 20 * ps) (fb + 19 * ps) (fb + 18 * ps) rect 5 3 1 (1 / 4)]) ++
      for_pixels rect (fun x y =>
        [FilterCall.filter_combine_halves K.filter_combine_halves x y
          none (fb + 17 * ps) (fb + 16 * ps) (fb + 18 * ps) rect 2]) ++
      for_pixels rect (fun x y =>
        [FilterCall.filter_non_local_means K.filter_non_local_means x y
          (fb + 16 * ps) (fb + 18 * ps) (fb + 17 * ps) (fb + 20 * ps) rect 4 2 1 (1 / 2),
         FilterCall.filter_non_local_means K.filter_non_local_means x y
          (fb + 18 * ps) (fb + 16 * ps) (fb + 17 * ps) (fb + 21 * ps) rect 4 2 1 (1 / 2)]) ++
      for_pixels rect (fun x y =>
        [FilterCall.filter_combine_halves K.filter_combine_halves x y
          (some (fb + 8 * ps)) (fb + 9 * ps) (fb + 20 * ps) (fb + 21 * ps) rect 0]) := by
  have e : fb + 20 * ps + ps = fb + 21 * ps := by ring
  unfold prefilter_shadow
  simp only [e]

/-- With a non-zero pass stride, no call of the body of the frame loop writes
a plane that it reads. -/
theorem frame_outputs_not_inputs (K : PrefilterKernels) (sample : Int) (rect : Int4)
    (buffer tile_x tile_y offsets strides : List Int) (fb ps : Int) (hps : ps ≠ 0)
    (c : FilterCall)
    (hc : c ∈ prefilter_features K sample rect buffer tile_x tile_y offsets strides fb ps ++
      prefilter_shadow K sample rect buffer tile_x tile_y offsets strides fb ps ++
      copy_color K sample rect buffer tile_x tile_y offsets strides fb ps)
    (o : Int) (ho : o ∈ c.outputs) : o ∉ c.inputs := by
  simp only [List.mem_append] at hc
  rcases hc with (hc | hc) | hc
  · unfold prefilter_features at hc
    simp only [List.mem_flatMap, List.mem_append, List.zip_cons_cons, List.zip_nil_right,
      List.mem_cons, List.mem_nil_iff, or_false] at hc
    obtain ⟨i, hi, hc | hc⟩ := hc
    · obtain ⟨x, y, hc⟩ := mem_for_pixels _ _ _ hc
      rw [List.mem_singleton.1 hc]
      simp [FilterCall.inputs]
    · obtain ⟨x, y, hc⟩ := mem_for_pixels _ _ _ hc
      rw [List.mem_singleton.1 hc] at ho ⊢
      simp only [FilterCall.outputs, List.mem_singleton] at ho
      subst ho
      simp only [FilterCall.inputs, List.mem_cons, List.mem_nil_iff, or_false,
        plane_ptr_inj _ _ _ _ hps]
      rcases hi with rfl | rfl | rfl | rfl | rfl | rfl | rfl <;> norm_num
  · rw [prefilter_shadow_stages] at hc
    simp only [List.mem_append] at hc
    rcases hc with ((((hc | hc) | hc) | hc) | hc) | hc
    all_goals
      obtain ⟨x, y, hc⟩ := mem_for_pixels _ _ _ hc
      simp only [List.mem_cons, List.mem_nil_iff, or_false] at hc
      rcases hc with rfl | rfl
    all_goals
      simp only [FilterCall.outputs, Option.toList, List.mem_append, List.mem_cons,
        List.mem_nil_iff, or_false, false_or] at ho
    all_goals
      rcases ho with rfl | rfl | rfl | rfl <;>
        simp only [FilterCall.inputs, List.mem_cons, List.mem_nil_iff, or_false,
          plane_ptr_inj _ _ _ _ hps, List.not_mem_nil, not_false_eq_true] <;> norm_num
  · unfold copy_color at hc
    simp only [List.mem_flatMap, List.zip_cons_cons, List.zip_nil_right,
      List.mem_cons, List.mem_nil_iff, or_false] at hc
    obtain ⟨i, hi, hc⟩ := hc
    obtain ⟨x, y, hc⟩ := mem_for_pixels _ _ _ hc
    rw [List.mem_singleton.1 hc]
    simp [FilterCall.inputs]

/-- A call of the body of the frame loop is made for a pixel of the rect, so
the rect is not empty. -/
theorem frame_call_rect_nonempty (K : PrefilterKernels) (sample : Int) (rect : Int4)
    (buffer tile_x tile_y offsets strides : List Int) (fb ps : Int) (c : FilterCall)
    (hc : c ∈ prefilter_features K sample rect buffer tile_x tile_y offsets strides fb ps ++
      prefilter_shadow K sample rect buffer tile_x tile_y offsets strides fb ps ++
      copy_color K sample rect buffer tile_x tile_y offsets strides fb ps) :
    rect.x < rect.z ∧ rect.y < rect.w := by
  have key : ∀ body, c ∈ for_pixels rect body → rect.x < rect.z ∧ rect.y < rect.w := by
    intro body h
    obtain ⟨x, y, h1, h2, h3, h4, -⟩ := (mem_for_pixels_iff _ _ _).1 h
    exact ⟨lt_of_le_of_lt h1 h2, lt_of_le_of_lt h3 h4⟩
  simp only [List.mem_append] at hc
  rcases hc with (hc | hc) | hc
  · unfold prefilter_features at hc
    simp only [List.mem_flatMap, List.mem_append] at hc
    obtain ⟨i, -, hc | hc⟩ := hc
    · exact key _ hc
    · exact key _ hc
  · unfold prefilter_shadow at hc
    simp only [List.mem_append] at hc
    rcases hc with ((((hc | hc) | hc) | hc) | hc) | hc <;> exact key _ hc
  · unfold copy_color at hc
    simp only [List.mem_flatMap] at hc
    obtain ⟨i, -, hc⟩ := hc
    exact key _ hc

theorem append_split_of_not_mem {β : Type} (body R pre post : List β) (a : β)
    (h : body ++ R = pre ++ a :: post) (hn : a ∉ body) :
    ∃ pre1, pre = body ++ pre1 ∧ R = pre1 ++ a :: post := by
  rcases List.append_eq_append_iff.1 h with ⟨a1, h1, h2⟩ | ⟨c1, h1, h2⟩
  · exact ⟨a1, h1, h2⟩
  · cases c1 with
    | nil =>
      refine ⟨[], ?_, ?_⟩
      · rw [h1]
        simp
      · simpa using h2.symm
    | cons x c2 =>
      simp only [List.cons_append, List.cons.injEq] at h2
      exfalso
      apply hn
      rw [h1, ← h2.1]
      simp

/-- After every successful `acquire_tile` the tile loop runs the body for the
tile handed out; unless the body throws, `release_tile` follows. -/
theorem tile_loop_acquire (k : Kernel) (kg : KernelGlobals) (w : World) (task : DeviceTask)
    (tile : RenderTile) (queue : List RenderTile) :
    ∀ (t : Nat) (pre post : List Event),
      tile_loop k kg w task queue t = pre ++ Event.acquire_tile (some tile) :: post →
      ∃ (t1 : Nat) (rest : List Event),
        post = (render_tile k kg w task t1 tile).2.2 ++ rest ∧
        (((render_tile k kg w task t1 tile).2.2.any Event.is_exception = true ∧ rest = []) ∨
          ((render_tile k kg w task t1 tile).2.2.any Event.is_exception = false ∧
            ∃ rest1, rest = Event.release_tile (render_tile k kg w task t1 tile).2.1 ::
              rest1)) := by
  induction queue with
  | nil =>
    intro t pre post h
    have hmem : Event.acquire_tile (some tile) ∈ tile_loop k kg w task [] t := by
      rw [h]
      simp
    simp [tile_loop] at hmem
  | cons tile0 queue ih =>
    intro t pre post h
    have hbody := render_tile_no_tile_call k kg w task t tile0
    have hnot : Event.acquire_tile (some tile) ∉ (render_tile k kg w task t tile0).2.2 := by
      intro hmem
      have := (hbody _ hmem).1
      simp [Event.acquired] at this
    cases hthrow : (render_tile k kg w task t tile0).2.2.any Event.is_exception
    case true =>
      rw [tile_loop_throw _ _ _ _ _ _ _ hthrow] at h
      cases pre with
      | nil =>
        simp only [List.nil_append, List.cons.injEq, Event.acquire_tile.injEq,
          Option.some.injEq] at h
        obtain ⟨rfl, rfl⟩ := h
        exact ⟨t, [], by simp, Or.inl ⟨hthrow, rfl⟩⟩
      | cons a pre1 =>
        simp only [List.cons_append, List.cons.injEq] at h
        exfalso
        apply hnot
        rw [h.2]
        simp
    case false =>
      rw [tile_loop_cons _ _ _ _ _ _ _ hthrow] at h
      cases pre with
      | nil =>
        simp only [List.nil_append, List.cons.injEq, Event.acquire_tile.injEq,
          Option.some.injEq] at h
        obtain ⟨rfl, rfl⟩ := h
        exact ⟨t, _, rfl, Or.inr ⟨hthrow, _, rfl⟩⟩
      | cons a pre1 =>
        simp only [List.cons_append, List.cons.injEq] at h
        obtain ⟨pre2, -, h2⟩ := append_split_of_not_mem _ _ _ _ _ h.2 hnot
        cases pre2 with
        | nil =>
          simp at h2
        | cons r pre3 =>
          simp only [List.cons_append, List.cons.injEq] at h2
          cases pre3 with
          | nil =>
            simp at h2
          | cons c pre4 =>
            simp only [List.cons_append, List.cons.injEq] at h2
            obtain ⟨-, -, h3⟩ := h2
            split_ifs at h3
            · simp at h3
            · exact ih _ _ _ h3

theorem thread_render_acquire (b : KernelBuild) (s : CpuSupport) (kg : KernelGlobals)
    (w : World) (task : DeviceTask) (tile : RenderTile) (queue : List RenderTile)
    (pre post : List Event)
    (h : thread_render b s kg w task queue = pre ++ Event.acquire_tile (some tile) :: post) :
    ∃ (t1 : Nat) (rest : List Event),
      post = (render_tile (thread_render_kernel b s) kg w task t1 tile).2.2 ++ rest ∧
      (((render_tile (thread_render_kernel b s) kg w task t1 tile).2.2.any
          Event.is_exception = true ∧ rest = []) ∨
        ((render_tile (thread_render_kernel b s) kg w task t1 tile).2.2.any
            Event.is_exception = false ∧
          ∃ rest1, rest = Event.release_tile
            (render_tile (thread_render_kernel b s) kg w task t1 tile).2.1 :: rest1)) := by
  unfold thread_render at h
  simp only at h
  split_ifs at h
  · have hmem : Event.acquire_tile (some tile) ∈ [Event.canceled true] := by
      rw [h]
      simp
    simp at hmem
  · cases pre with
    | nil => simp at h
    | cons a pre1 =>
      simp only [List.singleton_append, List.cons_append, List.cons.injEq] at h
      exact tile_loop_acquire _ kg w task tile queue 1 pre1 post h.2

theorem thread_render_head (b : KernelBuild) (s : CpuSupport) (kg : KernelGlobals)
    (w : World) (task : DeviceTask) (tile : RenderTile) (queue : List RenderTile)
    (h : (w.canceled 0 && !task.need_finish_queue) = false) :
    ∃ rest : List Event,
      thread_render b s kg w task (tile :: queue) =
        Event.canceled (w.canceled 0) :: Event.acquire_tile (some tile) ::
          ((render_tile (thread_render_kernel b s) kg w task 1 tile).2.2 ++ rest) ∧
      (((render_tile (thread_render_kernel b s) kg w task 1 tile).2.2.any
          Event.is_exception = true ∧ rest = []) ∨
        ((render_tile (thread_render_kernel b s) kg w task 1 tile).2.2.any
            Event.is_exception = false ∧
          ∃ rest1, rest = Event.release_tile
            (render_tile (thread_render_kernel b s) kg w task 1 tile).2.1 :: rest1)) := by
  unfold thread_render
  simp only [h, Bool.false_eq_true, if_false, List.singleton_append]
  cases hthrow : (render_tile (thread_render_kernel b s) kg w task 1 tile).2.2.any
      Event.is_exception
  · rw [tile_loop_cons _ _ _ _ _ _ _ hthrow]
    exact ⟨_, rfl, Or.inr ⟨rfl, _, rfl⟩⟩
  · rw [tile_loop_throw _ _ _ _ _ _ _ hthrow]
    exact ⟨[], by simp, Or.inl ⟨rfl, rfl⟩⟩

/-- The calls of the body of the tile loop for a `DENOISE` tile. -/
theorem render_tile_denoise (k : Kernel) (kg : KernelGlobals) (w : World) (task : DeviceTask)
    (t : Nat) (tile : RenderTile) (hk : tile.task = TileTask.DENOISE) :
    ∃ (buffers : List Nat) (offsets strides frame_stride : List Int) (rest : List Event),
      (render_tile k kg w task t tile).2.2 =
        Event.get_neighbor_tiles tile ::
          Event.denoise_fill_buffer (tile.start_sample + tile.num_samples)
            (make_int4 (max (tile.x - kg.half_window) (w.get_neighbor_tiles tile 3).x)
              (max (tile.y - kg.half_window) (w.get_neighbor_tiles tile 1).y)
              (min (tile.x + tile.w + kg.half_window + 1)
                ((w.get_neighbor_tiles tile 5).x + (w.get_neighbor_tiles tile 5).w))
              (min (tile.y + tile.h + kg.half_window + 1)
                ((w.get_neighbor_tiles tile 7).y + (w.get_neighbor_tiles tile 7).h)))
            buffers
            [(w.get_neighbor_tiles tile 3).x, (w.get_neighbor_tiles tile 4).x,
              (w.get_neighbor_tiles tile 5).x,
              (w.get_neighbor_tiles tile 5).x + (w.get_neighbor_tiles tile 5).w]
            [(w.get_neighbor_tiles tile 1).y, (w.get_neighbor_tiles tile 4).y,
              (w.get_neighbor_tiles tile 7).y,
              (w.get_neighbor_tiles tile 7).y + (w.get_neighbor_tiles tile 7).h]
            offsets strides tile.params.frames frame_stride :: rest ∧
      (rest = [Event.exception] ∨
        ∃ rest1, rest = Event.denoise_run (tile.start_sample + tile.num_samples)
          (make_int4 tile.x tile.y tile.w tile.h)
          (make_int4 (max (tile.x - kg.half_window) (w.get_neighbor_tiles tile 3).x)
            (max (tile.y - kg.half_window) (w.get_neighbor_tiles tile 1).y)
            (min (tile.x + tile.w + kg.half_window + 1)
              ((w.get_neighbor_tiles tile 5).x + (w.get_neighbor_tiles tile 5).w))
            (min (tile.y + tile.h + kg.half_window + 1)
              ((w.get_neighbor_tiles tile 7).y + (w.get_neighbor_tiles tile 7).h)))
          tile.offset tile.stride tile.buffer :: rest1) := by
  simp only [render_tile, hk, denoise_tile, run_denoise, Event.new_size]
  split_ifs
  · exact ⟨_, _, _, _, _, rfl, Or.inl rfl⟩
  · exact ⟨_, _, _, _, _, rfl, Or.inr ⟨_, rfl⟩⟩
  · exact ⟨_, _, _, _, _, rfl, Or.inr ⟨_, rfl⟩⟩

theorem sample_rounds_no_call (k : Kernel) (tile : RenderTile) (lo hi : Int) :
    ∀ e ∈ (int_range lo hi).flatMap (sample_round k tile),
      e.acquired = none ∧ e.is_release = false ∧ e.is_exception = false := by
  intro e he
  simp only [List.mem_flatMap, sample_round, List.mem_append, List.mem_cons,
    List.mem_singleton, List.mem_nil_iff, or_false] at he
  obtain ⟨i, -, ((rfl | rfl) | h) | rfl⟩ := he
  · exact ⟨rfl, rfl, rfl⟩
  · exact ⟨rfl, rfl, rfl⟩
  · obtain ⟨_, _, _, _, _, _, rfl⟩ := (mem_path_trace_pixels k tile i e).1 h
    exact ⟨rfl, rfl, rfl⟩
  · exact ⟨rfl, rfl, rfl⟩

/-- The calls that `thread_render` makes for a `DENOISE` tile: at the head of
the queue, and after every `acquire_tile` that hands out the tile. -/
theorem thread_render_denoise_calls (b : KernelBuild) (s : CpuSupport) (kg : KernelGlobals)
    (w : World) (task : DeviceTask) (tile : RenderTile) (queue : List RenderTile)
    (hk : tile.task = TileTask.DENOISE) :
    ((w.canceled 0 && !task.need_finish_queue) = false →
      ∃ (buffers : List Nat) (offsets strides frame_stride : List Int) (rest : List Event),
        thread_render b s kg w task (tile :: queue) =
          Event.canceled (w.canceled 0) :: Event.acquire_tile (some tile) ::
            Event.get_neighbor_tiles tile ::
            Event.denoise_fill_buffer (tile.start_sample + tile.num_samples)
              (make_int4 (max (tile.x - kg.half_window) (w.get_neighbor_tiles tile 3).x)
                (max (tile.y - kg.half_window) (w.get_neighbor_tiles tile 1).y)
                (min (tile.x + tile.w + kg.half_window + 1)
                  ((w.get_neighbor_tiles tile 5).x + (w.get_neighbor_tiles tile 5).w))
                (min (tile.y + tile.h + kg.half_window + 1)
                  ((w.get_neighbor_tiles tile 7).y + (w.get_neighbor_tiles tile 7).h)))
              buffers
              [(w.get_neighbor_tiles tile 3).x, (w.get_neighbor_tiles tile 4).x,
                (w.get_neighbor_tiles tile 5).x,
                (w.get_neighbor_tiles tile 5).x + (w.get_neighbor_tiles tile 5).w]
              [(w.get_neighbor_tiles tile 1).y, (w.get_neighbor_tiles tile 4).y,
                (w.get_neighbor_tiles tile 7).y,
                (w.get_neighbor_tiles tile 7).y + (w.get_neighbor_tiles tile 7).h]
              offsets strides tile.params.frames frame_stride :: rest ∧
        (rest = [Event.exception] ∨
          ∃ rest1, rest = Event.denoise_run (tile.start_sample + tile.num_samples)
            (make_int4 tile.x tile.y tile.w tile.h)
            (make_int4 (max (tile.x - kg.half_window) (w.get_neighbor_tiles tile 3).x)
                (max (tile.y - kg.half_window) (w.get_neighbor_tiles tile 1).y)
                (min (tile.x + tile.w + kg.half_window + 1)
                  ((w.get_neighbor_tiles tile 5).x + (w.get_neighbor_tiles tile 5).w))
                (min (tile.y + tile.h + kg.half_window + 1)
                  ((w.get_neighbor_tiles tile 7).y + (w.get_neighbor_tiles tile 7).h)))
            tile.offset tile.stride tile.buffer :: rest1)) ∧
    (∀ pre post : List Event,
      thread_render b s kg w task queue = pre ++ Event.acquire_tile (some tile) :: post →
      ∃ (buffers : List Nat) (offsets strides frame_stride : List Int) (rest : List Event),
        post =
            Event.get_neighbor_tiles tile ::
            Event.denoise_fill_buffer (tile.start_sample + tile.num_samples)
              (make_int4 (max (tile.x - kg.half_window) (w.get_neighbor_tiles tile 3).x)
                (max (tile.y - kg.half_window) (w.get_neighbor_tiles tile 1).y)
                (min (tile.x + tile.w + kg.half_window + 1)
                  ((w.get_neighbor_tiles tile 5).x + (w.get_neighbor_tiles tile 5).w))
                (min (tile.y + tile.h + kg.half_window + 1)
                  ((w.get_neighbor_tiles tile 7).y + (w.get_neighbor_tiles tile 7).h)))
              buffers
              [(w.get_neighbor_tiles tile 3).x, (w.get_neighbor_tiles tile 4).x,
                (w.get_neighbor_tiles tile 5).x,
                (w.get_neighbor_tiles tile 5).x + (w.get_neighbor_tiles tile 5).w]
              [(w.get_neighbor_tiles tile 1).y, (w.get_neighbor_tiles tile 4).y,
                (w.get_neighbor_tiles tile 7).y,
                (w.get_neighbor_tiles tile 7).y + (w.get_neighbor_tiles tile 7).h]
              offsets strides tile.params.frames frame_stride :: rest ∧
        (rest = [Event.exception] ∨
          ∃ rest1, rest = Event.denoise_run (tile.start_sample + tile.num_samples)
            (make_int4 tile.x tile.y tile.w tile.h)
            (make_int4 (max (tile.x - kg.half_window) (w.get_neighbor_tiles tile 3).x)
                (max (tile.y - kg.half_window) (w.get_neighbor_tiles tile 1).y)
                (min (tile.x + tile.w + kg.half_window + 1)
                  ((w.get_neighbor_tiles tile 5).x + (w.get_neighbor_tiles tile 5).w))
                (min (tile.y + tile.h + kg.half_window + 1)
                  ((w.get_neighbor_tiles tile 7).y + (w.get_neighbor_tiles tile 7).h)))
            tile.offset tile.stride tile.buffer :: rest1)) := by
  have hbody : ∀ t1 : Nat, ∀ rest0 : List Event,
      (((render_tile (thread_render_kernel b s) kg w task t1 tile).2.2.any
          Event.is_exception = true ∧ rest0 = []) ∨
        ((render_tile (thread_render_kernel b s) kg w task t1 tile).2.2.any
            Event.is_exception = false ∧
          ∃ rest1, rest0 = Event.release_tile
            (render_tile (thread_render_kernel b s) kg w task t1 tile).2.1 :: rest1)) →
      ∃ (buffers : List Nat) (offsets strides frame_stride : List Int) (rest : List Event),
        (render_tile (thread_render_kernel b s) kg w task t1 tile).2.2 ++ rest0 =
          Event.get_neighbor_tiles tile ::
            Event.denoise_fill_buffer (tile.start_sample + tile.num_samples)
              (make_int4 (max (tile.x - kg.half_window) (w.get_neighbor_tiles tile 3).x)
                (max (tile.y - kg.half_window) (w.get_neighbor_tiles tile 1).y)
                (min (tile.x + tile.w + kg.half_window + 1)
                  ((w.get_neighbor_tiles tile 5).x + (w.get_neighbor_tiles tile 5).w))
                (min (tile.y + tile.h + kg.half_window + 1)
                  ((w.get_neighbor_tiles tile 7).y + (w.get_neighbor_tiles tile 7).h)))
              buffers
              [(w.get_neighbor_tiles tile 3).x, (w.get_neighbor_tiles tile 4).x,
                (w.get_neighbor_tiles tile 5).x,
                (w.get_neighbor_tiles tile 5).x + (w.get_neighbor_tiles tile 5).w]
              [(w.get_neighbor_tiles tile 1).y, (w.get_neighbor_tiles tile 4).y,
                (w.get_neighbor_tiles tile 7).y,
                (w.get_neighbor_tiles tile 7).y + (w.get_neighbor_tiles tile 7).h]
              offsets strides tile.params.frames frame_stride :: rest ∧
        (rest = [Event.exception] ∨
          ∃ rest1, rest = Event.denoise_run (tile.start_sample + tile.num_samples)
            (make_int4 tile.x tile.y tile.w tile.h)
            (make_int4 (max (tile.x - kg.half_window) (w.get_neighbor_tiles tile 3).x)
              (max (tile.y - kg.half_window) (w.get_neighbor_tiles tile 1).y)
              (min (tile.x + tile.w + kg.half_window + 1)
                ((w.get_neighbor_tiles tile 5).x + (w.get_neighbor_tiles tile 5).w))
              (min (tile.y + tile.h + kg.half_window + 1)
                ((w.get_neighbor_tiles tile 7).y + (w.get_neighbor_tiles tile 7).h)))
            tile.offset tile.stride tile.buffer :: rest1) := by
    intro t1 rest0 hrest0
    obtain ⟨buffers, offsets, strides, frame_stride, r, hbody, hr⟩ :=
      render_tile_denoise (thread_render_kernel b s) kg w task t1 tile hk
    rcases hr with rfl | ⟨rest1, rfl⟩
    · rcases hrest0 with ⟨_, rfl⟩ | ⟨hno, _⟩
      · exact ⟨buffers, offsets, strides, frame_stride, [Event.exception],
          by rw [hbody, List.append_nil], Or.inl rfl⟩
      · rw [hbody] at hno
        exact absurd hno (by simp [Event.is_exception])
    · exact ⟨buffers, offsets, strides, frame_stride, _, by rw [hbody]; rfl,
        Or.inr ⟨rest1 ++ rest0, rfl⟩⟩
  refine ⟨?_, ?_⟩
  · intro hcont
    obtain ⟨rest0, htr, hrest0⟩ := thread_render_head b s kg w task tile queue hcont
    obtain ⟨buffers, offsets, strides, frame_stride, rest, h1, h2⟩ := hbody 1 rest0 hrest0
    exact ⟨buffers, offsets, strides, frame_stride, rest, by rw [htr, h1], h2⟩
  · intro pre post h
    obtain ⟨t1, rest0, hpost, hrest0⟩ :=
      thread_render_acquire b s kg w task tile queue pre post h
    obtain ⟨buffers, offsets, strides, frame_stride, rest, h1, h2⟩ := hbody t1 rest0 hrest0
    exact ⟨buffers, offsets, strides, frame_stride, rest, by rw [hpost, h1], h2⟩

/-! ## The claims -/

/-- C1: for every build and every CPU, the chain of `thread_render` selects
one path-trace kernel; its level is compiled in and supported, no compiled-in
and supported level ranks higher in the order
scalar < SSE2 < SSE3 < SSE4.1 < AVX < AVX2, and it is the scalar kernel when no
vector level is both compiled in and supported. -/
theorem thread_render_kernel_highest (b : KernelBuild) (s : CpuSupport) :
    (thread_render_kernel b s).op = KernelOp.path_trace ∧
    b.has (thread_render_kernel b s).level = true ∧
    s.has (thread_render_kernel b s).level = true ∧
    (∀ L : IsaLevel, b.has L = true → s.has L = true →
      L.rank ≤ (thread_render_kernel b s).level.rank) ∧
    ((∀ L : IsaLevel, L ≠ IsaLevel.scalar → ¬ (b.has L = true ∧ s.has L = true)) →
      thread_render_kernel b s = ⟨IsaLevel.scalar, KernelOp.path_trace⟩) := by
  unfold thread_render_kernel
  refine ⟨?_, ?_, ?_, ?_, ?_⟩
  · split_ifs <;> rfl
  · split_ifs <;> simp_all [KernelBuild.has]
  · split_ifs <;> simp_all [CpuSupport.has]
  · intro L hb hs
    cases L <;> split_ifs <;> simp_all [KernelBuild.has, CpuSupport.has, IsaLevel.rank]
  · intro h
    have h1 := h IsaLevel.sse2 (by decide)
    have h2 := h IsaLevel.sse3 (by decide)
    have h3 := h IsaLevel.sse41 (by decide)
    have h4 := h IsaLevel.avx (by decide)
    have h5 := h IsaLevel.avx2 (by decide)
    simp only [KernelBuild.has, CpuSupport.has] at h1 h2 h3 h4 h5
    split_ifs <;> simp_all

/-- C2: for every build and every CPU all selection chains of the device
choose the level that `thread_render` chooses: the message logged by the
constructor is the message of that level and of no other, and the four
prefilter kernels of `denoise_fill_buffer`, the two kernels of `denoise_run`,
both film-convert kernels and the shader kernel are the variants of that
level. -/
theorem selection_chains_agree (b : KernelBuild) (s : CpuSupport) :
    (∀ L : IsaLevel, CPUDevice_log b s = log_message L ↔
      L = (thread_render_kernel b s).level) ∧
    denoise_fill_buffer_kernels b s =
      { filter_divide_shadow :=
          ⟨(thread_render_kernel b s).level, KernelOp.filter_divide_shadow⟩
        filter_get_feature :=
          ⟨(thread_render_kernel b s).level, KernelOp.filter_get_feature⟩
        filter_non_local_means :=
          ⟨(thread_render_kernel b s).level, KernelOp.filter_non_local_means⟩
        filter_combine_halves :=
          ⟨(thread_render_kernel b s).level, KernelOp.filter_combine_halves⟩ } ∧
    denoise_run_kernels b s =
      { filter_estimate_params_kernel :=
          ⟨(thread_render_kernel b s).level, KernelOp.filter_estimate_params⟩
        filter_final_pass_kernel :=
          ⟨(thread_render_kernel b s).level, KernelOp.filter_final_pass⟩ } ∧
    thread_render_kernel b s = ⟨(thread_render_kernel b s).level, KernelOp.path_trace⟩ ∧
    thread_film_convert_half_kernel b s =
      ⟨(thread_render_kernel b s).level, KernelOp.convert_to_half_float⟩ ∧
    thread_film_convert_byte_kernel b s =
      ⟨(thread_render_kernel b s).level, KernelOp.convert_to_byte⟩ ∧
    thread_shader_kernel b s = ⟨(thread_render_kernel b s).level, KernelOp.shader⟩ := by
  refine ⟨?_, ?_, ?_, ?_, ?_, ?_, ?_⟩
  · intro L
    unfold CPUDevice_log thread_render_kernel
    cases L <;> split_ifs <;> simp [log_message]
  · unfold denoise_fill_buffer_kernels thread_render_kernel
    split_ifs <;> rfl
  · unfold denoise_run_kernels thread_render_kernel
    split_ifs <;> rfl
  · unfold thread_render_kernel
    split_ifs <;> rfl
  · unfold thread_film_convert_half_kernel thread_render_kernel
    split_ifs <;> rfl
  · unfold thread_film_convert_byte_kernel thread_render_kernel
    split_ifs <;> rfl
  · unfold thread_shader_kernel thread_render_kernel
    split_ifs <;> rfl

/-- C4: within one path-traced tile, whatever the cancellation queries answer,
the samples passed to the successive path-trace kernel calls never decrease,
and when a pixel is traced at sample `s + 1` (with `s` a sample of the tile)
every pixel of the tile has been traced at sample `s` before. -/
theorem path_trace_samples_in_order (k : Kernel) (kg : KernelGlobals) (w : World)
    (task : DeviceTask) (t : Nat) (tile : RenderTile)
    (hk : tile.task = TileTask.PATH_TRACE) :
    ((render_tile k kg w task t tile).2.2.filterMap Event.path_trace_sample).Pairwise
      (fun s1 s2 => s1 ≤ s2) ∧
    (∀ pre post k1 buffer rng_state s x y offset stride,
      (render_tile k kg w task t tile).2.2 =
        pre ++ Event.path_trace_kernel k1 buffer rng_state (s + 1) x y offset stride :: post →
      tile.start_sample ≤ s →
      ∀ x1 y1, tile.x ≤ x1 → x1 < tile.x + tile.w → tile.y ≤ y1 → y1 < tile.y + tile.h →
        Event.path_trace_kernel k tile.buffer tile.rng_state s x1 y1 tile.offset tile.stride
          ∈ pre) := by
  obtain ⟨m, hm1, _, hfil, _⟩ := render_tile_kernel_calls k kg w task t tile hk
  have hS : (render_tile k kg w task t tile).2.2.Pairwise
      (fun a b => ∀ s1 ∈ a.path_trace_sample, ∀ s2 ∈ b.path_trace_sample, s1 ≤ s2) := by
    apply pairwise_of_filter _ Event.is_path_trace
    · intro a b h s1 h1 s2 h2
      rcases h with h | h
      · cases a <;> simp [Event.is_path_trace, Event.path_trace_sample] at h h1
      · cases b <;> simp [Event.is_path_trace, Event.path_trace_sample] at h h2
    · rw [hfil, List.pairwise_flatMap]
      constructor
      · intro s _
        apply List.pairwise_of_forall_mem_list
        intro a ha b hb s1 h1 s2 h2
        obtain ⟨_, _, _, _, _, _, rfl⟩ := (mem_path_trace_pixels k tile s a).1 ha
        obtain ⟨_, _, _, _, _, _, rfl⟩ := (mem_path_trace_pixels k tile s b).1 hb
        simp only [Event.path_trace_sample, Option.mem_def, Option.some.injEq] at h1 h2
        omega
      · apply (pairwise_lt_int_range _ _).imp
        intro a b hab e1 he1 e2 he2 s1 h1 s2 h2
        obtain ⟨_, _, _, _, _, _, rfl⟩ := (mem_path_trace_pixels k tile a e1).1 he1
        obtain ⟨_, _, _, _, _, _, rfl⟩ := (mem_path_trace_pixels k tile b e2).1 he2
        simp only [Event.path_trace_sample, Option.mem_def, Option.some.injEq] at h1 h2
        omega
  refine ⟨List.pairwise_filterMap.2 hS, ?_⟩
  intro pre post k1 buffer rng_state s x y offset stride htr hs x1 y1 hx1 hx2 hy1 hy2
  have hmem : Event.path_trace_kernel k1 buffer rng_state (s + 1) x y offset stride ∈
      (render_tile k kg w task t tile).2.2.filter Event.is_path_trace := by
    rw [htr]
    exact List.mem_filter.2 ⟨by simp, rfl⟩
  rw [hfil, List.mem_flatMap] at hmem
  obtain ⟨s2, hs2, he⟩ := hmem
  obtain ⟨_, _, _, _, _, _, heq⟩ := (mem_path_trace_pixels k tile s2 _).1 he
  simp only [Event.path_trace_kernel.injEq] at heq
  have hs3 : s2 = s + 1 := heq.2.2.2.1.symm
  have hrange := (mem_int_range _ _ _).1 hs2
  have htarget : Event.path_trace_kernel k tile.buffer tile.rng_state s x1 y1 tile.offset
      tile.stride ∈ (render_tile k kg w task t tile).2.2.filter Event.is_path_trace := by
    rw [hfil, List.mem_flatMap]
    exact ⟨s, (mem_int_range _ _ _).2 ⟨hs, by omega⟩,
      (mem_path_trace_pixels k tile s _).2 ⟨x1, y1, hx1, hx2, hy1, hy2, rfl⟩⟩
  have htarget2 := (List.mem_filter.1 htarget).1
  rw [htr] at htarget2 hS
  rcases List.mem_append.1 htarget2 with h | h
  · exact h
  · exfalso
    rcases List.mem_cons.1 h with h | h
    · simp only [Event.path_trace_kernel.injEq] at h
      omega
    · have h2 := (List.pairwise_cons.1 (List.pairwise_append.1 hS).2.1).1 _ h
      have := h2 (s + 1) rfl s rfl
      omega

/-- C4, instance: in a 2 x 1 tile with samples 5 and 6, under permanent
cancellation and with `need_finish_queue`, pixel (0, 0) is traced at sample 5
before pixel (1, 0) is traced at sample 6. -/
theorem path_trace_samples_in_order_witness :
    Event.path_trace_kernel scalar_path_trace 0 0 5 0 0 7 9 ∈
      [Event.get_cancel true,
        Event.path_trace_kernel scalar_path_trace 0 0 5 0 0 7 9,
        Event.path_trace_kernel scalar_path_trace 0 0 5 1 0 7 9,
        Event.update_progress (some { small_tile with sample := 6 }),
        Event.get_cancel true,
        Event.path_trace_kernel scalar_path_trace 0 0 6 0 0 7 9] :=
  (path_trace_samples_in_order scalar_path_trace ⟨0⟩ canceled_world (render_task true) 0
    small_tile rfl).2 _ [Event.update_progress (some { small_tile with sample := 7 })]
    scalar_path_trace 0 0 5 1 0 7 9 (by decide) (by decide) 0 0 (by decide) (by decide)
    (by decide) (by decide)

/-- C5: `thread_render` with `need_finish_queue` false. If the task pool is
canceled on entry the only call made is that query: no tile is acquired, no
kernel runs. For a path-traced tile the calls are, for the samples
`start_sample ≤ s < m` in order, one cancellation poll answering false, the
pixel loops of `s` and the progress call, followed by a rest without kernel or
progress calls; when `m` is not the end of the sample range the rest begins
with the poll before sample `m`, which answered true, so no sample from `m`
on is traced. -/
theorem cancellation_polled_per_sample (b : KernelBuild) (s : CpuSupport) (kg : KernelGlobals)
    (w : World) (task : DeviceTask) (queue : List RenderTile)
    (hq : task.need_finish_queue = false) :
    (w.canceled 0 = true → thread_render b s kg w task queue = [Event.canceled true]) ∧
    (∀ (t : Nat) (tile : RenderTile), tile.task = TileTask.PATH_TRACE →
      ∃ (m : Int) (rest : List Event),
        tile.start_sample ≤ m ∧
        m ≤ max tile.start_sample (tile.start_sample + tile.num_samples) ∧
        (render_tile (thread_render_kernel b s) kg w task t tile).2.2 =
          (int_range tile.start_sample m).flatMap
            (sample_round (thread_render_kernel b s) tile) ++ rest ∧
        (∀ e ∈ rest, e.is_path_trace = false ∧ e.is_update_progress = false) ∧
        (m < tile.start_sample + tile.num_samples →
          ∃ rest1, rest = Event.get_cancel true :: rest1 ∨
            rest = Event.get_cancel false :: Event.canceled true :: rest1)) := by
  constructor
  · intro h
    simp [thread_render, h, hq]
  · intro t tile hk
    obtain ⟨after, htr, _, hafter⟩ :=
      render_tile_path_trace (thread_render_kernel b s) kg w task t tile hk
    obtain ⟨m, polls, tail, hm1, hm2, hloop, _, _, hp2, hend⟩ :=
      sample_loop_shape (thread_render_kernel b s) w task (tile.start_sample + tile.num_samples)
        (tile.start_sample + tile.num_samples - tile.start_sample).toNat tile.start_sample t
        tile rfl
    refine ⟨m, tail ++ after, hm1, hm2, ?_, ?_, ?_⟩
    · rw [htr, hloop, List.append_assoc]
      congr 1
      apply List.flatMap_congr
      intro i _
      rw [hp2 hq i]
      rfl
    · intro e he
      rcases List.mem_append.1 he with h | h
      · rcases hend with ⟨_, rfl⟩ | ⟨_, _, rfl | rfl⟩
        · simp at h
        · simp only [List.mem_singleton] at h
          subst h
          exact ⟨rfl, rfl⟩
        · simp only [List.mem_cons, List.mem_singleton, List.mem_nil_iff, or_false] at h
          rcases h with rfl | rfl <;> exact ⟨rfl, rfl⟩
      · rcases hafter e h with ⟨c, rfl⟩ | ⟨a, b, c, d, e1, f, g, h, i, rfl⟩ |
          ⟨a, b, c, d, e1, f, rfl⟩ | rfl <;> exact ⟨rfl, rfl⟩
    · intro hlt
      rcases hend with ⟨h, _⟩ | ⟨_, _, rfl | rfl⟩
      · rw [h] at hlt
        exact absurd hlt (not_lt.mpr (le_max_right _ _))
      · exact ⟨after, Or.inl rfl⟩
      · exact ⟨after, Or.inr rfl⟩

/-- C5, instance: a worker that finds the pool canceled on entry. -/
theorem cancellation_polled_per_sample_witness :
    thread_render ⟨true, true, true, true, true⟩ ⟨true, true, true, true, true⟩ ⟨0⟩
      canceled_world (render_task false) [small_tile] = [Event.canceled true] :=
  (cancellation_polled_per_sample ⟨true, true, true, true, true⟩ ⟨true, true, true, true, true⟩
    ⟨0⟩ canceled_world (render_task false) [small_tile] rfl).1 rfl

/-- C6, as stated, fails: with `need_finish_queue` and every cancellation
query answering true, the worker still runs the path-trace kernel for both
samples and both pixels of the tile it acquires. -/
theorem finish_queue_traces_when_canceled :
    (thread_render ⟨false, false, false, false, false⟩ ⟨false, false, false, false, false⟩ ⟨0⟩
      canceled_world (render_task true) [small_tile]).filter Event.is_path_trace =
      [Event.path_trace_kernel scalar_path_trace 0 0 5 0 0 7 9,
        Event.path_trace_kernel scalar_path_trace 0 0 5 1 0 7 9,
        Event.path_trace_kernel scalar_path_trace 0 0 6 0 0 7 9,
        Event.path_trace_kernel scalar_path_trace 0 0 6 1 0 7 9] := by
  decide

/-- C6, amended: in `thread_render` with `need_finish_queue` true, whatever
the cancellation queries answer (also when all answer true from entry on),
as long as no `new[]` of the denoiser throws and the sample and pixel ranges
of the tiles fit the type `int`, the worker acquires every tile of the queue
until `acquire_tile` returns false, releases as many tiles as the queue
holds, and for every path-traced tile runs the kernel for every sample and
pixel of the tile, with arguments that fit `int`: sample computation is not
skipped. -/
theorem finish_queue_drains_and_traces (b : KernelBuild) (s : CpuSupport) (kg : KernelGlobals)
    (w : World) (task : DeviceTask) (queue : List RenderTile)
    (hq : task.need_finish_queue = true)
    (hno : Event.exception ∉ thread_render b s kg w task queue)
    (hint : ∀ tile ∈ queue, int_values [tile.start_sample, tile.num_samples,
      tile.start_sample + tile.num_samples, tile.x, tile.w, tile.x + tile.w, tile.y, tile.h,
      tile.y + tile.h] = true) :
    (thread_render b s kg w task queue).filterMap Event.acquired = queue.map some ++ [none] ∧
    ((thread_render b s kg w task queue).filter Event.is_release).length = queue.length ∧
    (thread_render b s kg w task queue).filter Event.is_path_trace =
      queue.flatMap (fun tile =>
        if tile.task = TileTask.PATH_TRACE then
          (int_range tile.start_sample (tile.start_sample + tile.num_samples)).flatMap
            (path_trace_pixels (thread_render_kernel b s) tile)
        else []) ∧
    (∀ k1 buffer rng_state i x y offset stride,
      Event.path_trace_kernel k1 buffer rng_state i x y offset stride ∈
        thread_render b s kg w task queue → int_values [i, x, y] = true) := by
  have hcont : (w.canceled 0 && !task.need_finish_queue) = false := by simp [hq]
  have htr : thread_render b s kg w task queue =
      Event.canceled (w.canceled 0) ::
        tile_loop (thread_render_kernel b s) kg w task queue 1 := by
    unfold thread_render
    simp only [hcont, Bool.false_eq_true, if_false, List.singleton_append]
  rw [htr] at hno ⊢
  obtain ⟨h1, h2, h3⟩ := tile_loop_finish (thread_render_kernel b s) kg w task hq queue 1
    (fun hmem => hno (List.mem_cons_of_mem _ hmem))
  have h4 : (Event.canceled (w.canceled 0) ::
      tile_loop (thread_render_kernel b s) kg w task queue 1).filter Event.is_path_trace =
      queue.flatMap (fun tile =>
        if tile.task = TileTask.PATH_TRACE then
          (int_range tile.start_sample (tile.start_sample + tile.num_samples)).flatMap
            (path_trace_pixels (thread_render_kernel b s) tile)
        else []) := by
    rw [List.filter_cons_of_neg (by simp [Event.is_path_trace]), h3]
  refine ⟨?_, ?_, h4, ?_⟩
  · rw [List.filterMap_cons_none (by rfl), h1]
  · rw [List.filter_cons_of_neg (by simp [Event.is_release]), h2]
  · intro k1 buffer rng_state i x y offset stride hmem
    have h5 : Event.path_trace_kernel k1 buffer rng_state i x y offset stride ∈
        (Event.canceled (w.canceled 0) ::
          tile_loop (thread_render_kernel b s) kg w task queue 1).filter Event.is_path_trace :=
      List.mem_filter.2 ⟨hmem, rfl⟩
    rw [h4, List.mem_flatMap] at h5
    obtain ⟨tile, htile, he⟩ := h5
    split_ifs at he with hk
    · rw [List.mem_flatMap] at he
      obtain ⟨s1, hs1, he⟩ := he
      obtain ⟨x1, y1, hx1, hx2, hy1, hy2, heq⟩ := (mem_path_trace_pixels _ tile s1 _).1 he
      simp only [Event.path_trace_kernel.injEq] at heq
      obtain ⟨_, _, _, rfl, rfl, rfl, _, _⟩ := heq
      have hr := (mem_int_range _ _ _).1 hs1
      have hi := hint tile htile
      simp only [int_values, List.all_cons, List.all_nil, Bool.and_true, Bool.and_eq_true,
        decide_eq_true_eq] at hi ⊢
      omega
    · simp at he

/-- C6, amended, instance: two tiles under permanent cancellation. -/
theorem finish_queue_drains_and_traces_witness :
    Event.exception ∉
      thread_render ⟨false, false, false, false, false⟩ ⟨false, false, false, false, false⟩ ⟨0⟩
        canceled_world (render_task true) [small_tile, small_tile] ∧
    ((thread_render ⟨false, false, false, false, false⟩ ⟨false, false, false, false, false⟩ ⟨0⟩
      canceled_world (render_task true) [small_tile, small_tile]).filter
        Event.is_release).length = 2 :=
  ⟨by decide,
    (finish_queue_drains_and_traces ⟨false, false, false, false, false⟩
      ⟨false, false, false, false, false⟩ ⟨0⟩ canceled_world (render_task true)
      [small_tile, small_tile] rfl (by decide) (by decide)).2.1⟩

/-- C7, as stated, fails: `new[]` in `denoise_fill_buffer` and `denoise_run`
can throw, and `thread_render` has no handler, so the tile held at that moment
never reaches `release_tile`. A path-traced tile of width 1 with an overscan
of 1 gives the filter area the width -1 and `new FilterStorage[-2]` throws;
a 4 x 4 tile with an overscan of 1 is lost the same way when the allocation
of the filter buffer fails. In both runs one tile is acquired, none is
released, and the exception is the last event of the trace. -/
theorem acquired_tile_not_released_on_throw :
    ((thread_render ⟨false, false, false, false, false⟩ ⟨false, false, false, false, false⟩
        ⟨0⟩ quiet_world (render_task false) [narrow_overscan_tile]).filter
        Event.is_acquired).length = 1 ∧
    ((thread_render ⟨false, false, false, false, false⟩ ⟨false, false, false, false, false⟩
        ⟨0⟩ quiet_world (render_task false) [narrow_overscan_tile]).filter
        Event.is_release).length = 0 ∧
    (thread_render ⟨false, false, false, false, false⟩ ⟨false, false, false, false, false⟩
        ⟨0⟩ quiet_world (render_task false) [narrow_overscan_tile]).getLast? =
      some Event.exception ∧
    Event.denoise_run 7 (make_int4 11 21 (-1) 2) (make_int4 10 20 11 24) 0 4 64 ∈
      thread_render ⟨false, false, false, false, false⟩ ⟨false, false, false, false, false⟩
        ⟨0⟩ quiet_world (render_task false) [narrow_overscan_tile] ∧
    releases_balanced none
      (thread_render ⟨false, false, false, false, false⟩ ⟨false, false, false, false, false⟩
        ⟨0⟩ quiet_world (render_task false) [narrow_overscan_tile]) = false ∧
    ((thread_render ⟨false, false, false, false, false⟩ ⟨false, false, false, false, false⟩
        ⟨0⟩ ⟨fun _ => false, fun _ => false, fun tile _ => tile, fun _ _ => true⟩
        (render_task false) [overscan_tile]).filter Event.is_acquired).length = 1 ∧
    ((thread_render ⟨false, false, false, false, false⟩ ⟨false, false, false, false, false⟩
        ⟨0⟩ ⟨fun _ => false, fun _ => false, fun tile _ => tile, fun _ _ => true⟩
        (render_task false) [overscan_tile]).filter Event.is_release).length = 0 ∧
    (thread_render ⟨false, false, false, false, false⟩ ⟨false, false, false, false, false⟩
        ⟨0⟩ ⟨fun _ => false, fun _ => false, fun tile _ => tile, fun _ _ => true⟩
        (render_task false) [overscan_tile]).getLast? = some Event.exception := by
  decide

/-- C7, amended: in every execution of `thread_render` in which no `new[]`
of the denoiser throws, whatever the cancellation queries answer, whatever
`need_finish_queue` is and whatever the kinds of the tiles are, every tile
handed out by `acquire_tile` is passed to `release_tile` (the same tile up to
its sample counter) before the next `acquire_tile` call and before the
function returns, and nothing else is released; so there are as many
`release_tile` calls as successful `acquire_tile` calls. In an execution in
which a `new[]` throws, exactly one acquired tile is not released. -/
theorem acquired_tiles_released (b : KernelBuild) (s : CpuSupport) (kg : KernelGlobals)
    (w : World) (task : DeviceTask) (queue : List RenderTile) :
    (Event.exception ∉ thread_render b s kg w task queue →
      releases_balanced none (thread_render b s kg w task queue) = true ∧
      ((thread_render b s kg w task queue).filter Event.is_release).length =
        ((thread_render b s kg w task queue).filter Event.is_acquired).length) ∧
    (Event.exception ∈ thread_render b s kg w task queue →
      ((thread_render b s kg w task queue).filter Event.is_release).length + 1 =
        ((thread_render b s kg w task queue).filter Event.is_acquired).length) := by
  have h5 : ∀ x, Event.is_release (Event.canceled x) = false := fun _ => rfl
  have h6 : ∀ x, Event.is_acquired (Event.canceled x) = false := fun _ => rfl
  have hcount := tile_loop_release_count (thread_render_kernel b s) kg w task queue 1
  unfold thread_render
  simp only
  split_ifs
  · refine ⟨fun _ => ⟨rfl, rfl⟩, fun h => ?_⟩
    simp at h
  · have hiff : Event.exception ∈ [Event.canceled (w.canceled 0)] ++
          tile_loop (thread_render_kernel b s) kg w task queue 1 ↔
        Event.exception ∈ tile_loop (thread_render_kernel b s) kg w task queue 1 := by
      simp
    rw [hiff]
    simp only [List.singleton_append, List.filter_cons, h5, h6, Bool.false_eq_true, if_false]
    refine ⟨fun hno => ⟨?_, ?_⟩, fun hyes => ?_⟩
    · rw [releases_balanced_canceled]
      exact tile_loop_balanced (thread_render_kernel b s) kg w task queue 1 hno
    · rw [if_neg hno] at hcount
      exact hcount
    · rw [if_pos hyes] at hcount
      exact hcount

/-- C7, amended, instance: a queue of two path-traced tiles, the second with
an inline denoise that does not throw: both tiles are released. -/
theorem acquired_tiles_released_witness :
    Event.exception ∉
      thread_render ⟨false, false, false, false, false⟩ ⟨false, false, false, false, false⟩
        ⟨0⟩ quiet_world (render_task false) [small_tile, overscan_tile] ∧
    releases_balanced none
      (thread_render ⟨false, false, false, false, false⟩ ⟨false, false, false, false, false⟩
        ⟨0⟩ quiet_world (render_task false) [small_tile, overscan_tile]) = true ∧
    ((thread_render ⟨false, false, false, false, false⟩ ⟨false, false, false, false, false⟩
        ⟨0⟩ quiet_world (render_task false) [small_tile, overscan_tile]).filter
        Event.is_release).length =
      ((thread_render ⟨false, false, false, false, false⟩ ⟨false, false, false, false, false⟩
        ⟨0⟩ quiet_world (render_task false) [small_tile, overscan_tile]).filter
        Event.is_acquired).length :=
  ⟨by decide,
    (acquired_tiles_released ⟨false, false, false, false, false⟩
      ⟨false, false, false, false, false⟩ ⟨0⟩ quiet_world (render_task false)
      [small_tile, overscan_tile]).1 (by decide)⟩

/-- C8, as stated, fails: a shader task whose first cancellation poll answers
true evaluates sample 0 over its whole range and then returns without any
`update_progress` call. -/
theorem shader_progress_skipped_when_canceled :
    thread_shader ⟨false, false, false, false, false⟩ ⟨false, false, false, false, false⟩
      canceled_world shader_task =
      [Event.shader_kernel ⟨IsaLevel.scalar, KernelOp.shader⟩ 0 0 0 0 0 0 0 0,
        Event.get_cancel true] := by
  decide

/-- C8, amended: whatever the cancellation queries answer, `thread_shader`
runs the samples `0 ≤ s < m` as rounds consisting of the evaluation of `s`
over the whole range, a cancellation poll that answers false and exactly one
`update_progress` call; if `m` is not the end of the sample range, sample `m`
is still evaluated over the whole range, its poll answers true and the
function returns without a progress call for it. -/
theorem shader_progress_after_uncanceled_sample (b : KernelBuild) (s : CpuSupport) (w : World)
    (task : DeviceTask) :
    ∃ (m : Int) (tail : List Event),
      0 ≤ m ∧ m ≤ max 0 task.num_samples ∧
      thread_shader b s w task =
        (int_range 0 m).flatMap (shader_round (thread_shader_kernel b s) task) ++ tail ∧
      ((m = max 0 task.num_samples ∧ tail = []) ∨
        (m < task.num_samples ∧
          (tail = shader_calls (thread_shader_kernel b s) task m ++ [Event.get_cancel true] ∨
            tail = shader_calls (thread_shader_kernel b s) task m ++
              [Event.get_cancel false, Event.canceled true]))) :=
  shader_loop_shape (thread_shader_kernel b s) w task task.num_samples
    task.num_samples.toNat 0 0 (by omega)

/-- C11: mean and variance are stored in the adjacent planes `m` (even) and
`m + 1`. The calls of `denoise_fill_buffer` are those of its frames
`0 ≤ frame < frames`, each frame making the calls of step 1, step 2 and
step 3. Step 1 makes, for each of the 7 prefiltered features, with the even
plane `m` of the table `offset_to`, and for every pixel of the rect, exactly
the call of `filter_get_feature` that stores the variance in plane `m + 1`
and the non-local-means call that stores the filtered mean in plane `m` using
the variance of plane `m + 1`. Step 2 makes for every pixel of the rect the
`filter_combine_halves` call that stores the shadow mean in plane 8 and its
variance in plane 9, and no other call with a mean pointer. Step 3 makes, for
each of the 3 colour channels, with the even plane `m`, and for every pixel,
exactly the call that stores mean and variance in planes `m` and `m + 1`.
In `kernel_filter_util.h`, in every build, the depth, normal and albedo
entries of `filter_get_features` are read from an even plane `m` and the same
entries of `filter_get_feature_variance` from plane `m + 1`; every plane read
by `filter_get_feature_variance` is odd and one more than the plane read by
`filter_get_features` for the same index; the arrays returned hold these
reads (minus the mean, times the squared scale) at every index that the
second-order screen features do not overwrite. `filter_get_pixel_color` reads
planes 16, 18, 20 and `filter_get_pixel_variance` planes 17, 19, 21. -/
theorem mean_variance_planes_adjacent {α : Type} [LinearOrderedField α]
    (b : KernelBuild) (s : CpuSupport) (buffers : List Nat) (frames : Int)
    (frame_strides : List Int)
    (K : PrefilterKernels) (sample : Int) (rect : Int4)
    (buffer tile_x tile_y offsets strides : List Int) (fb ps : Int)
    (temporal second_order : Bool) (DF : Nat) (x y t : Int) (buf : Int → α)
    (features scale : Nat → α) (mean : Option (Nat → α)) (pass_stride : Int) :
    ((∀ c, c ∈ (denoise_fill_buffer b s sample rect buffers tile_x tile_y offsets strides
          frames frame_strides).2 ↔
        ∃ frame, 0 ≤ frame ∧ frame < frames ∧
          c ∈ denoise_fill_frame (denoise_fill_buffer_kernels b s) sample rect buffers
            tile_x tile_y offsets strides frame_strides (align_up (rect.z - rect.x) 4)
            (rect.w - rect.y) (align_up (rect.z - rect.x) 4 * (rect.w - rect.y) * frames)
            frame) ∧
      ∀ (w h frame : Int),
        denoise_fill_frame K sample rect buffers tile_x tile_y offsets strides frame_strides
            w h ps frame =
          prefilter_features K sample rect
              (List.zipWith (fun (p : Nat) (fs : Int) => (p : Int) + fs * frame) buffers
                frame_strides) tile_x tile_y offsets strides (w * h * frame) ps ++
            prefilter_shadow K sample rect
              (List.zipWith (fun (p : Nat) (fs : Int) => (p : Int) + fs * frame) buffers
                frame_strides) tile_x tile_y offsets strides (w * h * frame) ps ++
            copy_color K sample rect
              (List.zipWith (fun (p : Nat) (fs : Int) => (p : Int) + fs * frame) buffers
                frame_strides) tile_x tile_y offsets strides (w * h * frame) ps) ∧
    ((∀ i ∈ ([(0, 3, 0), (1, 4, 2), (2, 5, 4), (6, 9, 10), (7, 10, 12), (8, 11, 14),
          (12, 13, 6)] : List (Int × Int × Int)), i.2.2 % 2 = 0) ∧
      ∀ c, c ∈ prefilter_features K sample rect buffer tile_x tile_y offsets strides fb ps ↔
        ∃ i ∈ ([(0, 3, 0), (1, 4, 2), (2, 5, 4), (6, 9, 10), (7, 10, 12), (8, 11, 14),
            (12, 13, 6)] : List (Int × Int × Int)),
          ∃ px py, (rect.x ≤ px ∧ px < rect.z ∧ rect.y ≤ py ∧ py < rect.w) ∧
            (c = FilterCall.filter_get_feature K.filter_get_feature sample buffer i.1 i.2.1
              px py tile_x tile_y offsets strides (fb + 16 * ps) (fb + (i.2.2 + 1) * ps)
              rect ∨
            c = FilterCall.filter_non_local_means K.filter_non_local_means px py
              (fb + 16 * ps) (fb + 16 * ps) (fb + (i.2.2 + 1) * ps) (fb + i.2.2 * ps) rect
              2 2 1 (1 / 4))) ∧
    ((∀ c ∈ prefilter_shadow K sample rect buffer tile_x tile_y offsets strides fb ps,
        ∀ k px py mean_ptr variance_ptr a b rect1 r,
          c = FilterCall.filter_combine_halves k px py (some mean_ptr) variance_ptr a b rect1
            r →
          mean_ptr = fb + 8 * ps ∧ variance_ptr = fb + (8 + 1) * ps) ∧
      ∀ px py, rect.x ≤ px → px < rect.z → rect.y ≤ py → py < rect.w →
        FilterCall.filter_combine_halves K.filter_combine_halves px py (some (fb + 8 * ps))
            (fb + (8 + 1) * ps) (fb + 20 * ps) (fb + 20 * ps + ps) rect 0 ∈
          prefilter_shadow K sample rect buffer tile_x tile_y offsets strides fb ps) ∧
    ((∀ i ∈ ([(20, 23, 16), (21, 24, 18), (22, 25, 20)] : List (Int × Int × Int)),
        i.2.2 % 2 = 0) ∧
      ∀ c, c ∈ copy_color K sample rect buffer tile_x tile_y offsets strides fb ps ↔
        ∃ i ∈ ([(20, 23, 16), (21, 24, 18), (22, 25, 20)] : List (Int × Int × Int)),
          ∃ px py, (rect.x ≤ px ∧ px < rect.z ∧ rect.y ≤ py ∧ py < rect.w) ∧
            c = FilterCall.filter_get_feature K.filter_get_feature sample buffer i.1 i.2.1
              px py tile_x tile_y offsets strides (fb + i.2.2 * ps) (fb + (i.2.2 + 1) * ps)
              rect) ∧
    ((∀ j ∈ ([(0, 6), (1, 0), (2, 2), (3, 4), (5, 10), (6, 12), (7, 14)] : List (Nat × Int)),
        j.2 % 2 = 0 ∧
        (filter_get_features_stores temporal x y t)[(if temporal then 3 else 2) + j.1]? =
          some (FeatureSource.plane j.2) ∧
        (filter_get_feature_variance_stores temporal)[(if temporal then 3 else 2) + j.1]? =
          some (FeatureSource.plane (j.2 + 1))) ∧
      (∀ (i : Nat) (p : Int),
        (filter_get_feature_variance_stores temporal)[i]? = some (FeatureSource.plane p) →
        p % 2 = 1 ∧
        (filter_get_features_stores temporal x y t)[i]? = some (FeatureSource.plane (p - 1))) ∧
      (∀ (i : Nat) (m : Int),
        (filter_get_features_stores temporal x y t)[i]? = some (FeatureSource.plane m) →
        m % 2 = 0 ∧
        ((filter_get_feature_variance_stores temporal)[i]? =
            some (FeatureSource.plane (m + 1)) ∨
          (m = 8 ∧
            (filter_get_feature_variance_stores temporal)[i]? = some FeatureSource.zero)))) ∧
    ((∀ i : Nat, (second_order = true → i ≠ 10 ∧ i ≠ 11 ∧ i ≠ 12) →
        filter_get_features temporal second_order DF x y t buf features mean pass_stride i =
          (match mean with
            | some mu =>
              if i < DF then
                store_sequence features ((filter_get_features_stores temporal x y t).map
                  (FeatureSource.value buf pass_stride)) i - mu i
              else
                store_sequence features ((filter_get_features_stores temporal x y t).map
                  (FeatureSource.value buf pass_stride)) i
            | none =>
              store_sequence features ((filter_get_features_stores temporal x y t).map
                (FeatureSource.value buf pass_stride)) i) ∧
        filter_get_feature_variance temporal second_order DF x y buf features scale
            pass_stride i =
          (if i < DF then
            store_sequence features ((filter_get_feature_variance_stores temporal).map
              (FeatureSource.value buf pass_stride)) i * (scale i * scale i)
          else
            store_sequence features ((filter_get_feature_variance_stores temporal).map
              (FeatureSource.value buf pass_stride)) i)) ∧
      (second_order = true →
        filter_get_features temporal second_order DF x y t buf features mean pass_stride 10 =
          filter_get_features temporal second_order DF x y t buf features mean pass_stride 0 *
            filter_get_features temporal second_order DF x y t buf features mean
              pass_stride 0 ∧
        ∀ i ∈ [10, 11, 12],
          filter_get_feature_variance temporal second_order DF x y buf features scale
            pass_stride i = 0)) ∧
    (filter_get_pixel_color buf pass_stride =
        ⟨buf (16 * pass_stride), buf (18 * pass_stride), buf (20 * pass_stride)⟩ ∧
      filter_get_pixel_variance buf pass_stride =
        (buf ((16 + 1) * pass_stride) + buf ((18 + 1) * pass_stride) +
          buf ((20 + 1) * pass_stride)) / 3) := by
  refine ⟨⟨?_, fun _ _ _ => rfl⟩, ⟨by decide, ?_⟩, ⟨?_, ?_⟩, ⟨by decide, ?_⟩,
    ⟨?_, ?_, ?_⟩, ⟨?_, ?_⟩, ⟨rfl, rfl⟩⟩
  · intro c
    unfold denoise_fill_buffer
    simp only [List.mem_flatMap, mem_int_range]
    constructor
    · rintro ⟨frame, ⟨h1, h2⟩, hc⟩
      exact ⟨frame, h1, h2, hc⟩
    · rintro ⟨frame, h1, h2, hc⟩
      exact ⟨frame, ⟨h1, h2⟩, hc⟩
  · intro c
    unfold prefilter_features
    simp only [List.mem_flatMap, List.mem_append, List.zip_cons_cons, List.zip_nil_right,
      mem_for_pixels_iff, List.mem_singleton]
    constructor
    · rintro ⟨i, hi, ⟨px, py, h1, h2, h3, h4, hc⟩ | ⟨px, py, h1, h2, h3, h4, hc⟩⟩
      · exact ⟨i, hi, px, py, ⟨h1, h2, h3, h4⟩, Or.inl hc⟩
      · exact ⟨i, hi, px, py, ⟨h1, h2, h3, h4⟩, Or.inr hc⟩
    · rintro ⟨i, hi, px, py, ⟨h1, h2, h3, h4⟩, hc | hc⟩
      · exact ⟨i, hi, Or.inl ⟨px, py, h1, h2, h3, h4, hc⟩⟩
      · exact ⟨i, hi, Or.inr ⟨px, py, h1, h2, h3, h4, hc⟩⟩
  · intro c hc k px py mean_ptr variance_ptr a b rect1 r heq
    subst heq
    unfold prefilter_shadow at hc
    simp only [List.mem_append] at hc
    rcases hc with ((((hc | hc) | hc) | hc) | hc) | hc
    all_goals
      obtain ⟨x1, y1, hc⟩ := mem_for_pixels _ _ _ hc
      simp only [List.mem_cons, List.mem_singleton, List.mem_nil_iff, or_false,
        FilterCall.filter_combine_halves.injEq, reduceCtorEq, Option.some.injEq,
        false_and, and_false, or_self] at hc
    obtain ⟨_, _, _, h1, h2, _⟩ := hc
    exact ⟨h1, h2⟩
  · intro px py h1 h2 h3 h4
    unfold prefilter_shadow
    simp only [List.mem_append]
    refine Or.inr ((mem_for_pixels_iff _ _ _).2 ⟨px, py, h1, h2, h3, h4, ?_⟩)
    exact List.mem_singleton.2 rfl
  · intro c
    unfold copy_color
    simp only [List.mem_flatMap, List.zip_cons_cons, List.zip_nil_right,
      mem_for_pixels_iff, List.mem_singleton]
    constructor
    · rintro ⟨i, hi, px, py, h1, h2, h3, h4, hc⟩
      exact ⟨i, hi, px, py, ⟨h1, h2, h3, h4⟩, hc⟩
    · rintro ⟨i, hi, px, py, ⟨h1, h2, h3, h4⟩, hc⟩
      exact ⟨i, hi, px, py, h1, h2, h3, h4, hc⟩
  · intro j hj
    simp only [List.mem_cons, List.mem_singleton, List.mem_nil_iff, or_false] at hj
    cases temporal <;> rcases hj with rfl | rfl | rfl | rfl | rfl | rfl | rfl <;>
      exact ⟨by decide, rfl, rfl⟩
  · intro i p h
    have hlen : i < 11 := by
      by_contra hge
      rw [List.getElem?_eq_none (by cases temporal <;> simp [filter_get_feature_variance_stores]
        <;> omega)] at h
      exact absurd h (by simp)
    cases temporal <;> interval_cases i <;>
      simp [filter_get_feature_variance_stores, filter_get_features_stores] at h ⊢ <;>
      subst h <;> decide
  · intro i m h
    have hlen : i < 11 := by
      by_contra hge
      rw [List.getElem?_eq_none (by cases temporal <;> simp [filter_get_features_stores]
        <;> omega)] at h
      exact absurd h (by simp)
    cases temporal <;> interval_cases i <;>
      simp [filter_get_feature_variance_stores, filter_get_features_stores] at h ⊢ <;>
      subst h <;> decide
  · intro i hi
    cases second_order
    · cases mean <;> exact ⟨rfl, rfl⟩
    · obtain ⟨h10, h11, h12⟩ := hi rfl
      cases mean <;>
        simp [filter_get_features, filter_get_feature_variance, Function.update, h10, h11, h12]
  · intro hso
    subst hso
    refine ⟨?_, ?_⟩
    · cases mean <;> simp [filter_get_features, Function.update]
    · intro i hi
      simp only [List.mem_cons, List.mem_singleton, List.mem_nil_iff, or_false] at hi
      rcases hi with rfl | rfl | rfl <;>
        simp [filter_get_feature_variance, Function.update]

/-- C14: a `DENOISE` tile with half-window `hw ≥ 0` that lies inside the
bounds `[tile_x[0], tile_x[3]) x [tile_y[0], tile_y[3])` of the neighbour
grid, all coordinates fitting the type `int`. There is one rect that
`thread_render` computes for the tile: when the tile is the first of the
queue and the worker is not stopped on entry, the trace starts with the pool
query, `acquire_tile`, `get_neighbor_tiles` and `denoise_fill_buffer` with
this rect and the grid bounds, followed (unless `new[]` throws) by
`denoise_run` with the tile as filter area and the same rect; the same calls
follow every `acquire_tile` that hands out the tile, wherever it stands in
the queue. The rect lies inside the grid bounds, contains the whole tile, and
contains every pixel `(x + dx, y + dy)` with `(x, y)` in the tile,
`|dx| ≤ hw`, `|dy| ≤ hw` that lies inside the grid bounds. -/
theorem denoise_rect_covers_window (b : KernelBuild) (s : CpuSupport) (kg : KernelGlobals)
    (w : World) (task : DeviceTask) (tile : RenderTile) (queue : List RenderTile)
    (hk : tile.task = TileTask.DENOISE)
    (hhw : 0 ≤ kg.half_window)
    (hx0 : (w.get_neighbor_tiles tile 3).x ≤ tile.x)
    (hx3 : tile.x + tile.w ≤ (w.get_neighbor_tiles tile 5).x + (w.get_neighbor_tiles tile 5).w)
    (hy0 : (w.get_neighbor_tiles tile 1).y ≤ tile.y)
    (hy3 : tile.y + tile.h ≤
      (w.get_neighbor_tiles tile 7).y + (w.get_neighbor_tiles tile 7).h)
    (hint : int_values [tile.x - kg.half_window, tile.y - kg.half_window,
      tile.x + tile.w + kg.half_window + 1, tile.y + tile.h + kg.half_window + 1,
      (w.get_neighbor_tiles tile 3).x, (w.get_neighbor_tiles tile 1).y,
      (w.get_neighbor_tiles tile 5).x + (w.get_neighbor_tiles tile 5).w,
      (w.get_neighbor_tiles tile 7).y + (w.get_neighbor_tiles tile 7).h] = true) :
    ∃ rect : Int4,
      ((w.canceled 0 && !task.need_finish_queue) = false →
        ∃ (buffers : List Nat) (offsets strides frame_stride : List Int) (rest : List Event),
          thread_render b s kg w task (tile :: queue) =
            Event.canceled (w.canceled 0) :: Event.acquire_tile (some tile) ::
              Event.get_neighbor_tiles tile ::
              Event.denoise_fill_buffer (tile.start_sample + tile.num_samples) rect buffers
                [(w.get_neighbor_tiles tile 3).x, (w.get_neighbor_tiles tile 4).x,
                  (w.get_neighbor_tiles tile 5).x,
                  (w.get_neighbor_tiles tile 5).x + (w.get_neighbor_tiles tile 5).w]
                [(w.get_neighbor_tiles tile 1).y, (w.get_neighbor_tiles tile 4).y,
                  (w.get_neighbor_tiles tile 7).y,
                  (w.get_neighbor_tiles tile 7).y + (w.get_neighbor_tiles tile 7).h]
                offsets strides tile.params.frames frame_stride :: rest ∧
          (rest = [Event.exception] ∨
            ∃ rest1, rest = Event.denoise_run (tile.start_sample + tile.num_samples)
              (make_int4 tile.x tile.y tile.w tile.h) rect tile.offset tile.stride
              tile.buffer :: rest1)) ∧
      (∀ pre post : List Event,
        thread_render b s kg w task queue = pre ++ Event.acquire_tile (some tile) :: post →
        ∃ (buffers : List Nat) (offsets strides frame_stride : List Int) (rest : List Event),
          post = Event.get_neighbor_tiles tile ::
              Event.denoise_fill_buffer (tile.start_sample + tile.num_samples) rect buffers
                [(w.get_neighbor_tiles tile 3).x, (w.get_neighbor_tiles tile 4).x,
                  (w.get_neighbor_tiles tile 5).x,
                  (w.get_neighbor_tiles tile 5).x + (w.get_neighbor_tiles tile 5).w]
                [(w.get_neighbor_tiles tile 1).y, (w.get_neighbor_tiles tile 4).y,
                  (w.get_neighbor_tiles tile 7).y,
                  (w.get_neighbor_tiles tile 7).y + (w.get_neighbor_tiles tile 7).h]
                offsets strides tile.params.frames frame_stride :: rest ∧
          (rest = [Event.exception] ∨
            ∃ rest1, rest = Event.denoise_run (tile.start_sample + tile.num_samples)
              (make_int4 tile.x tile.y tile.w tile.h) rect tile.offset tile.stride
              tile.buffer :: rest1)) ∧
      ((w.get_neighbor_tiles tile 3).x ≤ rect.x ∧
        rect.z ≤ (w.get_neighbor_tiles tile 5).x + (w.get_neighbor_tiles tile 5).w ∧
        (w.get_neighbor_tiles tile 1).y ≤ rect.y ∧
        rect.w ≤ (w.get_neighbor_tiles tile 7).y + (w.get_neighbor_tiles tile 7).h) ∧
      (rect.x ≤ tile.x ∧ tile.x + tile.w ≤ rect.z ∧
        rect.y ≤ tile.y ∧ tile.y + tile.h ≤ rect.w) ∧
      (∀ x y dx dy, tile.x ≤ x → x < tile.x + tile.w → tile.y ≤ y → y < tile.y + tile.h →
        |dx| ≤ kg.half_window → |dy| ≤ kg.half_window →
        (w.get_neighbor_tiles tile 3).x ≤ x + dx →
        x + dx < (w.get_neighbor_tiles tile 5).x + (w.get_neighbor_tiles tile 5).w →
        (w.get_neighbor_tiles tile 1).y ≤ y + dy →
        y + dy < (w.get_neighbor_tiles tile 7).y + (w.get_neighbor_tiles tile 7).h →
        rect.x ≤ x + dx ∧ x + dx < rect.z ∧ rect.y ≤ y + dy ∧ y + dy < rect.w) ∧
      int_values [rect.x, rect.y, rect.z, rect.w] = true := by
  obtain ⟨hA, hB⟩ := thread_render_denoise_calls b s kg w task tile queue hk
  simp only [int_values, List.all_cons, List.all_nil, Bool.and_true, Bool.and_eq_true,
    decide_eq_true_eq] at hint
  refine ⟨make_int4 (max (tile.x - kg.half_window) (w.get_neighbor_tiles tile 3).x)
      (max (tile.y - kg.half_window) (w.get_neighbor_tiles tile 1).y)
      (min (tile.x + tile.w + kg.half_window + 1)
        ((w.get_neighbor_tiles tile 5).x + (w.get_neighbor_tiles tile 5).w))
      (min (tile.y + tile.h + kg.half_window + 1)
        ((w.get_neighbor_tiles tile 7).y + (w.get_neighbor_tiles tile 7).h)),
    ?_, ?_, ?_, ?_, ?_, ?_⟩
  · exact hA
  · exact hB
  · simp only [make_int4]
    exact ⟨le_max_right _ _, min_le_right _ _, le_max_right _ _, min_le_right _ _⟩
  · simp only [make_int4]
    exact ⟨max_le (by omega) hx0, le_min (by omega) hx3, max_le (by omega) hy0,
      le_min (by omega) hy3⟩
  · intro x y dx dy h1 h2 h3 h4 h5 h6 h7 h8 h9 h10
    rw [abs_le] at h5 h6
    simp only [make_int4]
    exact ⟨max_le (by omega) h7, lt_min (by omega) h8, max_le (by omega) h9,
      lt_min (by omega) h10⟩
  · simp only [int_values, List.all_cons, List.all_nil, Bool.and_true, Bool.and_eq_true,
      decide_eq_true_eq, make_int4]
    omega

/-- C14, instance: the `DENOISE` tile of 4 x 4 pixels at (10, 20) with
half-window 2 as the only tile of the queue, in a grid of 3 x 3 tiles of that
size with the bounds `[6, 18) x [16, 28)`. The rect that `thread_render`
passes to `denoise_fill_buffer` contains the pixels (8, 18) and (15, 25),
which lie 2 pixels outside the tile at opposite corners. -/
theorem denoise_rect_covers_window_witness :
    ((grid_world.get_neighbor_tiles denoise_sample_tile 3).x ≤ denoise_sample_tile.x ∧
      denoise_sample_tile.x + denoise_sample_tile.w ≤
        (grid_world.get_neighbor_tiles denoise_sample_tile 5).x +
          (grid_world.get_neighbor_tiles denoise_sample_tile 5).w) ∧
    ∃ (rect : Int4) (buffers : List Nat) (offsets strides frame_stride : List Int)
      (rest : List Event),
      thread_render ⟨false, false, false, false, false⟩ ⟨false, false, false, false, false⟩
          ⟨2⟩ grid_world (render_task false) [denoise_sample_tile] =
        Event.canceled false :: Event.acquire_tile (some denoise_sample_tile) ::
          Event.get_neighbor_tiles denoise_sample_tile ::
          Event.denoise_fill_buffer 7 rect buffers [6, 10, 14, 18] [16, 20, 24, 28] offsets
            strides 1 frame_stride :: rest ∧
      (rect.x ≤ 10 + (-2) ∧ 10 + (-2) < rect.z ∧ rect.y ≤ 20 + (-2) ∧ 20 + (-2) < rect.w) ∧
      (rect.x ≤ 13 + 2 ∧ 13 + 2 < rect.z ∧ rect.y ≤ 23 + 2 ∧ 23 + 2 < rect.w) := by
  refine ⟨by decide, ?_⟩
  obtain ⟨rect, hA, -, -, -, hwin, -⟩ :=
    denoise_rect_covers_window ⟨false, false, false, false, false⟩
      ⟨false, false, false, false, false⟩ ⟨2⟩ grid_world (render_task false)
      denoise_sample_tile [] rfl (by decide) (by decide) (by decide) (by decide) (by decide)
      (by decide)
  obtain ⟨buffers, offsets, strides, frame_stride, rest, htr, -⟩ := hA rfl
  exact ⟨rect, buffers, offsets, strides, frame_stride, rest, htr,
    hwin 10 20 (-2) (-2) (by decide) (by decide) (by decide) (by decide) (by decide)
      (by decide) (by decide) (by decide) (by decide) (by decide),
    hwin 13 23 2 2 (by decide) (by decide) (by decide) (by decide) (by decide)
      (by decide) (by decide) (by decide) (by decide) (by decide)⟩

/-- C15: `thread_film_convert` uses the half-float kernel when
`task.rgba_half` is not null and the byte kernel otherwise; in both cases
every call is the call for a pixel `(x, y)` of the task's region with the
task's pointers, offset and stride and with `sample_scale = 1 / (sample + 1)`,
and the call for each pixel of the region is made exactly once; for a sample
count `n ≥ 0` that scale times `n + 1` is 1. -/
theorem film_convert_every_pixel_once (b : KernelBuild) (s : CpuSupport) (task : DeviceTask) :
    (task.rgba_half ≠ 0 →
      (∀ c ∈ thread_film_convert b s task,
        ∃ x y, task.x ≤ x ∧ x < task.x + task.w ∧ task.y ≤ y ∧ y < task.y + task.h ∧
          c = ConvertCall.convert_to_half_float (thread_film_convert_half_kernel b s)
            task.rgba_half task.buffer (1 / (((task.sample + 1 : Int) : Rat))) x y
            task.offset task.stride) ∧
      (∀ x y, task.x ≤ x → x < task.x + task.w → task.y ≤ y → y < task.y + task.h →
        (thread_film_convert b s task).count
          (ConvertCall.convert_to_half_float (thread_film_convert_half_kernel b s)
            task.rgba_half task.buffer (1 / (((task.sample + 1 : Int) : Rat))) x y
            task.offset task.stride) = 1)) ∧
    (task.rgba_half = 0 →
      (∀ c ∈ thread_film_convert b s task,
        ∃ x y, task.x ≤ x ∧ x < task.x + task.w ∧ task.y ≤ y ∧ y < task.y + task.h ∧
          c = ConvertCall.convert_to_byte (thread_film_convert_byte_kernel b s)
            task.rgba_byte task.buffer (1 / (((task.sample + 1 : Int) : Rat))) x y
            task.offset task.stride) ∧
      (∀ x y, task.x ≤ x → x < task.x + task.w → task.y ≤ y → y < task.y + task.h →
        (thread_film_convert b s task).count
          (ConvertCall.convert_to_byte (thread_film_convert_byte_kernel b s)
            task.rgba_byte task.buffer (1 / (((task.sample + 1 : Int) : Rat))) x y
            task.offset task.stride) = 1)) ∧
    (0 ≤ task.sample →
      (1 / (((task.sample + 1 : Int) : Rat))) * ((task.sample : Rat) + 1) = 1) := by
  refine ⟨?_, ?_, ?_⟩
  · intro h
    unfold thread_film_convert
    simp only [h, ne_eq, not_false_eq_true, if_true]
    constructor
    · intro c hc
      exact (mem_grid _ _ _ _ _ c).1 hc
    · intro x y hx1 hx2 hy1 hy2
      apply List.count_eq_one_of_mem
      · apply nodup_grid
        intro x1 y1 x2 y2 heq
        simp only [ConvertCall.convert_to_half_float.injEq] at heq
        exact ⟨heq.2.2.2.2.1, heq.2.2.2.2.2.1⟩
      · exact (mem_grid _ _ _ _ _ _).2 ⟨x, y, hx1, hx2, hy1, hy2, rfl⟩
  · intro h
    unfold thread_film_convert
    simp only [h, ne_eq, not_true_eq_false, if_false]
    constructor
    · intro c hc
      exact (mem_grid _ _ _ _ _ c).1 hc
    · intro x y hx1 hx2 hy1 hy2
      apply List.count_eq_one_of_mem
      · apply nodup_grid
        intro x1 y1 x2 y2 heq
        simp only [ConvertCall.convert_to_byte.injEq] at heq
        exact ⟨heq.2.2.2.2.1, heq.2.2.2.2.2.1⟩
      · exact (mem_grid _ _ _ _ _ _).2 ⟨x, y, hx1, hx2, hy1, hy2, rfl⟩
  · intro h
    have h2 : ((task.sample : Rat) + 1) ≠ 0 := by
      have : (0 : Rat) ≤ (task.sample : Rat) := by exact_mod_cast h
      linarith
    push_cast
    field_simp

/-- C16, as stated, fails: for a descriptor with a null `data_pointer` and a
`memory_size()` of 4, `mem_alloc` leaves `device_pointer` null, so the
following `mem_free` does nothing: `device_size` stays 4 and the used memory
of the stats stays 4 above its value before `mem_alloc`. -/
theorem mem_free_skips_null_pointer :
    mem_free (mem_alloc ⟨0, 0, 0, 4⟩ ⟨0, 0⟩).1 (mem_alloc ⟨0, 0, 0, 4⟩ ⟨0, 0⟩).2 =
      (⟨0, 0, 4, 4⟩, ⟨4, 4⟩) := by
  decide

/-- C16, amended: for every descriptor, `mem_alloc` makes `device_pointer`
equal to `data_pointer` and `device_size` equal to `memory_size()`, and
`mem_copy_to` and `mem_copy_from` change neither the descriptor nor the
stats; when `data_pointer` is not null or `memory_size()` is 0, a following
`mem_free` leaves `device_pointer = 0`, `device_size = 0` and the used memory
of the stats at its value before `mem_alloc`, and changes nothing else of the
descriptor; when `data_pointer` is null, the following `mem_free` changes
neither the descriptor nor the stats, so that `device_size` stays
`memory_size()` and the used memory stays `memory_size()` above its value
before `mem_alloc`; in both cases a second `mem_free` changes nothing. -/
theorem mem_alloc_free_roundtrip (mem : device_memory) (stats : Stats) :
    ((mem_alloc mem stats).1.device_pointer = mem.data_pointer ∧
      (mem_alloc mem stats).1.device_size = mem.memory_size ∧
      (mem_alloc mem stats).1.data_pointer = mem.data_pointer ∧
      (mem_alloc mem stats).1.memory_size = mem.memory_size ∧
      (mem_alloc mem stats).2.mem_used = stats.mem_used + mem.memory_size) ∧
    (mem_copy_to (mem_alloc mem stats).1 (mem_alloc mem stats).2 = mem_alloc mem stats ∧
      ∀ (m : device_memory) (st : Stats) (y w h elem : Int),
        mem_copy_to m st = (m, st) ∧ mem_copy_from m st y w h elem = (m, st)) ∧
    (mem.data_pointer ≠ 0 ∨ mem.memory_size = 0 →
      (mem_free (mem_alloc mem stats).1 (mem_alloc mem stats).2).1 =
        { mem with device_pointer := 0, device_size := 0 } ∧
      (mem_free (mem_alloc mem stats).1 (mem_alloc mem stats).2).2.mem_used =
        stats.mem_used) ∧
    (mem.data_pointer = 0 →
      mem_free (mem_alloc mem stats).1 (mem_alloc mem stats).2 = mem_alloc mem stats ∧
      (mem_free (mem_alloc mem stats).1 (mem_alloc mem stats).2).1.device_size =
        mem.memory_size ∧
      (mem_free (mem_alloc mem stats).1 (mem_alloc mem stats).2).2.mem_used =
        stats.mem_used + mem.memory_size) ∧
    mem_free (mem_free (mem_alloc mem stats).1 (mem_alloc mem stats).2).1
        (mem_free (mem_alloc mem stats).1 (mem_alloc mem stats).2).2 =
      mem_free (mem_alloc mem stats).1 (mem_alloc mem stats).2 := by
  refine ⟨⟨rfl, rfl, rfl, rfl, rfl⟩, ⟨rfl, fun _ _ _ _ _ _ => ⟨rfl, rfl⟩⟩, ?_, ?_, ?_⟩
  · intro hptr
    unfold mem_free mem_alloc
    by_cases h : mem.data_pointer = 0
    · have h2 : mem.memory_size = 0 := by
        rcases hptr with h1 | h1
        · exact absurd h h1
        · exact h1
      simp [h, h2, Stats.mem_alloc]
    · simp [h, Stats.mem_alloc, Stats.mem_free]
  · intro h
    unfold mem_free mem_alloc
    simp [h, Stats.mem_alloc]
  · unfold mem_free mem_alloc
    by_cases h : mem.data_pointer = 0
    · simp [h]
    · simp [h]

/-- C16, amended, instance: a descriptor of 4 bytes at address 64 while 10
bytes are in use. -/
theorem mem_alloc_free_roundtrip_witness :
    (mem_free (mem_alloc ⟨64, 0, 0, 4⟩ ⟨10, 12⟩).1 (mem_alloc ⟨64, 0, 0, 4⟩ ⟨10, 12⟩).2).1 =
      ⟨64, 0, 0, 4⟩ ∧
    (mem_free (mem_alloc ⟨64, 0, 0, 4⟩ ⟨10, 12⟩).1
      (mem_alloc ⟨64, 0, 0, 4⟩ ⟨10, 12⟩).2).2.mem_used = 10 :=
  (mem_alloc_free_roundtrip ⟨64, 0, 0, 4⟩ ⟨10, 12⟩).2.2.1 (Or.inl (by decide))

/-- C17: `filter_fill_design_row` over a linearly ordered field, in
particular over the reals, for every rank (a rank below 0 runs no iteration):
with `x2 d` the squared projection of iteration `d`, the weight returned is 0
if `x2 d ≥ 1` for some `d < rank`, and otherwise the product over `d < rank`
of `0.75 * (1 - x2 d)`; it lies between 0 and `0.75 ^ rank`, it is 1 for a
rank of at most 0, and `design_row[0]` is written with 1. -/
theorem design_row_weight_epanechnikov {α : Type} [LinearOrderedField α] (DF : Nat)
    (features : Nat → α) (rank : Int) (ft : Nat → α) (bf : Option (Nat → α)) :
    ((∃ d, d < rank.toNat ∧ 1 ≤ design_row_x2 DF features ft bf d) →
      (filter_fill_design_row DF features rank ft bf).1 = 0) ∧
    ((∀ d, d < rank.toNat → design_row_x2 DF features ft bf d < 1) →
      (filter_fill_design_row DF features rank ft bf).1 =
        ∏ d in Finset.range rank.toNat, (3 / 4 * (1 - design_row_x2 DF features ft bf d))) ∧
    (0 ≤ (filter_fill_design_row DF features rank ft bf).1 ∧
      (filter_fill_design_row DF features rank ft bf).1 ≤ (3 / 4) ^ rank.toNat) ∧
    (rank ≤ 0 → (filter_fill_design_row DF features rank ft bf).1 = 1) ∧
    (filter_fill_design_row DF features rank ft bf).2 0 = some 1 := by
  obtain ⟨h1, h2, h3⟩ := filter_fill_design_row_loop_weight DF features rank.toNat ft bf
    rank.toNat 0 1 (Function.update (fun _ => none) 0 (some 1))
  simp only [Nat.zero_add, one_mul] at h1 h2 h3
  refine ⟨h1, h2, h3 (by norm_num), ?_, ?_⟩
  · intro hr
    have : rank.toNat = 0 := by omega
    unfold filter_fill_design_row
    rw [this]
    rfl
  · unfold filter_fill_design_row
    rw [filter_fill_design_row_loop_zero]
    simp

/-- C19: over a linearly ordered field with any square-root function, in
particular over the reals, `filter_calculate_scale` replaces the positional
entries, the depth entry and the shadow entry `s` by `1 / max(s, 0.01)` and
the normal and albedo entries by `1 / max(sqrtf(s), 0.01)`, and leaves the
entries behind them alone; every divisor is at least 0.01, so every entry
written lies in the interval (0, 100]. -/
theorem calculate_scale_clamped {α : Type} [LinearOrderedField α] (temporal : Bool)
    (sqrtf : α → α) (scale : Nat → α) :
    (∀ i, (i < (if temporal then 3 else 2) + 1 ∨ i = (if temporal then 3 else 2) + 4) →
      filter_calculate_scale temporal sqrtf scale i = 1 / max (scale i) (1 / 100)) ∧
    (∀ i, (((if temporal then 3 else 2) + 1 ≤ i ∧ i ≤ (if temporal then 3 else 2) + 3) ∨
        ((if temporal then 3 else 2) + 5 ≤ i ∧ i ≤ (if temporal then 3 else 2) + 7)) →
      filter_calculate_scale temporal sqrtf scale i = 1 / max (sqrtf (scale i)) (1 / 100)) ∧
    (∀ i, (if temporal then 3 else 2) + 7 < i →
      filter_calculate_scale temporal sqrtf scale i = scale i) ∧
    (∀ i, i ≤ (if temporal then 3 else 2) + 7 →
      (∃ divisor : α, 1 / 100 ≤ divisor ∧
        filter_calculate_scale temporal sqrtf scale i = 1 / divisor) ∧
      0 < filter_calculate_scale temporal sqrtf scale i ∧
      filter_calculate_scale temporal sqrtf scale i ≤ 100) := by
  have hA : ∀ i, (i < (if temporal then 3 else 2) + 1 ∨ i = (if temporal then 3 else 2) + 4) →
      filter_calculate_scale temporal sqrtf scale i = 1 / max (scale i) (1 / 100) := by
    intro i hi
    cases temporal
    · simp only [Bool.false_eq_true, if_false] at hi
      rw [filter_calculate_scale_static, if_pos (by omega)]
    · simp only [if_true] at hi
      rw [filter_calculate_scale_temporal, if_pos (by omega)]
  have hB : ∀ i,
      (((if temporal then 3 else 2) + 1 ≤ i ∧ i ≤ (if temporal then 3 else 2) + 3) ∨
        ((if temporal then 3 else 2) + 5 ≤ i ∧ i ≤ (if temporal then 3 else 2) + 7)) →
      filter_calculate_scale temporal sqrtf scale i =
        1 / max (sqrtf (scale i)) (1 / 100) := by
    intro i hi
    cases temporal
    · simp only [Bool.false_eq_true, if_false] at hi
      rw [filter_calculate_scale_static, if_neg (by omega), if_pos (by omega)]
    · simp only [if_true] at hi
      rw [filter_calculate_scale_temporal, if_neg (by omega), if_pos (by omega)]
  have hdiv : ∀ v : α, (1 / 100 : α) ≤ max v (1 / 100) := fun v => le_max_right _ _
  have hbound : ∀ dv : α, 1 / 100 ≤ dv → 0 < 1 / dv ∧ 1 / dv ≤ 100 := by
    intro dv h
    have hpos : (0 : α) < dv := lt_of_lt_of_le (by norm_num) h
    refine ⟨by positivity, ?_⟩
    rw [div_le_iff₀ hpos]
    linarith
  refine ⟨hA, hB, ?_, ?_⟩
  · intro i hi
    cases temporal
    · simp only [Bool.false_eq_true, if_false] at hi
      rw [filter_calculate_scale_static, if_neg (by omega), if_neg (by omega)]
    · simp only [if_true] at hi
      rw [filter_calculate_scale_temporal, if_neg (by omega), if_neg (by omega)]
  · intro i hi
    have hcase : (i < (if temporal then 3 else 2) + 1 ∨ i = (if temporal then 3 else 2) + 4) ∨
        (((if temporal then 3 else 2) + 1 ≤ i ∧ i ≤ (if temporal then 3 else 2) + 3) ∨
          ((if temporal then 3 else 2) + 5 ≤ i ∧ i ≤ (if temporal then 3 else 2) + 7)) := by
      omega
    rcases hcase with h | h
    · rw [hA i h]
      exact ⟨⟨_, hdiv _, rfl⟩, hbound _ (hdiv _)⟩
    · rw [hB i h]
      exact ⟨⟨_, hdiv _, rfl⟩, hbound _ (hdiv _)⟩

/-- C20: over a linearly ordered field (exact arithmetic), for every rank,
feature transform and optional bandwidth factors and for every lane `l`: if
the lane is active, the weight `filter_fill_design_row_sse` returns in lane
`l` is the weight `filter_fill_design_row` returns for the lane's features,
transform and bandwidth factors, and every entry of `design_row` the scalar
function writes is written by the SSE function with the same value in lane
`l`; if the lane is not active, its weight is 0. -/
theorem design_row_sse_refines_scalar {α : Type} [LinearOrderedField α] (DF : Nat)
    (features : Nat → m128 α) (active_pixels : Fin 4 → Bool) (rank : Int)
    (ft : Nat → m128 α) (bf : Option (Nat → m128 α)) (l : Fin 4) :
    (active_pixels l = true →
      (filter_fill_design_row_sse DF features active_pixels rank ft bf).1 l =
        (filter_fill_design_row DF (lane l features) rank (lane l ft) (bf.map (lane l))).1 ∧
      ∀ i v,
        (filter_fill_design_row DF (lane l features) rank (lane l ft) (bf.map (lane l))).2 i
          = some v →
        ∃ V, (filter_fill_design_row_sse DF features active_pixels rank ft bf).2 i = some V ∧
          V l = v) ∧
    (active_pixels l = false →
      (filter_fill_design_row_sse DF features active_pixels rank ft bf).1 l = 0) := by
  constructor
  · intro hact
    unfold filter_fill_design_row_sse filter_fill_design_row
    apply filter_fill_design_row_sse_loop_lane DF features active_pixels rank.toNat ft bf l hact
    · omega
    · simp [_mm_mask_ps, hact]
    · intro i v hv
      by_cases hi : i = 0
      · subst hi
        rw [Function.update_same] at hv
        refine ⟨Or.inl (by omega), _, Function.update_same _ _ _, ?_⟩
        simp only [_mm_mask_ps, hact, if_true]
        exact Option.some.inj hv
      · rw [Function.update_noteq hi] at hv
        cases hv
  · intro hact
    unfold filter_fill_design_row_sse
    apply filter_fill_design_row_sse_loop_zero
    simp [_mm_mask_ps, hact]

/-- C21: over a linearly ordered field (exact arithmetic) with any
square-root function, the scalar and the SSE firefly test decide alike in
every lane `l`: the mask that `filter_firefly_rejection_sse` returns is set
in lane `l` exactly when `filter_firefly_rejection` returns false for the
pixel colour, pixel variance, centre colour and centre standard deviation of
that lane. The SSE function returns the mask of the accepted pixels, the
scalar function the rejection flag. -/
theorem firefly_rejection_sse_refines_scalar {α : Type} [LinearOrderedField α]
    (sqrtf : α → α) (pixel_color : Nat → m128 α) (pixel_variance : m128 α)
    (center_color : Nat → m128 α) (sqrt_center_variance : m128 α) (l : Fin 4) :
    filter_firefly_rejection_sse sqrtf pixel_color pixel_variance center_color
        sqrt_center_variance l = true ↔
      filter_firefly_rejection sqrtf ⟨pixel_color 0 l, pixel_color 1 l, pixel_color 2 l⟩
        (pixel_variance l) ⟨center_color 0 l, center_color 1 l, center_color 2 l⟩
        (sqrt_center_variance l) = false := by
  simp only [filter_firefly_rejection_sse, filter_firefly_rejection, _mm_fabs_ps, average,
    fabs, decide_eq_true_eq, decide_eq_false_iff_not, not_lt, gt_iff_lt]
  constructor <;> intro h <;> linarith

/-- C22: when at least one of the five support flags is enabled,
`device_cpu_capabilities` returns the names of the enabled levels among
SSE2, SSE3, SSE41, AVX, AVX2, in that order, separated by single spaces; the
string returned neither starts nor ends with a space. -/
theorem capabilities_lists_enabled_levels (s : CpuSupport)
    (h : (s.sse2 || s.sse3 || s.sse41 || s.avx || s.avx2) = true) :
    ∃ capabilities : String,
      device_cpu_capabilities s = some capabilities ∧
      capabilities = " ".intercalate
        (([("SSE2", s.sse2), ("SSE3", s.sse3), ("SSE41", s.sse41), ("AVX", s.avx),
          ("AVX2", s.avx2)].filter fun level => level.2).map fun level => level.1) ∧
      capabilities.data.head? ≠ some ' ' ∧ capabilities.data.getLast? ≠ some ' ' := by
  obtain ⟨sse2, sse3, sse41, avx, avx2⟩ := s
  cases sse2 <;> cases sse3 <;> cases sse41 <;> cases avx <;> cases avx2 <;>
    first
    | exact absurd h (by decide)
    | exact ⟨_, rfl, by decide, by decide, by decide⟩

/-- C22, instance: a processor with SSE2, SSE3 and AVX. -/
theorem capabilities_lists_enabled_levels_witness :
    (true || true || false || true || false) = true ∧
    ∃ capabilities : String,
      device_cpu_capabilities ⟨true, true, false, true, false⟩ = some capabilities ∧
      capabilities = " ".intercalate
        (([("SSE2", true), ("SSE3", true), ("SSE41", false), ("AVX", true),
          ("AVX2", false)].filter fun level => level.2).map fun level => level.1) ∧
      capabilities.data.head? ≠ some ' ' ∧ capabilities.data.getLast? ≠ some ' ' :=
  ⟨rfl, capabilities_lists_enabled_levels ⟨true, true, false, true, false⟩ rfl⟩

/-- C26: the non-temporal loops `FOR_PIXEL_WINDOW` and `FOR_PIXEL_WINDOW_SSE`
over a window with `low.x ≤ high.x` and `low.y ≤ high.y`. Whenever the body
is entered with the coordinates `(px, py)`, the pointer `pixel_buffer` is
`buffer + (py - rect.y) * buffer_w + (px - rect.x)`. The scalar loop enters
the body once for every pixel of the window, row by row; the SSE loop enters
it in every row for `px = low.x, low.x + 4, ...` below `high.x`, so that
`pixel_buffer` points to the first of the four current pixels. -/
theorem pixel_window_pointer_invariant (buffer : Int) (rect : Int4) (low high : Int2)
    (buffer_w : Int) (hx : low.x ≤ high.x) (hy : low.y ≤ high.y) :
    (∀ v ∈ FOR_PIXEL_WINDOW buffer rect low high buffer_w,
      v.2.2 = buffer + (v.2.1 - rect.y) * buffer_w + (v.1 - rect.x)) ∧
    (FOR_PIXEL_WINDOW buffer rect low high buffer_w).map (fun v => (v.1, v.2.1)) =
      ((int_range low.y high.y).flatMap fun py =>
        (int_range low.x high.x).map fun px => (px, py)) ∧
    (∀ v ∈ FOR_PIXEL_WINDOW_SSE buffer rect low high buffer_w,
      v.2.2 = buffer + (v.2.1 - rect.y) * buffer_w + (v.1 - rect.x)) ∧
    (FOR_PIXEL_WINDOW_SSE buffer rect low high buffer_w).map (fun v => (v.1, v.2.1)) =
      ((int_range low.y high.y).flatMap fun py =>
        (List.range ((high.x - low.x + 3) / 4).toNat).map fun (k : Nat) =>
          (low.x + 4 * (k : Int), py)) := by
  have h1 := for_pixel_window_rows_spec low high buffer_w hx (high.y - low.y).toNat low.y
    (buffer + (low.y - rect.y) * buffer_w + (low.x - rect.x)) (by omega)
  have h2 := for_pixel_window_sse_rows_spec low high buffer_w (high.y - low.y).toNat low.y
    (buffer + (low.y - rect.y) * buffer_w + (low.x - rect.x)) (by omega)
  refine ⟨?_, ?_, ?_, ?_⟩
  · intro v hv
    rw [FOR_PIXEL_WINDOW, h1] at hv
    simp only [List.mem_flatMap, List.mem_map] at hv
    obtain ⟨r, -, q, -, rfl⟩ := hv
    show buffer + (low.y - rect.y) * buffer_w + (low.x - rect.x) + (r - low.y) * buffer_w +
      (q - low.x) = buffer + (r - rect.y) * buffer_w + (q - rect.x)
    ring
  · rw [FOR_PIXEL_WINDOW, h1, List.map_flatMap]
    simp only [List.map_map]
    rfl
  · intro v hv
    rw [FOR_PIXEL_WINDOW_SSE, h2] at hv
    simp only [List.mem_flatMap, List.mem_map] at hv
    obtain ⟨r, -, k, -, rfl⟩ := hv
    show buffer + (low.y - rect.y) * buffer_w + (low.x - rect.x) + (r - low.y) * buffer_w +
      4 * (k : Int) = buffer + (r - rect.y) * buffer_w + (low.x + 4 * (k : Int) - rect.x)
    ring
  · rw [FOR_PIXEL_WINDOW_SSE, h2, List.map_flatMap]
    simp only [List.map_map]
    rfl

/-- C26, instance: the window `[4, 7) x [5, 7)` of a buffer of width 10 at
address 1000 whose rect starts at (2, 3). The scalar loop enters the body at
the pixel (5, 6) with the pointer 1033. -/
theorem pixel_window_pointer_invariant_witness :
    ((4 : Int) ≤ 7 ∧ (5 : Int) ≤ 7) ∧
    ((5, 6, 1033) : Int × Int × Int) ∈ FOR_PIXEL_WINDOW 1000 ⟨2, 3, 12, 13⟩ ⟨4, 5⟩ ⟨7, 7⟩ 10 ∧
    (1033 : Int) = 1000 + (6 - 3) * 10 + (5 - 2) :=
  ⟨⟨by decide, by decide⟩, by decide,
    (pixel_window_pointer_invariant 1000 ⟨2, 3, 12, 13⟩ ⟨4, 5⟩ ⟨7, 7⟩ 10 (by decide)
      (by decide)).1 (5, 6, 1033) (by decide)⟩

/-- C27: no filter pass of `denoise_fill_buffer` runs in place. For every
call that `denoise_fill_buffer` makes, in particular every
`filter_non_local_means` and `filter_combine_halves` call of the feature and
the shadow prefilter, no plane the call writes is a plane the call reads
(noisy image, weight image, variance; the two halves). In the shadow
prefilter of a frame with a non-zero pass stride, the two loops that issue
two non-local-means calls per pixel, `cross` (radius 5) and `second`
(radius 4), are such that no plane written by a call of the loop is read by
any call of the same loop, whichever pixels the two calls are for. -/
theorem filter_passes_not_in_place (b : KernelBuild) (s : CpuSupport) (sample : Int)
    (rect : Int4) (buffers : List Nat) (tile_x tile_y offsets strides : List Int)
    (frames : Int) (frame_strides : List Int) (K : PrefilterKernels) (buffer : List Int)
    (fb ps : Int) (hps : ps ≠ 0) :
    (∀ c ∈ (denoise_fill_buffer b s sample rect buffers tile_x tile_y offsets strides frames
        frame_strides).2, ∀ o ∈ c.outputs, o ∉ c.inputs) ∧
    (∃ before cross between second after : List FilterCall,
      prefilter_shadow K sample rect buffer tile_x tile_y offsets strides fb ps =
        before ++ cross ++ between ++ second ++ after ∧
      cross = for_pixels rect (fun x y =>
        [FilterCall.filter_non_local_means K.filter_non_local_means x y
          (fb + 20 * ps) (fb + 21 * ps) (fb + 19 * ps) (fb + 16 * ps) rect 5 3 1 (1 / 4),
         FilterCall.filter_non_local_means K.filter_non_local_means x y
          (fb + 21 * ps) (fb + 20 * ps) (fb + 19 * ps) (fb + 18 * ps) rect 5 3 1 (1 / 4)]) ∧
      second = for_pixels rect (fun x y =>
        [FilterCall.filter_non_local_means K.filter_non_local_means x y
          (fb + 16 * ps) (fb + 18 * ps) (fb + 17 * ps) (fb + 20 * ps) rect 4 2 1 (1 / 2),
         FilterCall.filter_non_local_means K.filter_non_local_means x y
          (fb + 18 * ps) (fb + 16 * ps) (fb + 17 * ps) (fb + 21 * ps) rect 4 2 1 (1 / 2)]) ∧
      (∀ c1 ∈ cross, ∀ c2 ∈ cross, ∀ o ∈ c1.outputs, o ∉ c2.inputs) ∧
      (∀ c1 ∈ second, ∀ c2 ∈ second, ∀ o ∈ c1.outputs, o ∉ c2.inputs)) := by
  constructor
  · intro c hc o ho
    simp only [denoise_fill_buffer, List.mem_flatMap, mem_int_range] at hc
    obtain ⟨frame, ⟨hf1, hf2⟩, hc⟩ := hc
    unfold denoise_fill_frame at hc
    have hrect := frame_call_rect_nonempty _ _ _ _ _ _ _ _ _ _ c hc
    have hw4 := align_up_four (rect.z - rect.x)
    have hwpos : 0 < align_up (rect.z - rect.x) 4 := by omega
    have hhpos : 0 < rect.w - rect.y := by omega
    have hfpos : 0 < frames := by omega
    have hpos : 0 < align_up (rect.z - rect.x) 4 * (rect.w - rect.y) * frames :=
      mul_pos (mul_pos hwpos hhpos) hfpos
    exact frame_outputs_not_inputs _ _ _ _ _ _ _ _ _ _ (ne_of_gt hpos) c hc o ho
  · refine ⟨_, _, _, _, _, prefilter_shadow_stages K sample rect buffer tile_x tile_y
      offsets strides fb ps, rfl, rfl, ?_, ?_⟩
    all_goals
      intro c1 h1 c2 h2 o ho
      obtain ⟨x1, y1, h1⟩ := mem_for_pixels _ _ _ h1
      obtain ⟨x2, y2, h2⟩ := mem_for_pixels _ _ _ h2
      simp only [List.mem_cons, List.mem_nil_iff, or_false] at h1 h2
      rcases h1 with rfl | rfl <;> rcases h2 with rfl | rfl <;>
        simp only [FilterCall.outputs, List.mem_singleton] at ho <;> subst ho <;>
        simp only [FilterCall.inputs, List.mem_cons, List.mem_nil_iff, or_false,
          plane_ptr_inj _ _ _ _ hps] <;> norm_num

/-- C27, instance: a frame with a pass stride of 4 floats and a rect of one
pixel. Plane 16 at offset 64, which the first call of the `cross` loop
writes, is not read by the second call of that loop. -/
theorem filter_passes_not_in_place_witness :
    (4 : Int) ≠ 0 ∧
    (0 + 16 * 4 : Int) ∉
      (FilterCall.filter_non_local_means
        (denoise_fill_buffer_kernels ⟨false, false, false, false, false⟩
          ⟨false, false, false, false, false⟩).filter_non_local_means
        0 0 (0 + 21 * 4) (0 + 20 * 4) (0 + 19 * 4) (0 + 18 * 4) ⟨0, 0, 1, 1⟩ 5 3 1
        (1 / 4)).inputs := by
  refine ⟨by decide, ?_⟩
  obtain ⟨-, before, cross, between, second, after, -, hcross, -, h, -⟩ :=
    filter_passes_not_in_place ⟨false, false, false, false, false⟩
      ⟨false, false, false, false, false⟩ 1 ⟨0, 0, 1, 1⟩ [0, 0, 0, 0, 64, 0, 0, 0, 0]
      [0, 0, 1, 1] [0, 0, 1, 1] [0, 0, 0, 0, 0, 0, 0, 0, 0] [0, 0, 0, 0, 1, 0, 0, 0, 0] 1
      [0, 0, 0, 0, 26, 0, 0, 0, 0]
      (denoise_fill_buffer_kernels ⟨false, false, false, false, false⟩
        ⟨false, false, false, false, false⟩)
      [0, 0, 0, 0, 64, 0, 0, 0, 0] 0 4 (by decide)
  subst hcross
  exact h _
    ((mem_for_pixels_iff _ _ _).2 ⟨0, 0, by decide, by decide, by decide, by decide,
      List.mem_cons_self _ _⟩) _
    ((mem_for_pixels_iff _ _ _).2 ⟨0, 0, by decide, by decide, by decide, by decide,
      List.mem_cons_of_mem _ (List.mem_singleton.2 rfl)⟩) _ (List.mem_singleton.2 rfl)

/-- C28 fails on the code: a worker whose task does not finish the queue
renders a tile with overscan while `task.get_cancel()` answers false and
`task_pool.canceled()` answers true from the sample loop on. The sample loop
is left at its first poll, before any pixel is path-traced, and the guard of
the inline denoise, which asks `task.get_cancel()` alone, lets
`denoise_fill_buffer` and `denoise_run` run with the sample count
`end_sample = 7`, although the sample 6 has not been traced for any pixel. -/
theorem overscan_denoise_after_pool_cancel :
    thread_render ⟨false, false, false, false, false⟩ ⟨false, false, false, false, false⟩
        ⟨3⟩ pool_canceled_world (render_task false) [overscan_tile] =
      [Event.canceled false, Event.acquire_tile (some overscan_tile), Event.get_cancel false,
        Event.canceled true, Event.get_cancel false] ++ overscan_denoise overscan_tile 7 ++
        [Event.release_tile overscan_tile, Event.canceled true] ∧
    (thread_render ⟨false, false, false, false, false⟩ ⟨false, false, false, false, false⟩
        ⟨3⟩ pool_canceled_world (render_task false) [overscan_tile]).filter
      Event.is_path_trace = [] ∧
    Event.denoise_run 7 (make_int4 11 21 2 2) (make_int4 10 20 14 24) 0 4 64 ∈
      thread_render ⟨false, false, false, false, false⟩ ⟨false, false, false, false, false⟩
        ⟨3⟩ pool_canceled_world (render_task false) [overscan_tile] := by
  refine ⟨by decide, by decide, by decide⟩

/-- C29, as stated, fails: for the `DENOISE` tile of 4 x 4 pixels at (10, 20)
with half-window 2 in a grid of 3 x 3 tiles of that size, no side of the rect
is clamped by the grid bounds `[6, 18) x [16, 28)`, and `thread_render`
passes the rect `[8, 17) x [18, 27)` to `denoise_fill_buffer` and
`denoise_run`: 2 pixels more than the tile on the low sides and 3 pixels more
on the high sides, not the rect `[8, 16) x [18, 26)` of the claim. -/
theorem denoise_rect_high_side_one_more :
    ((grid_world.get_neighbor_tiles denoise_sample_tile 3).x < 10 - 2 ∧
      10 + 4 + 2 + 1 < (grid_world.get_neighbor_tiles denoise_sample_tile 5).x +
        (grid_world.get_neighbor_tiles denoise_sample_tile 5).w ∧
      (grid_world.get_neighbor_tiles denoise_sample_tile 1).y < 20 - 2 ∧
      20 + 4 + 2 + 1 < (grid_world.get_neighbor_tiles denoise_sample_tile 7).y +
        (grid_world.get_neighbor_tiles denoise_sample_tile 7).h) ∧
    thread_render ⟨false, false, false, false, false⟩ ⟨false, false, false, false, false⟩
        ⟨2⟩ grid_world (render_task false) [denoise_sample_tile] =
      [Event.canceled false, Event.acquire_tile (some denoise_sample_tile),
        Event.get_neighbor_tiles denoise_sample_tile,
        Event.denoise_fill_buffer 7 (make_int4 8 18 17 27)
          [64, 64, 64, 64, 64, 64, 64, 64, 64] [6, 10, 14, 18] [16, 20, 24, 28]
          [0, 0, 0, 0, 0, 0, 0, 0, 0] [4, 4, 4, 4, 4, 4, 4, 4, 4] 1
          [416, 416, 416, 416, 416, 416, 416, 416, 416],
        Event.denoise_run 7 (make_int4 10 20 4 4) (make_int4 8 18 17 27) 0 4 64,
        Event.update_progress (some { denoise_sample_tile with sample := 7 }),
        Event.release_tile { denoise_sample_tile with sample := 7 },
        Event.canceled false, Event.acquire_tile none] ∧
    make_int4 8 18 17 27 ≠ make_int4 (10 - 2) (20 - 2) (10 + 4 + 2) (20 + 4 + 2) := by
  decide

/-- C29, amended: a `DENOISE` tile whose filter rect is not clamped by the
bounds of the neighbour grid on any side, all coordinates fitting the type
`int`. The rect that `thread_render` passes to `denoise_fill_buffer` and
`denoise_run` is exactly
`[tile.x - hw, tile.x + tile.w + hw + 1) x [tile.y - hw, tile.y + tile.h + hw + 1)`:
the tile extended by the half-window `hw` on its low sides and by `hw + 1` on
its high sides. It is passed when the tile is the first of the queue and the
worker is not stopped on entry, and after every `acquire_tile` that hands out
the tile. The rect contains the `(2*hw+1)`-wide windows centred on the tile's
pixels, and its last column and last row belong to none of these windows. -/
theorem denoise_rect_unclamped (b : KernelBuild) (s : CpuSupport) (kg : KernelGlobals)
    (w : World) (task : DeviceTask) (tile : RenderTile) (queue : List RenderTile)
    (hk : tile.task = TileTask.DENOISE)
    (hx0 : (w.get_neighbor_tiles tile 3).x ≤ tile.x - kg.half_window)
    (hx3 : tile.x + tile.w + kg.half_window + 1 ≤
      (w.get_neighbor_tiles tile 5).x + (w.get_neighbor_tiles tile 5).w)
    (hy0 : (w.get_neighbor_tiles tile 1).y ≤ tile.y - kg.half_window)
    (hy3 : tile.y + tile.h + kg.half_window + 1 ≤
      (w.get_neighbor_tiles tile 7).y + (w.get_neighbor_tiles tile 7).h)
    (hint : int_values [tile.x - kg.half_window, tile.y - kg.half_window,
      tile.x + tile.w + kg.half_window + 1, tile.y + tile.h + kg.half_window + 1,
      (w.get_neighbor_tiles tile 3).x, (w.get_neighbor_tiles tile 1).y,
      (w.get_neighbor_tiles tile 5).x + (w.get_neighbor_tiles tile 5).w,
      (w.get_neighbor_tiles tile 7).y + (w.get_neighbor_tiles tile 7).h] = true) :
    ∃ rect : Int4,
      rect = make_int4 (tile.x - kg.half_window) (tile.y - kg.half_window)
        (tile.x + tile.w + kg.half_window + 1) (tile.y + tile.h + kg.half_window + 1) ∧
      ((w.canceled 0 && !task.need_finish_queue) = false →
        ∃ (buffers : List Nat) (offsets strides frame_stride : List Int) (rest : List Event),
          thread_render b s kg w task (tile :: queue) =
            Event.canceled (w.canceled 0) :: Event.acquire_tile (some tile) ::
              Event.get_neighbor_tiles tile ::
              Event.denoise_fill_buffer (tile.start_sample + tile.num_samples) rect buffers
                [(w.get_neighbor_tiles tile 3).x, (w.get_neighbor_tiles tile 4).x,
                  (w.get_neighbor_tiles tile 5).x,
                  (w.get_neighbor_tiles tile 5).x + (w.get_neighbor_tiles tile 5).w]
                [(w.get_neighbor_tiles tile 1).y, (w.get_neighbor_tiles tile 4).y,
                  (w.get_neighbor_tiles tile 7).y,
                  (w.get_neighbor_tiles tile 7).y + (w.get_neighbor_tiles tile 7).h]
                offsets strides tile.params.frames frame_stride :: rest ∧
          (rest = [Event.exception] ∨
            ∃ rest1, rest = Event.denoise_run (tile.start_sample + tile.num_samples)
              (make_int4 tile.x tile.y tile.w tile.h) rect tile.offset tile.stride
              tile.buffer :: rest1)) ∧
      (∀ pre post : List Event,
        thread_render b s kg w task queue = pre ++ Event.acquire_tile (some tile) :: post →
        ∃ (buffers : List Nat) (offsets strides frame_stride : List Int) (rest : List Event),
          post = Event.get_neighbor_tiles tile ::
              Event.denoise_fill_buffer (tile.start_sample + tile.num_samples) rect buffers
                [(w.get_neighbor_tiles tile 3).x, (w.get_neighbor_tiles tile 4).x,
                  (w.get_neighbor_tiles tile 5).x,
                  (w.get_neighbor_tiles tile 5).x + (w.get_neighbor_tiles tile 5).w]
                [(w.get_neighbor_tiles tile 1).y, (w.get_neighbor_tiles tile 4).y,
                  (w.get_neighbor_tiles tile 7).y,
                  (w.get_neighbor_tiles tile 7).y + (w.get_neighbor_tiles tile 7).h]
                offsets strides tile.params.frames frame_stride :: rest ∧
          (rest = [Event.exception] ∨
            ∃ rest1, rest = Event.denoise_run (tile.start_sample + tile.num_samples)
              (make_int4 tile.x tile.y tile.w tile.h) rect tile.offset tile.stride
              tile.buffer :: rest1)) ∧
      (∀ x y dx dy, tile.x ≤ x → x < tile.x + tile.w → tile.y ≤ y → y < tile.y + tile.h →
        |dx| ≤ kg.half_window → |dy| ≤ kg.half_window →
        (rect.x ≤ x + dx ∧ x + dx < rect.z ∧ rect.y ≤ y + dy ∧ y + dy < rect.w) ∧
        x + dx ≠ rect.z - 1 ∧ y + dy ≠ rect.w - 1) ∧
      int_values [rect.x, rect.y, rect.z, rect.w] = true := by
  obtain ⟨hA, hB⟩ := thread_render_denoise_calls b s kg w task tile queue hk
  rw [max_eq_left hx0, max_eq_left hy0, min_eq_left hx3, min_eq_left hy3] at hA hB
  simp only [int_values, List.all_cons, List.all_nil, Bool.and_true, Bool.and_eq_true,
    decide_eq_true_eq] at hint
  refine ⟨_, rfl, hA, hB, ?_, ?_⟩
  · intro x y dx dy h1 h2 h3 h4 h5 h6
    rw [abs_le] at h5 h6
    simp only [make_int4]
    omega
  · simp only [int_values, List.all_cons, List.all_nil, Bool.and_true, Bool.and_eq_true,
      decide_eq_true_eq, make_int4]
    omega

/-- C29, amended, instance: the `DENOISE` tile of 4 x 4 pixels at (10, 20)
with half-window 2 as the only tile of the queue, in a grid of 3 x 3 tiles of
that size: the rect passed to `denoise_fill_buffer` is `[8, 17) x [18, 27)`. -/
theorem denoise_rect_unclamped_witness :
    ((grid_world.get_neighbor_tiles denoise_sample_tile 3).x ≤ denoise_sample_tile.x - 2 ∧
      denoise_sample_tile.x + denoise_sample_tile.w + 2 + 1 ≤
        (grid_world.get_neighbor_tiles denoise_sample_tile 5).x +
          (grid_world.get_neighbor_tiles denoise_sample_tile 5).w) ∧
    ∃ (rect : Int4) (buffers : List Nat) (offsets strides frame_stride : List Int)
      (rest : List Event),
      rect = make_int4 8 18 17 27 ∧
      thread_render ⟨false, false, false, false, false⟩ ⟨false, false, false, false, false⟩
          ⟨2⟩ grid_world (render_task false) [denoise_sample_tile] =
        Event.canceled false :: Event.acquire_tile (some denoise_sample_tile) ::
          Event.get_neighbor_tiles denoise_sample_tile ::
          Event.denoise_fill_buffer 7 rect buffers [6, 10, 14, 18] [16, 20, 24, 28] offsets
            strides 1 frame_stride :: rest := by
  refine ⟨by decide, ?_⟩
  obtain ⟨rect, hrect, hA, -, -, -⟩ :=
    denoise_rect_unclamped ⟨false, false, false, false, false⟩
      ⟨false, false, false, false, false⟩ ⟨2⟩ grid_world (render_task false)
      denoise_sample_tile [] rfl (by decide) (by decide) (by decide) (by decide) (by decide)
  obtain ⟨buffers, offsets, strides, frame_stride, rest, htr, -⟩ := hA rfl
  exact ⟨rect, buffers, offsets, strides, frame_stride, rest, by rw [hrect]; decide, htr⟩

/-- C30 fails on the code: when no vector extension is enabled the string
`capabilities` is empty, the index `capabilities.size() - 1` examined for a
trailing space is `2 ^ 64 - 1`, which is not an index into the string, and
`device_cpu_capabilities` does not return the empty string but reads outside
the string. -/
theorem capabilities_empty_reads_out_of_range :
    device_cpu_capabilities ⟨false, false, false, false, false⟩ = none ∧
    device_cpu_capabilities ⟨false, false, false, false, false⟩ ≠ some "" ∧
    ("".length + 2 ^ 64 - 1) % 2 ^ 64 = 18446744073709551615 ∧
    "".data[("".length + 2 ^ 64 - 1) % 2 ^ 64]? = none := by
  refine ⟨by decide, by decide, by decide, by decide⟩

end Cycles
